import Mathlib

/-!
HyperDex asynchronous client (`hyperclient/async_client.cc`).

A shallow embedding of the request multiplexer of the HyperDex client:
the two pending-operation variants and their reply decoders, the frame
codec used by `send` and `flush`, the `update` preflight, request
submission (`add_reqrep`), `connect`, and the readiness cycle of `flush`.

Conventions of the embedding.

* Machine integers are natural numbers; a narrowing store is an explicit
  reduction modulo the width of the destination.
* An `e::buffer` is a list of octets; an `e::unpacker` is the list of octets
  that are still unread; a `std::out_of_range` thrown by an extraction is the
  result `none`.
* User continuations are named by a number; invoking one appends an event to
  the trace of the client.  The submission path is modelled twice: once with
  continuations that make no call into the client while they run, and once,
  in the namespace `reentrant`, with continuations that submit further
  requests from inside the call that invoked them; the two agree when the
  continuations make no submission.  The continuations that `flush` invokes
  are taken to make no call into the client while the loops of `flush` run.
* Channel objects live in a store and are referred to by their index in it;
  they are never taken out of the store.
* Socket operations of a submission are answered by a `network` argument and
  recorded in the trace.  The coordinator link and the calls `poll`, `recv`
  and `xread` of `flush` are answered by an `environment`, a transition system
  over an arbitrary state.
* Loops that need not end (`flush`, `connect`) take a bound on the number of
  passes and yield `none` when the bound is reached.
-/

namespace hyperclient

/-! ## Buffers and the serialization convention of `e::buffer` -/

/-- One octet of a buffer. -/
abbrev octet := Fin 256

/-- Contents of an `e::buffer`. -/
abbrev buffer := List octet

/-- Modelled from the spec: integer fields are written in "network byte order"
by the packer of the `e` library (not in src/).  Big-endian image of `n` in `w`
octets; the value is reduced modulo `256 ^ w`, as a store into a `w`-octet
unsigned integer is. -/
def pack_uint : Nat → Nat → buffer
  | 0, _ => []
  | w + 1, n => pack_uint w (n / 256) ++ [⟨n % 256, Nat.mod_lt _ (by decide)⟩]

/-- Value of a big-endian octet string. -/
def be_value (b : buffer) : Nat :=
  b.foldl (fun acc x => acc * 256 + x.val) 0

/-- Extraction `up >> x` for a `w`-octet unsigned integer: `none` stands for the
`std::out_of_range` raised when fewer than `w` octets are left. -/
def unpack_uint (w : Nat) (up : buffer) : Option (Nat × buffer) :=
  if w ≤ up.length then some (be_value (up.take w), up.drop w) else none

/-- Modelled from the spec: the serialization convention of the `e` library
(`e/buffer.h`, `e/bitfield.h` are not in src/).  "Variable-length byte strings
are length-prefixed (length width dictated by the shared serialization
convention)": the widths, in octets, of the element count of a vector and of
the length of a byte string are parameters, and so is the image of a bitfield. -/
structure packing where
  /-- Octets of the element count written in front of a `std::vector`. -/
  count_width : Nat
  /-- Octets of the length written in front of an `e::buffer`. -/
  size_width : Nat
  /-- Image of an `e::bitfield` under `<<`. -/
  pack_bitfield : List Bool → buffer

/-- Modelled from the spec: "variable-length byte strings are length-prefixed".
Insertion `<< b` of a buffer: length, then the octets. -/
def pack_buffer (P : packing) (b : buffer) : buffer :=
  pack_uint P.size_width b.length ++ b

/-- Modelled from the spec: "append-to-buffer serialization of fields in
declaration order".  Insertion `<< v` of a vector of buffers: element count,
then every element. -/
def pack_vector (P : packing) (v : List buffer) : buffer :=
  pack_uint P.count_width v.length ++ (v.map (pack_buffer P)).flatten

/-- Modelled from the spec: the inverse of the buffer insertion.  Extraction
`up >> b` of a buffer; `none` is the `std::out_of_range` raised when the length
field or the announced octets are not all there. -/
def unpack_buffer (P : packing) (up : buffer) : Option (buffer × buffer) :=
  match unpack_uint P.size_width up with
  | none => none
  | some (sz, rest) => if sz ≤ rest.length then some (rest.take sz, rest.drop sz) else none

/-- Modelled from the spec: "decode an ordered list of attribute values", where
"any decode error (truncation, unknown code) maps to `ServerError`" and the
values handed to the continuation are "empty unless `status == Success`"; the
extraction operator of the `e` library is not in src/.  Element loop of the
vector extraction: the elements are read one after the other and collected
behind `dst`; `none` is the `std::out_of_range` raised when an element is cut
short, and then no list has been decoded. -/
def unpack_elems (P : packing) : Nat → buffer → List buffer → Option (List buffer × buffer)
  | 0, up, dst => some (dst, up)
  | n + 1, up, dst =>
    match unpack_buffer P up with
    | none => none
    | some (b, rest) => unpack_elems P n rest (dst ++ [b])

/-- Modelled from the spec: the inverse of the vector insertion (the extraction
operator of the `e` library is not in src/).  Extraction `up >> v` into the
vector `dst`: the element count, then the element loop.  The first component
is the vector after the extraction, the second the unread octets, or `none`
when `std::out_of_range` was raised; a list that cannot be decoded leaves the
vector as it was. -/
def unpack_vector (P : packing) (up : buffer) (dst : List buffer) :
    List buffer × Option buffer :=
  match unpack_uint P.count_width up with
  | none => (dst, none)
  | some (cnt, rest) =>
    match unpack_elems P cnt rest dst with
    | none => (dst, none)
    | some (v, rest1) => (v, some rest1)

/-! ## Status codes and protocol constants -/

/-- Client-visible status (`hyperclient::returncode`). -/
inductive returncode
  | SUCCESS
  | NOTFOUND
  | WRONGARITY
  | NOTASPACE
  | BADDIMENSION
  | COORDFAIL
  | SERVERERROR
  | CONNECTFAIL
  | DISCONNECT
  | RECONFIGURE
  | LOGICERROR
  deriving DecidableEq, Repr

open returncode

/-- A `hyperdex::network_msgtype`, by its numeric value. -/
abbrev network_msgtype := Nat

/-- Enumerators of `hyperdex/network_constants.h` (not in src/), by numeric
value: the message types used by the client and the network return codes. -/
structure network_constants where
  REQ_GET : network_msgtype
  RESP_GET : network_msgtype
  REQ_PUT : network_msgtype
  RESP_PUT : network_msgtype
  REQ_DEL : network_msgtype
  RESP_DEL : network_msgtype
  REQ_UPDATE : network_msgtype
  RESP_UPDATE : network_msgtype
  NET_SUCCESS : Nat
  NET_NOTFOUND : Nat
  NET_WRONGARITY : Nat
  NET_NOTUS : Nat
  NET_SERVERERROR : Nat

/-- The five network return codes are distinct 16-bit values (they label the
cases of one `switch` over a `uint16_t`). -/
def network_constants.codes_ok (N : network_constants) : Prop :=
  [N.NET_SUCCESS, N.NET_NOTFOUND, N.NET_WRONGARITY, N.NET_NOTUS, N.NET_SERVERERROR].Nodup ∧
  ∀ c ∈ [N.NET_SUCCESS, N.NET_NOTFOUND, N.NET_WRONGARITY, N.NET_NOTUS, N.NET_SERVERERROR],
    c < 65536

instance (N : network_constants) : Decidable N.codes_ok := by
  unfold network_constants.codes_ok; infer_instance

/-! ## Identifiers of the cluster protocol -/

/-- Modelled from the spec: `hyperdex::spaceid` (hyperdex/ids.h is not in src/),
"an opaque handle produced by the topology map for a named space"; the source
reads its member `space`. -/
structure spaceid where
  space : Nat
  deriving DecidableEq, Repr

/-- Modelled from the spec: `hyperdex::regionid` (hyperdex/ids.h is not in src/),
"a tuple (space, subspace-index, prefix-bits, prefix-value) naming a shard
range", in the order of the constructor call in `add_reqrep`. -/
structure regionid where
  space : Nat
  subspace : Nat
  bits : Nat
  mask : Nat
  deriving DecidableEq, Repr

/-- Modelled from the spec: `hyperdex::entityid` (hyperdex/ids.h is not in src/),
an identifier "serializable to a fixed width".  An entity is represented by its
serialized image, `S` octets long, where `S` stands for
`hyperdex::entityid::SERIALIZEDSIZE`. -/
structure entityid (S : Nat) where
  bytes : buffer
  size_eq : bytes.length = S
  deriving DecidableEq, Repr

/-- Modelled from the spec: `hyperdex::instance` (hyperdex/instance.h is not in
src/), "a network endpoint plus an `inbound_version`".  The name `instance` is
reserved in Lean. -/
structure hyperdex_instance where
  inbound : Nat
  inbound_version : Nat
  deriving DecidableEq, Repr

/-- The default-constructed `hyperdex::entityid()`. -/
def entityid.zero (S : Nat) : entityid S :=
  ⟨List.replicate S 0, List.length_replicate S 0⟩

/-- Insertion `<< e` of an entity: its `S` octets. -/
def pack_entityid {S : Nat} (e : entityid S) : buffer := e.bytes

/-- Extraction `up >> e` of an entity. -/
def unpack_entityid (S : Nat) (up : buffer) : Option (entityid S × buffer) :=
  if h : S ≤ up.length then
    some (⟨up.take S, by rw [List.length_take]; exact Nat.min_eq_left h⟩, up.drop S)
  else none

/-- Modelled from the spec: a topology snapshot (`hyperdex::configuration`,
hyperdex/configuration.h is not in src/), "an immutable map exposing
`lookup_spaceid(name)`, `lookup_space_dimensions(spaceid)`, `headof(region)`,
`instancefor(entity)`". -/
structure configuration (S : Nat) where
  lookup_spaceid : String → spaceid
  lookup_space_dimensions : spaceid → List String
  headof : regionid → entityid S
  instancefor : entityid S → hyperdex_instance

/-- What the translation unit takes from headers that are not in src/: the
enumerators of the protocol, the serialization convention, the sentinels of
`hyperdex::configuration` and the key hash of `hashing.h`. -/
structure externals (S : Nat) where
  consts : network_constants
  pack : packing
  NULLSPACE : spaceid
  NULLINSTANCE : hyperdex_instance
  /-- The entity `hyperdex::entityid(hyperdex::configuration::CLIENTSPACE)`. -/
  CLIENTSPACE : entityid S
  CityHash64 : buffer → Nat

/-- Answers of the operating system to the socket calls of the client. -/
structure network where
  /-- Constructor of `channel`: the descriptor of the connected socket, or
  `none` when a `po6::error` is thrown. -/
  connect : hyperdex_instance → Option Int
  /-- Whether `xsend` of these octets on this descriptor returns normally. -/
  xsend : Int → buffer → Bool

/-- Modelled from the spec: the return codes of `hyperdex::coordinatorlink`
(hyperdex/coordinatorlink.h is not in src/), "`connect() → Success | ConnectFail
| Disconnect | Shutdown | LogicError`; `loop(max_events, timeout_ms) → same`". -/
inductive coordinatorlink_returncode
  | SUCCESS
  | CONNECTFAIL
  | DISCONNECT
  | SHUTDOWN
  | LOGICERROR
  deriving DecidableEq, Repr

/-- The bits of the `revents` member of a `pollfd` that `flush` tests. -/
structure revents where
  POLLIN : Bool
  POLLHUP : Bool
  POLLERR : Bool
  deriving DecidableEq, Repr

/-- Outcome of the call of `poll` in `flush`: a negative return value, or the
`revents` of the request slots, in order, and whether the `revents` of the
coordinator slot is different from zero. -/
inductive poll_result
  | failed
  | ready (slots : List revents) (coord : Bool)
  deriving DecidableEq, Repr

/-- Outcome of `xread`: a thrown `po6::error`, or the octets that were read. -/
inductive xread_result
  | error
  | data (bytes : buffer)
  deriving DecidableEq, Repr

/-- Modelled from the spec: the surroundings of `flush` and `connect`, as a
transition system over states `W`: the coordinator link `m_coord` (spec 6.1:
`connect`, `loop`, `connected`, `unacknowledged`, `config`, `acknowledge`) and
the answers of the operating system to `poll`, to the peeking `recv` of four
octets (the size field it read, if it got four octets) and to `xread`. -/
structure environment (S : Nat) (W : Type) where
  connected : W → Bool
  connect : W → coordinatorlink_returncode × W
  loop : W → Nat → Int → coordinatorlink_returncode × W
  unacknowledged : W → Bool
  config : W → configuration S
  acknowledge : W → W
  poll : W → List Int → poll_result × W
  recv_peek : W → Int → Option Nat × W
  xread : W → Int → Nat → xread_result × W

/-! ## Trace of observable actions -/

/-- Observable actions of the client, in the order they happen. -/
inductive event
  /-- A read continuation was invoked with a status and a value list. -/
  | callback_get (cb : Nat) (ret : returncode) (value : List buffer)
  /-- A mutate continuation was invoked with a status. -/
  | callback_mutate (cb : Nat) (ret : returncode)
  /-- The constructor of a channel tried to connect a socket. -/
  | connect (inst : hyperdex_instance) (ok : Bool)
  /-- The octets `packed` were handed to `xsend` on the socket `soc`. -/
  | xsend (soc : Int) (packed : buffer) (ok : Bool)
  /-- The coordinator link was asked to connect and answered `ret`. -/
  | coord_connect (ret : coordinatorlink_returncode)
  deriving DecidableEq, Repr

/-! ## Pending operations -/

namespace pending_get

/-- The one-argument `pending_get::result(returncode ret)`. -/
def result (m_callback : Nat) (ret : returncode) : List event :=
  [event.callback_get m_callback ret []]

/-- The `switch` of `pending_get::result` once `response` has been read. -/
def result_switch (N : network_constants) (P : packing) (m_callback : Nat)
    (response : Nat) (up : buffer) (value : List buffer) : List event :=
  if response = N.NET_SUCCESS then
    match unpack_vector P up value with
    | (value, some _) => [event.callback_get m_callback SUCCESS value]
    | (value, none) => [event.callback_get m_callback SERVERERROR value]
  else if response = N.NET_NOTFOUND then [event.callback_get m_callback NOTFOUND value]
  else if response = N.NET_WRONGARITY then [event.callback_get m_callback WRONGARITY value]
  else if response = N.NET_NOTUS then [event.callback_get m_callback LOGICERROR value]
  else if response = N.NET_SERVERERROR then [event.callback_get m_callback SERVERERROR value]
  else [event.callback_get m_callback SERVERERROR value]

/-- The three-argument `pending_get::result(ret, msg_type, msg)`: the
continuation calls it makes.  The pointer it returns is always null. -/
def result_msg (N : network_constants) (P : packing) (m_callback : Nat)
    (ret : returncode) (msg_type : network_msgtype) (msg : buffer) : List event :=
  let value : List buffer := []
  if ret ≠ SUCCESS then [event.callback_get m_callback ret value]
  else if msg_type ≠ N.RESP_GET then [event.callback_get m_callback SERVERERROR value]
  else
    match unpack_uint 2 msg with
    | none => [event.callback_get m_callback SERVERERROR value]
    | some (response, up) => result_switch N P m_callback response up value

end pending_get

namespace pending_mutate

/-- The one-argument `pending_mutate::result(returncode ret)`. -/
def result (m_callback : Nat) (ret : returncode) : List event :=
  [event.callback_mutate m_callback ret]

/-- The `switch` of `pending_mutate::result` once `response` has been read. -/
def result_switch (N : network_constants) (m_callback : Nat) (response : Nat) : List event :=
  if response = N.NET_SUCCESS then [event.callback_mutate m_callback SUCCESS]
  else if response = N.NET_NOTFOUND then [event.callback_mutate m_callback NOTFOUND]
  else if response = N.NET_WRONGARITY then [event.callback_mutate m_callback WRONGARITY]
  else if response = N.NET_NOTUS then [event.callback_mutate m_callback LOGICERROR]
  else if response = N.NET_SERVERERROR then [event.callback_mutate m_callback SERVERERROR]
  else [event.callback_mutate m_callback SERVERERROR]

/-- The three-argument `pending_mutate::result(ret, msg_type, msg)`: the
continuation calls it makes.  The pointer it returns is always null. -/
def result_msg (N : network_constants) (m_expected : network_msgtype) (m_callback : Nat)
    (ret : returncode) (msg_type : network_msgtype) (msg : buffer) : List event :=
  if ret ≠ SUCCESS then [event.callback_mutate m_callback ret]
  else if msg_type ≠ m_expected then [event.callback_mutate m_callback SERVERERROR]
  else
    match unpack_uint 2 msg with
    | none => [event.callback_mutate m_callback SERVERERROR]
    | some (response, _) => result_switch N m_callback response

end pending_mutate

/-- The class `channel`. -/
structure channel (S : Nat) where
  soc : Int
  nonce : Nat
  id : entityid S
  deriving DecidableEq, Repr

/-- The two concrete classes derived from `pending`, with their members. -/
inductive pending_variant
  | pending_get (m_callback : Nat)
  | pending_mutate (m_expected : network_msgtype) (m_callback : Nat)
  deriving DecidableEq, Repr

/-- The class `pending`: `chan` is a pointer into the channel store of the
client (`none` is the null pointer). -/
structure pending (S : Nat) where
  chan : Option Nat
  ent : entityid S
  inst : hyperdex_instance
  nonce : Nat
  variant : pending_variant
  deriving DecidableEq, Repr

/-- The constructor `pending::pending()` followed by the constructor of the
derived class. -/
def pending.create (S : Nat) (variant : pending_variant) : pending S :=
  { chan := none, ent := entityid.zero S, inst := ⟨0, 0⟩, nonce := 0, variant := variant }

/-- Virtual call `op->result(ret)`. -/
def pending.result {S : Nat} (op : pending S) (ret : returncode) : List event :=
  match op.variant with
  | .pending_get cb => pending_get.result cb ret
  | .pending_mutate _ cb => pending_mutate.result cb ret

/-- Virtual call `op->result(status, msg_type, msg)`; the returned pointer is
null in both derived classes. -/
def pending.result_msg {S : Nat} (N : network_constants) (P : packing) (op : pending S)
    (ret : returncode) (msg_type : network_msgtype) (msg : buffer) : List event :=
  match op.variant with
  | .pending_get cb => pending_get.result_msg N P cb ret msg_type msg
  | .pending_mutate expected cb => pending_mutate.result_msg N expected cb ret msg_type msg

/-! ## Associative containers -/

/-- The call `m.find(k)` of a `std::map`, as the mapped entry if there is one. -/
def map_find {K V : Type} [DecidableEq K] : List (K × V) → K → Option (K × V)
  | [], _ => none
  | (k0, v0) :: m, k => if k0 = k then some (k0, v0) else map_find m k

/-- The call `m.erase(k)` of a `std::map`. -/
def map_erase {K V : Type} [DecidableEq K] (m : List (K × V)) (k : K) : List (K × V) :=
  m.filter (fun kv => decide (kv.1 ≠ k))

/-- The access `m[k]` of a `std::map`: when the key is absent it is inserted
with the value-initialised `dflt`. -/
def map_index {K V : Type} [DecidableEq K] (m : List (K × V)) (k : K) (dflt : V) :
    List (K × V) × V :=
  match map_find m k with
  | some kv => (m, kv.2)
  | none => (m ++ [(k, dflt)], dflt)

/-- The assignment `m[k] = v` of a `std::map`. -/
def map_assign {K V : Type} [DecidableEq K] (m : List (K × V)) (k : K) (v : V) :
    List (K × V) :=
  match map_find m k with
  | some _ => m.map (fun kv => if kv.1 = k then (kv.1, v) else kv)
  | none => m ++ [(k, v)]

/-! ## The client -/

/-- State of `async_client_impl`, the coordinator link apart (it is part of the
`environment`): the topology snapshot, the channel table, the queue of requests (a null
pointer is a tombstone), the channel objects the pointers refer to, and the
trace of observable actions. -/
structure async_client_impl (S : Nat) where
  m_config : configuration S
  m_channels : List (hyperdex_instance × Option Nat)
  m_requests : List (Option (pending S))
  channels : List (channel S)
  trace : List event

namespace async_client_impl

/-- The frame `packed` assembled by `send`. -/
def build_frame {S : Nat} (chan_id : entityid S) (ent : entityid S) (inst : hyperdex_instance)
    (nonce : Nat) (send_type : network_msgtype) (send_msg : buffer) : buffer :=
  let type := send_type % 256
  let fromver := 0
  let tover := inst.inbound_version % 65536
  let size := (4 + 1 + 2 + 2 + S * 2 + send_msg.length) % 4294967296
  pack_uint 4 size ++ pack_uint 1 type ++ pack_uint 2 fromver ++ pack_uint 2 tover
    ++ pack_entityid chan_id ++ pack_entityid ent ++ pack_uint 4 nonce ++ send_msg

/-- The method `send` when the continuation that `op->result(DISCONNECT)` invokes
makes no call into the client (`reentrant.send` is the method with
continuations that do): the new state and the returned flag.  The case of an
index outside the channel store stands for a pointer the program never
holds. -/
def send {S : Nat} (net : network) (s : async_client_impl S) (chan : Nat) (op : pending S)
    (ent : entityid S) (inst : hyperdex_instance) (nonce : Nat) (send_type : network_msgtype)
    (send_msg : buffer) : async_client_impl S × Bool :=
  match s.channels[chan]? with
  | none => (s, false)
  | some c =>
    let packed := build_frame c.id ent inst nonce send_type send_msg
    if net.xsend c.soc packed then
      ({ s with trace := s.trace ++ [event.xsend c.soc packed true] }, true)
    else
      ({ s with m_channels := map_erase s.m_channels inst,
                trace := s.trace ++ [event.xsend c.soc packed false] ++ op.result DISCONNECT },
       false)

/-- Second half of `add_reqrep`, once `chan` points to a channel: take a nonce,
fill in the pending, append it to the queue and send. -/
def add_reqrep_enqueue {S : Nat} (net : network) (s : async_client_impl S) (chan : Nat)
    (dst_ent : entityid S) (dst_inst : hyperdex_instance) (send_type : network_msgtype)
    (send_msg : buffer) (op : pending S) : async_client_impl S :=
  match s.channels[chan]? with
  | none => s
  | some c =>
    let nonce := c.nonce % 4294967296
    let c1 : channel S := { c with nonce := (c.nonce + 1) % 18446744073709551616 }
    let s1 := { s with channels := s.channels.set chan c1 }
    let op1 := { op with chan := some chan, ent := dst_ent, inst := dst_inst, nonce := nonce }
    let s2 := { s1 with m_requests := s1.m_requests ++ [some op1] }
    match send net s2 chan op1 dst_ent dst_inst nonce send_type send_msg with
    | (s3, true) => s3
    | (s3, false) => { s3 with m_requests := s3.m_requests.dropLast }

/-- The method `add_reqrep`. -/
def add_reqrep {S : Nat} (E : externals S) (net : network) (s : async_client_impl S)
    (space : String) (key : buffer) (send_type : network_msgtype) (send_msg : buffer)
    (op : pending S) : async_client_impl S :=
  let si := s.m_config.lookup_spaceid space
  if si = E.NULLSPACE then { s with trace := s.trace ++ op.result NOTASPACE }
  else
    let point_leader : regionid := ⟨si.space, 0, 64, E.CityHash64 key⟩
    let dst_ent := s.m_config.headof point_leader
    let dst_inst := s.m_config.instancefor dst_ent
    if dst_inst = E.NULLINSTANCE then { s with trace := s.trace ++ op.result CONNECTFAIL }
    else
      match map_index s.m_channels dst_inst none with
      | (table, some chan) =>
        add_reqrep_enqueue net { s with m_channels := table } chan dst_ent dst_inst
          send_type send_msg op
      | (table, none) =>
        match net.connect dst_inst with
        | none =>
          { s with m_channels := table,
                   trace := s.trace ++ [event.connect dst_inst false] ++ op.result CONNECTFAIL }
        | some fd =>
          let chan := s.channels.length
          add_reqrep_enqueue net
            { s with m_channels := map_assign table dst_inst (some chan),
                     channels := s.channels ++ [⟨fd, 1, E.CLIENTSPACE⟩],
                     trace := s.trace ++ [event.connect dst_inst true] }
            chan dst_ent dst_inst send_type send_msg op

/-- The method `get`. -/
def get {S : Nat} (E : externals S) (net : network) (s : async_client_impl S)
    (space : String) (key : buffer) (callback : Nat) : async_client_impl S :=
  let op := pending.create S (.pending_get callback)
  add_reqrep E net s space key E.consts.REQ_GET key op

/-- The method `put`. -/
def put {S : Nat} (E : externals S) (net : network) (s : async_client_impl S)
    (space : String) (key : buffer) (value : List buffer) (callback : Nat) :
    async_client_impl S :=
  let msg := pack_buffer E.pack key ++ pack_vector E.pack value
  let op := pending.create S (.pending_mutate E.consts.RESP_PUT callback)
  add_reqrep E net s space key E.consts.REQ_PUT msg op

/-- The method `del`. -/
def del {S : Nat} (E : externals S) (net : network) (s : async_client_impl S)
    (space : String) (key : buffer) (callback : Nat) : async_client_impl S :=
  let op := pending.create S (.pending_mutate E.consts.RESP_DEL callback)
  add_reqrep E net s space key E.consts.REQ_DEL key op

/-- Locals `bits`, `realvalue` and `seen` of `update`. -/
structure update_locals where
  bits : List Bool
  realvalue : List buffer
  seen : List String
  deriving DecidableEq, Repr

/-- The first loop of `update`, from index `i` on: `names` are the dimension
names at the indices `i, i + 1, ...`. -/
def update_scan (value : List (String × buffer)) :
    List String → Nat → update_locals → update_locals
  | [], _, l => l
  | name :: names, i, l =>
    match map_find value name with
    | none => update_scan value names (i + 1) { l with bits := l.bits.set (i - 1) false }
    | some valiter =>
      update_scan value names (i + 1)
        { bits := l.bits.set (i - 1) true,
          realvalue := l.realvalue.set (i - 1) valiter.2,
          seen := if valiter.1 ∈ l.seen then l.seen else l.seen ++ [valiter.1] }

/-- The locals of `update` when the first loop is over.  A fresh `e::bitfield`
is taken to have every bit clear (the loop writes every bit); a fresh
`realvalue` holds `dimension_names.size() - 1` empty buffers. -/
def update_build (dimension_names : List String) (value : List (String × buffer)) :
    update_locals :=
  update_scan value (dimension_names.drop 1) 1
    { bits := List.replicate (dimension_names.length - 1) false,
      realvalue := List.replicate (dimension_names.length - 1) [],
      seen := [] }

/-- The second loop of `update`: whether some supplied name was not seen. -/
def update_unseen (value : List (String × buffer)) (seen : List String) : Bool :=
  value.any (fun kv => decide (kv.1 ∉ seen))

/-- The message body `msg` of `update`. -/
def update_msg (P : packing) (key : buffer) (l : update_locals) : buffer :=
  pack_buffer P key ++ P.pack_bitfield l.bits ++ pack_vector P l.realvalue

/-- The method `update`; `none` is the failure of
`assert(dimension_names.size() > 0)`.  The caller's `std::map` is the list of
its entries. -/
def update {S : Nat} (E : externals S) (net : network) (s : async_client_impl S)
    (space : String) (key : buffer) (value : List (String × buffer)) (callback : Nat) :
    Option (async_client_impl S) :=
  let si := s.m_config.lookup_spaceid space
  if si = E.NULLSPACE then
    some { s with trace := s.trace ++ [event.callback_mutate callback NOTASPACE] }
  else
    let dimension_names := s.m_config.lookup_space_dimensions si
    if dimension_names.length = 0 then none
    else
      let l := update_build dimension_names value
      if update_unseen value l.seen then
        some { s with trace := s.trace ++ [event.callback_mutate callback BADDIMENSION] }
      else
        let msg := update_msg E.pack key l
        let op := pending.create S (.pending_mutate E.consts.RESP_UPDATE callback)
        some (add_reqrep E net s space key E.consts.REQ_UPDATE msg op)

/-- Fields of a frame header as `flush` extracts them. -/
structure frame_header (S : Nat) where
  nop : Nat
  type_num : Nat
  fromver : Nat
  tover : Nat
  from_entity : entityid S
  to_entity : entityid S
  nonce : Nat
  deriving DecidableEq, Repr

/-- The header extraction of `flush`,
`up >> nop >> type_num >> fromver >> tover >> from >> to >> nonce`, followed by
`up.leftovers(&msg)`. -/
def parse_frame (S : Nat) (response : buffer) : Option (frame_header S × buffer) :=
  match unpack_uint 4 response with
  | none => none
  | some (nop, up) =>
  match unpack_uint 1 up with
  | none => none
  | some (type_num, up) =>
  match unpack_uint 2 up with
  | none => none
  | some (fromver, up) =>
  match unpack_uint 2 up with
  | none => none
  | some (tover, up) =>
  match unpack_entityid S up with
  | none => none
  | some (from_entity, up) =>
  match unpack_entityid S up with
  | none => none
  | some (to_entity, up) =>
  match unpack_uint 4 up with
  | none => none
  | some (nonce, msg) =>
    some (⟨nop, type_num, fromver, tover, from_entity, to_entity, nonce⟩, msg)

/-! ### The readiness cycle of `flush` -/

/-- The statements `op->result(ret); m_requests[i] = NULL;`. -/
def tombstone {S : Nat} (s : async_client_impl S) (i : Nat) (op : pending S)
    (ret : returncode) : async_client_impl S :=
  { s with m_requests := s.m_requests.set i none, trace := s.trace ++ op.result ret }

/-- The call `op->chan->soc.close()`: the descriptor of a closed socket is -1. -/
def close_channel {S : Nat} (s : async_client_impl S) (op : pending S) : async_client_impl S :=
  match op.chan with
  | none => s
  | some c =>
    match s.channels[c]? with
    | none => s
    | some ch => { s with channels := s.channels.set c { ch with soc := -1 } }

/-- The four statements every failure path of the per-channel loop runs:
close the socket, erase the instance from the channel table, complete the
pending with DISCONNECT, tombstone it. -/
def flush_disconnect {S : Nat} (s : async_client_impl S) (i : Nat) (op : pending S) :
    async_client_impl S :=
  let s1 := close_channel s op
  tombstone { s1 with m_channels := map_erase s1.m_channels op.inst } i op DISCONNECT

/-- The coordinator-health loop `for (int i = 0; i < 7 && !m_coord.connected(); ++i)`,
from the value `i` of its counter on: the value `flush` returns from inside the
loop, if it does, the trace and the state of the surroundings. -/
def flush_health {S : Nat} {W : Type} (env : environment S W) :
    Nat → Nat → List event → W → Option returncode × List event × W
  | 0, _, tr, w => (none, tr, w)
  | fuel + 1, i, tr, w =>
    if i < 7 ∧ env.connected w = false then
      match env.connect w with
      | (.SUCCESS, w1) =>
        flush_health env fuel (i + 1) (tr ++ [event.coord_connect .SUCCESS]) w1
      | (.CONNECTFAIL, w1) =>
        if i = 6 then (some COORDFAIL, tr ++ [event.coord_connect .CONNECTFAIL], w1)
        else flush_health env fuel (i + 1) (tr ++ [event.coord_connect .CONNECTFAIL]) w1
      | (.DISCONNECT, w1) =>
        if i = 6 then (some COORDFAIL, tr ++ [event.coord_connect .DISCONNECT], w1)
        else flush_health env fuel (i + 1) (tr ++ [event.coord_connect .DISCONNECT]) w1
      | (.SHUTDOWN, w1) =>
        if i = 6 then (some LOGICERROR, tr ++ [event.coord_connect .SHUTDOWN], w1)
        else flush_health env fuel (i + 1) (tr ++ [event.coord_connect .SHUTDOWN]) w1
      | (.LOGICERROR, w1) =>
        if i = 6 then (some LOGICERROR, tr ++ [event.coord_connect .LOGICERROR], w1)
        else flush_health env fuel (i + 1) (tr ++ [event.coord_connect .LOGICERROR]) w1
    else (none, tr, w)

/-- The descriptor `flush` puts in the slot of a request: the socket of its
channel, or -1 for a tombstone. -/
def pfd_of {S : Nat} (s : async_client_impl S) : Option (pending S) → Int
  | none => -1
  | some op =>
    match op.chan with
    | none => -1
    | some c =>
      match s.channels[c]? with
      | none => -1
      | some ch => ch.soc

/-- What `poll` leaves in `pfds[i].revents`: nothing for a negative descriptor. -/
def slot_revents (fds : List Int) (slots : List revents) (i : Nat) : revents :=
  if fds.getD i (-1) < 0 then ⟨false, false, false⟩ else slots.getD i ⟨false, false, false⟩

/-- The step `if (pfds[num_pfds].revents != 0) switch (m_coord.loop(1, 0))`: the
value `flush` returns from it, if it does. -/
def flush_coord_event {S : Nat} {W : Type} (env : environment S W) (coord : Bool) (w : W) :
    Option returncode × W :=
  if coord then
    match env.loop w 1 0 with
    | (.SUCCESS, w1) => (none, w1)
    | (.CONNECTFAIL, w1) => (some COORDFAIL, w1)
    | (.DISCONNECT, w1) => (some COORDFAIL, w1)
    | (.SHUTDOWN, w1) => (some LOGICERROR, w1)
    | (.LOGICERROR, w1) => (some LOGICERROR, w1)
  else (none, w)

/-- The loop over `m_requests` that follows the adoption of a new snapshot: the
new queue and the continuation calls, in order. -/
def flush_reconfigure {S : Nat} (m_config : configuration S) :
    List (Option (pending S)) → List (Option (pending S)) × List event
  | [] => ([], [])
  | none :: rest =>
    (none :: (flush_reconfigure m_config rest).1, (flush_reconfigure m_config rest).2)
  | some op :: rest =>
    if m_config.instancefor op.ent ≠ op.inst then
      (none :: (flush_reconfigure m_config rest).1,
        op.result RECONFIGURE ++ (flush_reconfigure m_config rest).2)
    else (some op :: (flush_reconfigure m_config rest).1, (flush_reconfigure m_config rest).2)

/-- The condition under which the reply with header `hdr`, read from the channel
`chan` whose id is `chan_id`, is handed to the request `op`. -/
def reply_matches {S : Nat} (chan : Nat) (chan_id : entityid S) (hdr : frame_header S)
    (op : pending S) : Prop :=
  some chan = op.chan ∧ hdr.fromver = op.inst.inbound_version ∧ hdr.tover = 0 ∧
    hdr.from_entity = op.ent ∧ hdr.to_entity = chan_id ∧ hdr.nonce = op.nonce

instance {S : Nat} (chan : Nat) (chan_id : entityid S) (hdr : frame_header S)
    (op : pending S) : Decidable (reply_matches chan chan_id hdr op) := by
  unfold reply_matches; infer_instance

/-- The loop over `m_requests` that hands a reply to the requests it matches:
the new queue and the continuation calls, in order. -/
def flush_match {S : Nat} (N : network_constants) (P : packing) (chan : Nat)
    (chan_id : entityid S) (hdr : frame_header S) (msg : buffer) :
    List (Option (pending S)) → List (Option (pending S)) × List event
  | [] => ([], [])
  | none :: rest =>
    (none :: (flush_match N P chan chan_id hdr msg rest).1,
      (flush_match N P chan chan_id hdr msg rest).2)
  | some op :: rest =>
    if reply_matches chan chan_id hdr op then
      (none :: (flush_match N P chan chan_id hdr msg rest).1,
        op.result_msg N P SUCCESS hdr.type_num msg
          ++ (flush_match N P chan chan_id hdr msg rest).2)
    else
      (some op :: (flush_match N P chan chan_id hdr msg rest).1,
        (flush_match N P chan chan_id hdr msg rest).2)

/-- What `flush` does with a reply frame it has read from the channel `chan` and
parsed: the channel adopts `to` as its id if its id is still CLIENTSPACE, then
the reply is handed to the requests it matches. -/
def flush_dispatch {S : Nat} (E : externals S) (s : async_client_impl S) (chan : Nat)
    (hdr : frame_header S) (msg : buffer) : async_client_impl S :=
  match s.channels[chan]? with
  | none => s
  | some ch =>
    let ch1 : channel S := if ch.id = E.CLIENTSPACE then { ch with id := hdr.to_entity } else ch
    { s with channels := s.channels.set chan ch1,
             m_requests := (flush_match E.consts E.pack chan ch1.id hdr msg s.m_requests).1,
             trace := s.trace ++ (flush_match E.consts E.pack chan ch1.id hdr msg s.m_requests).2 }

/-- The body of the per-channel loop of `flush` for the index `i`, given the
`revents` that `poll` left in the slots.  A request of the queue always has a
channel: the cases of a null `chan` and of an index outside the store stand
for pointers the program never holds, and leave the state alone. -/
def flush_slot {S : Nat} {W : Type} (E : externals S) (env : environment S W)
    (pfds : Nat → revents) (i : Nat) (s : async_client_impl S) (w : W) :
    async_client_impl S × W :=
  match s.m_requests[i]? with
  | none => (s, w)
  | some none => (s, w)
  | some (some op) =>
    if (pfds i).POLLHUP = true ∨ (pfds i).POLLERR = true then (flush_disconnect s i op, w)
    else if (pfds i).POLLIN = false then (s, w)
    else
      match op.chan with
      | none => (s, w)
      | some chan =>
        match s.channels[chan]? with
        | none => (s, w)
        | some ch =>
          if ch.soc < 0 then (tombstone s i op DISCONNECT, w)
          else
            match env.recv_peek w ch.soc with
            | (none, w1) => (s, w1)
            | (some size, w1) =>
              match env.xread w1 ch.soc ((size % 4294967296 + 4) % 4294967296) with
              | (.error, w2) => (flush_disconnect s i op, w2)
              | (.data bytes, w2) =>
                if (bytes.take ((size % 4294967296 + 4) % 4294967296)).length
                    < (size % 4294967296 + 4) % 4294967296 then
                  (flush_disconnect s i op, w2)
                else
                  match parse_frame S (bytes.take ((size % 4294967296 + 4) % 4294967296)) with
                  | none => (flush_disconnect s i op, w2)
                  | some (hdr, msg) => (flush_dispatch E s chan hdr msg, w2)

/-- The per-channel loop `for (size_t i = 0; i < num_pfds; ++i)` over the indices
that are left. -/
def flush_slots {S : Nat} {W : Type} (E : externals S) (env : environment S W)
    (pfds : Nat → revents) : List Nat → async_client_impl S → W → async_client_impl S × W
  | [], s, w => (s, w)
  | i :: rest, s, w =>
    flush_slots E env pfds rest (flush_slot E env pfds i s w).1 (flush_slot E env pfds i s w).2

/-- The loop `while (!m_requests.empty() && !m_requests.front()) m_requests.pop_front();`. -/
def flush_compact {S : Nat} : List (Option (pending S)) → List (Option (pending S))
  | [] => []
  | none :: rest => flush_compact rest
  | some op :: rest => some op :: rest

/-- How one pass through the body of the `while` loop of `flush` ends: with a
`return`, or at the end of the body (or at its `continue`). -/
inductive cycle_result (S : Nat) (W : Type)
  | returned (ret : returncode) (s : async_client_impl S) (w : W)
  | continued (s : async_client_impl S) (w : W)

/-- The client state at the end of a pass. -/
def cycle_result.state {S : Nat} {W : Type} : cycle_result S W → async_client_impl S
  | .returned _ s _ => s
  | .continued s _ => s

/-- One pass through the body of the `while` loop of `flush`. -/
def flush_cycle {S : Nat} {W : Type} (E : externals S) (env : environment S W)
    (s : async_client_impl S) (w : W) : cycle_result S W :=
  match flush_health env 7 0 s.trace w with
  | (some ret, tr, w1) => .returned ret { s with trace := tr } w1
  | (none, tr, w1) =>
    let fds := s.m_requests.map (pfd_of s)
    match env.poll w1 fds with
    | (.failed, w2) => .returned LOGICERROR { s with trace := tr } w2
    | (.ready slots coord, w2) =>
      match flush_coord_event env coord w2 with
      | (some ret, w3) => .returned ret { s with trace := tr } w3
      | (none, w3) =>
        if env.unacknowledged w3 = true then
          .continued
            { s with m_config := env.config w3,
                     m_requests := (flush_reconfigure (env.config w3) s.m_requests).1,
                     trace := tr ++ (flush_reconfigure (env.config w3) s.m_requests).2 }
            (env.acknowledge w3)
        else
          .continued
            { (flush_slots E env (slot_revents fds slots) (List.range s.m_requests.length)
                  { s with trace := tr } w3).1 with
              m_requests := flush_compact
                (flush_slots E env (slot_revents fds slots) (List.range s.m_requests.length)
                  { s with trace := tr } w3).1.m_requests }
            (flush_slots E env (slot_revents fds slots) (List.range s.m_requests.length)
              { s with trace := tr } w3).2

/-- The method `flush`, with a bound on the number of passes through its loop:
`none` when the loop is still running after `fuel` passes. -/
def flush {S : Nat} {W : Type} (E : externals S) (env : environment S W) :
    Nat → async_client_impl S → W → Option (returncode × async_client_impl S × W)
  | 0, _, _ => none
  | fuel + 1, s, w =>
    if s.m_requests = [] then some (SUCCESS, s, w)
    else
      match flush_cycle E env s w with
      | .returned ret s1 w1 => some (ret, s1, w1)
      | .continued s1 w1 => flush E env fuel s1 w1

/-- The loop `while (true)` of `connect`, with a bound on the number of passes. -/
def connect_loop {S : Nat} {W : Type} (env : environment S W) :
    Nat → async_client_impl S → W → Option (returncode × async_client_impl S × W)
  | 0, _, _ => none
  | fuel + 1, s, w =>
    match env.loop w 1 (-1) with
    | (.SUCCESS, w1) =>
      if env.unacknowledged w1 = true then
        some (SUCCESS, { s with m_config := env.config w1 }, env.acknowledge w1)
      else connect_loop env fuel s w1
    | (.CONNECTFAIL, w1) => some (COORDFAIL, s, w1)
    | (.DISCONNECT, w1) => some (COORDFAIL, s, w1)
    | (.SHUTDOWN, w1) => some (LOGICERROR, s, w1)
    | (.LOGICERROR, w1) => some (LOGICERROR, s, w1)

/-- The method `connect`, with a bound on the number of passes through its loop. -/
def connect {S : Nat} {W : Type} (env : environment S W) (fuel : Nat)
    (s : async_client_impl S) (w : W) : Option (returncode × async_client_impl S × W) :=
  match env.connect w with
  | (.SUCCESS, w1) =>
    connect_loop env fuel { s with trace := s.trace ++ [event.coord_connect .SUCCESS] } w1
  | (.CONNECTFAIL, w1) =>
    some (COORDFAIL, { s with trace := s.trace ++ [event.coord_connect .CONNECTFAIL] }, w1)
  | (.DISCONNECT, w1) =>
    some (LOGICERROR, { s with trace := s.trace ++ [event.coord_connect .DISCONNECT] }, w1)
  | (.SHUTDOWN, w1) =>
    some (LOGICERROR, { s with trace := s.trace ++ [event.coord_connect .SHUTDOWN] }, w1)
  | (.LOGICERROR, w1) =>
    some (LOGICERROR, { s with trace := s.trace ++ [event.coord_connect .LOGICERROR] }, w1)

end async_client_impl

/-! ## Submissions with continuations that call back into the client

A continuation is user code: while it runs it may call `get`, `put`, `del` and
`update` on the client that invoked it.  The submission path of the client is
modelled a second time with such continuations, the nested calls acting on the
state the outer call has reached when it invokes the continuation. -/

/-- A call of the submission interface of the client. -/
inductive submission
  | get (space : String) (key : buffer) (callback : Nat)
  | put (space : String) (key : buffer) (value : List buffer) (callback : Nat)
  | del (space : String) (key : buffer) (callback : Nat)
  | update (space : String) (key : buffer) (value : List (String × buffer)) (callback : Nat)
  deriving DecidableEq, Repr

/-- What the user's continuations do to the client: the submissions a
continuation makes, in order, when it is invoked as the event describes. -/
abbrev continuations := event → List submission

namespace reentrant

/-- The submissions of one continuation call, carried out one after the other by
`sub`; `none` when `sub` does not carry one of them out. -/
def run_submissions {S : Nat}
    (sub : async_client_impl S → submission → Option (async_client_impl S)) :
    List submission → async_client_impl S → Option (async_client_impl S)
  | [], s => some s
  | c :: cs, s =>
    match sub s c with
    | none => none
    | some s1 => run_submissions sub cs s1

/-- One call of a continuation: the call is recorded in the trace, then the
continuation runs and makes its submissions. -/
def invoke {S : Nat} (K : continuations)
    (sub : async_client_impl S → submission → Option (async_client_impl S))
    (s : async_client_impl S) (e : event) : Option (async_client_impl S) :=
  let s1 : async_client_impl S := { s with trace := s.trace ++ [e] }
  run_submissions sub (K e) s1

/-- The continuation calls of `op->result(ret)`, made in order. -/
def result {S : Nat} (K : continuations)
    (sub : async_client_impl S → submission → Option (async_client_impl S)) :
    List event → async_client_impl S → Option (async_client_impl S)
  | [], s => some s
  | e :: es, s =>
    match invoke K sub s e with
    | none => none
    | some s1 => result K sub es s1

/-- The method `send`: `op->result(DISCONNECT)` runs the continuation after the
instance was erased from the channel table and before `send` returns. -/
def send {S : Nat} (K : continuations)
    (sub : async_client_impl S → submission → Option (async_client_impl S)) (net : network)
    (s : async_client_impl S) (chan : Nat) (op : pending S) (ent : entityid S)
    (inst : hyperdex_instance) (nonce : Nat) (send_type : network_msgtype) (send_msg : buffer) :
    Option (async_client_impl S × Bool) :=
  match s.channels[chan]? with
  | none => some (s, false)
  | some c =>
    let packed := async_client_impl.build_frame c.id ent inst nonce send_type send_msg
    if net.xsend c.soc packed then
      some ({ s with trace := s.trace ++ [event.xsend c.soc packed true] }, true)
    else
      let s1 : async_client_impl S :=
        { s with m_channels := map_erase s.m_channels inst,
                 trace := s.trace ++ [event.xsend c.soc packed false] }
      match result K sub (op.result DISCONNECT) s1 with
      | none => none
      | some s2 => some (s2, false)

/-- Second half of `add_reqrep`: take a nonce, fill in the pending, append it to
the queue and send; when `send` returns false, `m_requests.pop_back()` takes
off the entry that is last in the queue at that time. -/
def add_reqrep_enqueue {S : Nat} (K : continuations)
    (sub : async_client_impl S → submission → Option (async_client_impl S)) (net : network)
    (s : async_client_impl S) (chan : Nat) (dst_ent : entityid S)
    (dst_inst : hyperdex_instance) (send_type : network_msgtype) (send_msg : buffer)
    (op : pending S) : Option (async_client_impl S) :=
  match s.channels[chan]? with
  | none => some s
  | some c =>
    let nonce := c.nonce % 4294967296
    let c1 : channel S := { c with nonce := (c.nonce + 1) % 18446744073709551616 }
    let s1 := { s with channels := s.channels.set chan c1 }
    let op1 := { op with chan := some chan, ent := dst_ent, inst := dst_inst, nonce := nonce }
    let s2 := { s1 with m_requests := s1.m_requests ++ [some op1] }
    match send K sub net s2 chan op1 dst_ent dst_inst nonce send_type send_msg with
    | none => none
    | some (s3, true) => some s3
    | some (s3, false) => some { s3 with m_requests := s3.m_requests.dropLast }

/-- The method `add_reqrep`. -/
def add_reqrep {S : Nat} (E : externals S) (K : continuations)
    (sub : async_client_impl S → submission → Option (async_client_impl S)) (net : network)
    (s : async_client_impl S) (space : String) (key : buffer) (send_type : network_msgtype)
    (send_msg : buffer) (op : pending S) : Option (async_client_impl S) :=
  let si := s.m_config.lookup_spaceid space
  if si = E.NULLSPACE then result K sub (op.result NOTASPACE) s
  else
    let point_leader : regionid := ⟨si.space, 0, 64, E.CityHash64 key⟩
    let dst_ent := s.m_config.headof point_leader
    let dst_inst := s.m_config.instancefor dst_ent
    if dst_inst = E.NULLINSTANCE then result K sub (op.result CONNECTFAIL) s
    else
      match map_index s.m_channels dst_inst none with
      | (table, some chan) =>
        let s1 : async_client_impl S := { s with m_channels := table }
        add_reqrep_enqueue K sub net s1 chan dst_ent dst_inst send_type send_msg op
      | (table, none) =>
        match net.connect dst_inst with
        | none =>
          let s1 : async_client_impl S :=
            { s with m_channels := table,
                     trace := s.trace ++ [event.connect dst_inst false] }
          result K sub (op.result CONNECTFAIL) s1
        | some fd =>
          let chan := s.channels.length
          let s1 : async_client_impl S :=
            { s with m_channels := map_assign table dst_inst (some chan),
                     channels := s.channels ++ [⟨fd, 1, E.CLIENTSPACE⟩],
                     trace := s.trace ++ [event.connect dst_inst true] }
          add_reqrep_enqueue K sub net s1 chan dst_ent dst_inst send_type send_msg op

/-- The method `get`. -/
def get {S : Nat} (E : externals S) (K : continuations)
    (sub : async_client_impl S → submission → Option (async_client_impl S)) (net : network)
    (s : async_client_impl S) (space : String) (key : buffer) (callback : Nat) :
    Option (async_client_impl S) :=
  let op := pending.create S (.pending_get callback)
  add_reqrep E K sub net s space key E.consts.REQ_GET key op

/-- The method `put`. -/
def put {S : Nat} (E : externals S) (K : continuations)
    (sub : async_client_impl S → submission → Option (async_client_impl S)) (net : network)
    (s : async_client_impl S) (space : String) (key : buffer) (value : List buffer)
    (callback : Nat) : Option (async_client_impl S) :=
  let msg := pack_buffer E.pack key ++ pack_vector E.pack value
  let op := pending.create S (.pending_mutate E.consts.RESP_PUT callback)
  add_reqrep E K sub net s space key E.consts.REQ_PUT msg op

/-- The method `del`. -/
def del {S : Nat} (E : externals S) (K : continuations)
    (sub : async_client_impl S → submission → Option (async_client_impl S)) (net : network)
    (s : async_client_impl S) (space : String) (key : buffer) (callback : Nat) :
    Option (async_client_impl S) :=
  let op := pending.create S (.pending_mutate E.consts.RESP_DEL callback)
  add_reqrep E K sub net s space key E.consts.REQ_DEL key op

/-- The method `update`; `none` also when `assert(dimension_names.size() > 0)`
fails. -/
def update {S : Nat} (E : externals S) (K : continuations)
    (sub : async_client_impl S → submission → Option (async_client_impl S)) (net : network)
    (s : async_client_impl S) (space : String) (key : buffer)
    (value : List (String × buffer)) (callback : Nat) : Option (async_client_impl S) :=
  let si := s.m_config.lookup_spaceid space
  if si = E.NULLSPACE then invoke K sub s (event.callback_mutate callback NOTASPACE)
  else
    let dimension_names := s.m_config.lookup_space_dimensions si
    if dimension_names.length = 0 then none
    else
      let l := async_client_impl.update_build dimension_names value
      if async_client_impl.update_unseen value l.seen then
        invoke K sub s (event.callback_mutate callback BADDIMENSION)
      else
        let msg := async_client_impl.update_msg E.pack key l
        let op := pending.create S (.pending_mutate E.consts.RESP_UPDATE callback)
        add_reqrep E K sub net s space key E.consts.REQ_UPDATE msg op

/-- One call of the submission interface, the calls its continuations make in
turn being carried out by `sub`. -/
def submit_with {S : Nat} (E : externals S) (K : continuations)
    (sub : async_client_impl S → submission → Option (async_client_impl S)) (net : network)
    (s : async_client_impl S) : submission → Option (async_client_impl S)
  | .get space key callback => get E K sub net s space key callback
  | .put space key value callback => put E K sub net s space key value callback
  | .del space key callback => del E K sub net s space key callback
  | .update space key value callback => update E K sub net s space key value callback

/-- One call of the submission interface with a bound on the depth to which
continuations and submissions are nested: `none` when a continuation at the
depth `fuel` is still to make a submission. -/
def submit {S : Nat} (E : externals S) (K : continuations) (net : network) :
    Nat → async_client_impl S → submission → Option (async_client_impl S)
  | 0 => fun _ _ => none
  | fuel + 1 => fun s c => submit_with E K (submit E K net fuel) net s c

end reentrant

/-- Decoding of a `(bitfield, values)` pair against the dimension list `d`, in the
words of the specification: the mapping that sends `d[i]` to `values[i-1]` for
every non-key position `i` whose bit `i-1` is set. -/
def update_decode (d : List String) (bits : List Bool) (values : List buffer) :
    List (String × buffer) :=
  ((d.drop 1).zip (bits.zip values)).filterMap
    (fun e => if e.2.1 then some (e.1, e.2.2) else none)

/-! ## Notions used to state properties of runs -/

/-- The requests of the queue that are not tombstones, in order. -/
def live {S : Nat} (q : List (Option (pending S))) : List (pending S) :=
  q.filterMap id

/-- The continuation a pending holds. -/
def pending.callback {S : Nat} (op : pending S) : Nat :=
  match op.variant with
  | .pending_get cb => cb
  | .pending_mutate _ cb => cb

/-- The continuation an event is a call of, if it is one. -/
def event.invoked : event → Option Nat
  | .callback_get cb _ _ => some cb
  | .callback_mutate cb _ => some cb
  | _ => none

/-- The continuations a trace calls, in order, with repetitions. -/
def callbacks (tr : List event) : List Nat :=
  tr.filterMap event.invoked

/-- The pointer the channel table yields for an instance, `m_channels[inst]`
(`none` is the null pointer, also when the table has no entry). -/
def channel_of_instance (m_channels : List (hyperdex_instance × Option Nat))
    (inst : hyperdex_instance) : Option Nat :=
  (map_index m_channels inst none).2

/-- The surroundings after `k` calls of `m_coord.connect()` in a row. -/
def link_after {S : Nat} {W : Type} (env : environment S W) : Nat → W → W
  | 0, w => w
  | k + 1, w => link_after env k (env.connect w).2

/-- What the seventh reconnect attempt of `flush` makes of the answer of the
link, in the words of the specification: "on the 7th failure, fail the whole
`flush` with `CoordFail` (or `LogicError` for logic-class link errors)". -/
def seventh_attempt : coordinatorlink_returncode → Option returncode
  | .SUCCESS => none
  | .CONNECTFAIL => some COORDFAIL
  | .DISCONNECT => some COORDFAIL
  | .SHUTDOWN => some LOGICERROR
  | .LOGICERROR => some LOGICERROR

/-- What a readiness cycle leaves alone: no channel object appears or disappears,
no channel changes its nonce counter, or its id once that differs from
CLIENTSPACE; the live requests afterwards are among those before, in the same
order; the trace only grows, and the continuations called so far together with
the continuations of the live requests stay the same collection. -/
def cycle_frame {S : Nat} (E : externals S) (s s' : async_client_impl S) : Prop :=
  s'.channels.length = s.channels.length ∧
  (∀ (c : Nat) (ch : channel S), s.channels[c]? = some ch →
    ∃ ch', s'.channels[c]? = some ch' ∧ ch'.nonce = ch.nonce ∧
      (ch.id ≠ E.CLIENTSPACE → ch'.id = ch.id)) ∧
  (live s'.m_requests).Sublist (live s.m_requests) ∧
  s.trace <+: s'.trace ∧
  (callbacks s'.trace ++ (live s'.m_requests).map pending.callback).Perm
    (callbacks s.trace ++ (live s.m_requests).map pending.callback)

/-- The nonces of the live requests after at most `n` submissions: every channel
counter is at most `n + 1`, every live request refers to a channel object and
carries a nonce below the counter of that channel, and two live requests on
one channel carry different nonces. -/
def nonces_ok {S : Nat} (n : Nat) (s : async_client_impl S) : Prop :=
  (∀ ch ∈ s.channels, ch.nonce ≤ n + 1) ∧
  (∀ op ∈ live s.m_requests, ∃ (c : Nat) (ch : channel S),
    op.chan = some c ∧ s.channels[c]? = some ch ∧ op.nonce < ch.nonce) ∧
  (live s.m_requests).Pairwise (fun p q => p.chan = q.chan → p.nonce ≠ q.nonce)

/-- What a submission does to the channel objects and to the queue: nothing; or
it takes the nonce of an existing channel object, whose counter goes up by
one, and may append one request carrying the old counter value reduced to 32
bits; or it creates a channel object with id CLIENTSPACE and counter 1, takes
its nonce, and may append one request carrying the nonce 1. -/
def submission_effect {S : Nat} (E : externals S) (s s' : async_client_impl S) : Prop :=
  (s'.channels = s.channels ∧ s'.m_requests = s.m_requests) ∨
  (∃ (chan : Nat) (c : channel S) (ent : entityid S) (inst : hyperdex_instance)
      (variant : pending_variant),
    s.channels[chan]? = some c ∧
    s'.channels = s.channels.set chan ⟨c.soc, (c.nonce + 1) % 18446744073709551616, c.id⟩ ∧
    (s'.m_requests = s.m_requests ∨
      s'.m_requests = s.m_requests
        ++ [some ⟨some chan, ent, inst, c.nonce % 4294967296, variant⟩])) ∨
  (∃ (fd : Int) (ent : entityid S) (inst : hyperdex_instance) (variant : pending_variant),
    s'.channels = s.channels ++ [⟨fd, 2, E.CLIENTSPACE⟩] ∧
    (s'.m_requests = s.m_requests ∨
      s'.m_requests = s.m_requests
        ++ [some ⟨some s.channels.length, ent, inst, 1, variant⟩]))

/-- One operation of the client: a submission (counted 1) or one pass through
the loop of `flush`, or a call of `connect` (counted 0). -/
inductive step {S : Nat} (E : externals S) :
    Nat → async_client_impl S → async_client_impl S → Prop
  | get (net : network) (s : async_client_impl S) (space : String) (key : buffer)
      (callback : Nat) : step E 1 s (async_client_impl.get E net s space key callback)
  | put (net : network) (s : async_client_impl S) (space : String) (key : buffer)
      (value : List buffer) (callback : Nat) :
      step E 1 s (async_client_impl.put E net s space key value callback)
  | del (net : network) (s : async_client_impl S) (space : String) (key : buffer)
      (callback : Nat) : step E 1 s (async_client_impl.del E net s space key callback)
  | update (net : network) (s s' : async_client_impl S) (space : String) (key : buffer)
      (value : List (String × buffer)) (callback : Nat)
      (h : async_client_impl.update E net s space key value callback = some s') :
      step E 1 s s'
  | cycle {W : Type} (env : environment S W) (s : async_client_impl S) (w : W)
      (h : s.m_requests ≠ []) : step E 0 s (async_client_impl.flush_cycle E env s w).state
  | connect {W : Type} (env : environment S W) (fuel : Nat) (s s' : async_client_impl S)
      (w w' : W) (ret : returncode)
      (h : async_client_impl.connect env fuel s w = some (ret, s', w')) : step E 0 s s'

/-- A sequence of operations, with the number of submissions in it. -/
inductive runs {S : Nat} (E : externals S) :
    Nat → async_client_impl S → async_client_impl S → Prop
  | refl (s : async_client_impl S) : runs E 0 s s
  | tail {n k : Nat} {s t u : async_client_impl S} :
      runs E n s t → step E k t u → runs E (n + k) s u

/-! ## Sample data -/

/-- A sample assignment of enumerator values. -/
def sample_constants : network_constants :=
  { REQ_GET := 8, RESP_GET := 9, REQ_PUT := 10, RESP_PUT := 11, REQ_DEL := 12, RESP_DEL := 13,
    REQ_UPDATE := 14, RESP_UPDATE := 15, NET_SUCCESS := 8320, NET_NOTFOUND := 8321,
    NET_WRONGARITY := 8322, NET_NOTUS := 8323, NET_SERVERERROR := 8324 }

/-- A sample serialization convention: 32-bit counts and lengths, a bitfield
written as its number of bits followed by one octet per bit. -/
def sample_packing : packing :=
  { count_width := 4, size_width := 4,
    pack_bitfield := fun bits =>
      pack_uint 4 bits.length ++ bits.map (fun b => if b then (1 : octet) else 0) }

/-- Sample externals with two-octet entities. -/
def sample_externals : externals 2 :=
  { consts := sample_constants, pack := sample_packing, NULLSPACE := ⟨0⟩,
    NULLINSTANCE := ⟨0, 0⟩, CLIENTSPACE := ⟨[255, 255], rfl⟩,
    CityHash64 := fun key => be_value key }

/-- A sample snapshot: one space `"s"` with dimensions `key`, `a`, `b`, served
by one instance. -/
def sample_config : configuration 2 :=
  { lookup_spaceid := fun name => if name = "s" then ⟨1⟩ else ⟨0⟩,
    lookup_space_dimensions := fun si => if si = ⟨1⟩ then ["key", "a", "b"] else [],
    headof := fun _ => ⟨[0, 1], rfl⟩,
    instancefor := fun _ => ⟨7, 3⟩ }

/-- A network on which every call succeeds. -/
def sample_network : network :=
  { connect := fun _ => some 5, xsend := fun _ _ => true }

/-- The sample client with one open channel to the sample instance. -/
def sample_client_open : async_client_impl 2 :=
  { m_config := sample_config, m_channels := [(⟨7, 3⟩, some 0)], m_requests := [],
    channels := [⟨5, 1, sample_externals.CLIENTSPACE⟩], trace := [] }

/-- A freshly constructed client holding the sample snapshot. -/
def sample_client : async_client_impl 2 :=
  { m_config := sample_config, m_channels := [], m_requests := [], channels := [], trace := [] }

/-- A scripted surroundings for `flush` and `connect`: the answers the coordinator
link and the operating system will give, in the order they are asked for. -/
structure script (S : Nat) where
  connected : Bool
  connects : List coordinatorlink_returncode
  loops : List coordinatorlink_returncode
  current : configuration S
  announced : Option (configuration S)
  polls : List poll_result
  peeks : List (Option Nat)
  reads : List xread_result

/-- The transition system that plays a `script`. -/
def script_env (S : Nat) : environment S (script S) :=
  { connected := fun w => w.connected,
    connect := fun w =>
      match w.connects with
      | [] => (.CONNECTFAIL, w)
      | r :: rs => (r, { w with connects := rs, connected := decide (r = .SUCCESS) }),
    loop := fun w _ _ =>
      match w.loops with
      | [] => (.SUCCESS, w)
      | r :: rs => (r, { w with loops := rs }),
    unacknowledged := fun w => w.announced.isSome,
    config := fun w => w.announced.getD w.current,
    acknowledge := fun w => { w with current := w.announced.getD w.current, announced := none },
    poll := fun w _ =>
      match w.polls with
      | [] => (.failed, w)
      | r :: rs => (r, { w with polls := rs }),
    recv_peek := fun w _ =>
      match w.peeks with
      | [] => (none, w)
      | r :: rs => (r, { w with peeks := rs }),
    xread := fun w _ _ =>
      match w.reads with
      | [] => (.error, w)
      | r :: rs => (r, { w with reads := rs }) }

/-- A script in which the link is connected and nothing else is announced. -/
def quiet_script : script 2 :=
  { connected := true, connects := [], loops := [], current := sample_config,
    announced := none, polls := [], peeks := [], reads := [] }

/-- A script in which the link is down and six reconnect attempts fail with
CONNECTFAIL before the seventh is answered with SHUTDOWN. -/
def down_script : script 2 :=
  { quiet_script with
    connected := false,
    connects := [.CONNECTFAIL, .CONNECTFAIL, .CONNECTFAIL, .CONNECTFAIL, .CONNECTFAIL,
      .CONNECTFAIL, .SHUTDOWN] }

/-- The sample client after the submission of one `get` that was sent. -/
def sample_client_waiting : async_client_impl 2 :=
  async_client_impl.get sample_externals sample_network sample_client "s" [9] 4

/-- A script in which the only slot is readable and one whole frame arrives. -/
def reply_script (frame : buffer) : script 2 :=
  { quiet_script with
    polls := [.ready [⟨true, false, false⟩] false],
    peeks := [some (frame.length - 4)],
    reads := [.data frame] }

/-- The sample client after `n` submissions of the same `get`, all sent. -/
def sample_submissions : Nat → async_client_impl 2
  | 0 => sample_client
  | n + 1 =>
    async_client_impl.get sample_externals sample_network (sample_submissions n) "s" [9] 4

/-- A reply frame as a server writes it. -/
def reply_frame {S : Nat} (type : network_msgtype) (fromver tover : Nat)
    (from_entity to_entity : entityid S) (nonce : Nat) (body : buffer) : buffer :=
  pack_uint 4 (9 + S * 2 + body.length) ++ pack_uint 1 type ++ pack_uint 2 fromver
    ++ pack_uint 2 tover ++ pack_entityid from_entity ++ pack_entityid to_entity
    ++ pack_uint 4 nonce ++ body

/-- The RESP_GET frame that answers the request of `sample_client_waiting` with
the single value 86 and names the client `[0, 7]`. -/
def sample_reply : buffer :=
  reply_frame (S := 2) sample_constants.RESP_GET 3 0 ⟨[0, 1], rfl⟩ ⟨[0, 7], rfl⟩ 1
    (pack_uint 2 sample_constants.NET_SUCCESS ++ pack_vector sample_packing [[86]])

/-- The sample client after its request was answered by `sample_reply`: its
channel has learned the id `[0, 7]`. -/
def sample_client_known : async_client_impl 2 :=
  (async_client_impl.flush_cycle sample_externals (script_env 2) sample_client_waiting
    (reply_script sample_reply)).state

/-- The sample snapshot after the instance of every entity has moved. -/
def moved_config : configuration 2 :=
  { sample_config with instancefor := fun _ => ⟨8, 1⟩ }

/-- A script in which the coordinator slot is ready and a new snapshot, in which
every instance has moved, is waiting to be acknowledged. -/
def topology_script : script 2 :=
  { quiet_script with polls := [.ready [⟨false, false, false⟩] true],
                      announced := some moved_config }

/-- A script for `connect`: the link connects and announces the moved snapshot. -/
def reconnect_script : script 2 :=
  { quiet_script with connects := [.SUCCESS], announced := some moved_config }

/-- The `revents` of a readable slot. -/
def readable : revents := ⟨true, false, false⟩

/-- The `revents` of a slot without events. -/
def idle : revents := ⟨false, false, false⟩

/-- The sample snapshot when no instance is responsible for any entity:
`instancefor` answers the sentinel NULLINSTANCE of `sample_externals`. -/
def vacant_config : configuration 2 :=
  { sample_config with instancefor := fun _ => ⟨0, 0⟩ }

/-- The sample client with one request in flight on its open channel, holding
the snapshot in which no instance is responsible. -/
def sample_client_vacant : async_client_impl 2 :=
  { m_config := vacant_config, m_channels := [(⟨7, 3⟩, some 0)],
    m_requests := [some ⟨some 0, ⟨[0, 1], rfl⟩, ⟨7, 3⟩, 1, .pending_get 4⟩],
    channels := [⟨5, 2, sample_externals.CLIENTSPACE⟩], trace := [] }

/-- Continuations of which number 1, when it is told DISCONNECT for a read,
submits a `get` of the key `[8]` with the continuation 2; no other call makes
a submission. -/
def resubmitting : continuations := fun e =>
  if e = event.callback_get 1 DISCONNECT [] then [.get "s" [8] 2] else []

/-- A network on which the connection with the descriptor 5 is dead: a write on
it fails, every other write succeeds and a new connection gets the
descriptor 6. -/
def flaky_network : network :=
  { connect := fun _ => some 6, xsend := fun soc _ => decide (soc ≠ 5) }

/-- A script for two passes of `flush`: the coordinator slot is ready in both,
and in the first the moved snapshot is waiting to be acknowledged. -/
def retire_script : script 2 :=
  { quiet_script with polls := [.ready [idle] true, .ready [idle] true],
                      announced := some moved_config }

/-! ## Serialization lemmas -/

theorem be_value_snoc (b : buffer) (x : octet) :
    be_value (b ++ [x]) = be_value b * 256 + x.val := by
  simp [be_value, List.foldl_append]

theorem length_pack_uint (w n : Nat) : (pack_uint w n).length = w := by
  induction w generalizing n with
  | zero => rfl
  | succ w ih => simp [pack_uint, ih]

theorem be_value_pack_uint (w n : Nat) : be_value (pack_uint w n) = n % 256 ^ w := by
  induction w generalizing n with
  | zero => simp [pack_uint, be_value, Nat.mod_one]
  | succ w ih =>
    rw [pack_uint, be_value_snoc, ih, Nat.pow_succ, Nat.mul_comm (256 ^ w) 256,
      Nat.mod_mul (x := n) (a := 256) (b := 256 ^ w)]
    simp only []
    omega

theorem unpack_uint_pack_uint (w n : Nat) (rest : buffer) :
    unpack_uint w (pack_uint w n ++ rest) = some (n % 256 ^ w, rest) := by
  have hlen := length_pack_uint w n
  unfold unpack_uint
  rw [if_pos (by simp [hlen])]
  rw [List.take_left' hlen, List.drop_left' hlen, be_value_pack_uint]

theorem unpack_uint16_pack (code : Nat) (rest : buffer) (h : code < 65536) :
    unpack_uint 2 (pack_uint 2 code ++ rest) = some (code, rest) := by
  rw [unpack_uint_pack_uint, Nat.mod_eq_of_lt (by norm_num; exact h)]

theorem unpack_uint_short (w : Nat) (up : buffer) (h : up.length < w) :
    unpack_uint w up = none := by
  unfold unpack_uint
  rw [if_neg (by omega)]

theorem unpack_buffer_pack_buffer (P : packing) (b rest : buffer)
    (h : b.length < 256 ^ P.size_width) :
    unpack_buffer P (pack_buffer P b ++ rest) = some (b, rest) := by
  unfold unpack_buffer pack_buffer
  rw [List.append_assoc, unpack_uint_pack_uint, Nat.mod_eq_of_lt h]
  simp

theorem unpack_elems_pack (P : packing) (vs : List buffer) (rest : buffer) (dst : List buffer)
    (h : ∀ v ∈ vs, v.length < 256 ^ P.size_width) :
    unpack_elems P vs.length ((vs.map (pack_buffer P)).flatten ++ rest) dst
      = some (dst ++ vs, rest) := by
  induction vs generalizing dst with
  | nil => simp [unpack_elems]
  | cons v vs ih =>
    have hv := h v (List.mem_cons_self v vs)
    have hvs : ∀ u ∈ vs, u.length < 256 ^ P.size_width :=
      fun u hu => h u (List.mem_cons_of_mem v hu)
    simp only [List.map_cons, List.flatten_cons, List.length_cons, unpack_elems,
      List.append_assoc]
    rw [unpack_buffer_pack_buffer P v _ hv]
    simp only []
    rw [ih (dst ++ [v]) hvs]
    simp

theorem unpack_vector_pack_vector (P : packing) (vs : List buffer) (rest : buffer)
    (dst : List buffer) (hcount : vs.length < 256 ^ P.count_width)
    (hsize : ∀ v ∈ vs, v.length < 256 ^ P.size_width) :
    unpack_vector P (pack_vector P vs ++ rest) dst = (dst ++ vs, some rest) := by
  unfold unpack_vector pack_vector
  rw [List.append_assoc, unpack_uint_pack_uint, Nat.mod_eq_of_lt hcount]
  simp only []
  rw [unpack_elems_pack P vs rest dst hsize]

theorem unpack_vector_none (P : packing) (up : buffer) (dst v : List buffer)
    (h : unpack_vector P up dst = (v, none)) : v = dst := by
  unfold unpack_vector at h
  split at h
  · exact (Prod.mk.inj h).1.symm
  · split at h
    · exact (Prod.mk.inj h).1.symm
    · cases (Prod.mk.inj h).2

/-! ## Reply decoding of the two pending variants -/

/-- C3: delivering to a read-pending a reply with entry status Success, reply
type RESP_GET and a body made of the 16-bit code NET_SUCCESS followed by the
serialized list `vs` invokes the continuation exactly once, with
`(SUCCESS, vs)`, the values in the order they were encoded.  The list is one
that the wire format can carry: its element count and the length of every
element fit the widths of their length fields. -/
theorem C3_get_reply_values (N : network_constants) (P : packing) (cb : Nat)
    (vs : List buffer) (hcode : N.NET_SUCCESS < 65536)
    (hcount : vs.length < 256 ^ P.count_width)
    (hsize : ∀ v ∈ vs, v.length < 256 ^ P.size_width) :
    pending_get.result_msg N P cb SUCCESS N.RESP_GET
        (pack_uint 2 N.NET_SUCCESS ++ pack_vector P vs)
      = [event.callback_get cb SUCCESS vs] := by
  have hv := unpack_vector_pack_vector P vs [] [] hcount hsize
  rw [List.append_nil] at hv
  simp only [pending_get.result_msg, pending_get.result_switch,
    unpack_uint16_pack _ _ hcode, hv]
  simp

theorem C3_get_reply_values_witness :
    pending_get.result_msg sample_constants sample_packing 7 SUCCESS sample_constants.RESP_GET
        (pack_uint 2 sample_constants.NET_SUCCESS ++ pack_vector sample_packing [[1, 2], [3]])
      = [event.callback_get 7 SUCCESS [[1, 2], [3]]] :=
  C3_get_reply_values sample_constants sample_packing 7 [[1, 2], [3]] (by decide) (by decide)
    (by decide)

theorem get_value_list_origin (N : network_constants) (P : packing) (cb : Nat)
    (ret : returncode) (msg_type : network_msgtype) (msg : buffer) (status : returncode)
    (value : List buffer)
    (h : pending_get.result_msg N P cb ret msg_type msg = [event.callback_get cb status value])
    (hne : value ≠ []) :
    ret = SUCCESS ∧ msg_type = N.RESP_GET ∧
      ∃ up, unpack_uint 2 msg = some (N.NET_SUCCESS, up) ∧
        (unpack_vector P up []).1 = value := by
  unfold pending_get.result_msg at h
  simp only [] at h
  split at h
  · simp only [List.cons.injEq, event.callback_get.injEq, and_true, true_and] at h
    exact absurd h.2.symm hne
  · split at h
    · simp only [List.cons.injEq, event.callback_get.injEq, and_true, true_and] at h
      exact absurd h.2.symm hne
    · rename_i hret hty
      split at h
      · simp only [List.cons.injEq, event.callback_get.injEq, and_true, true_and] at h
        exact absurd h.2.symm hne
      · rename_i response up hu
        unfold pending_get.result_switch at h
        by_cases hr : response = N.NET_SUCCESS
        · subst hr
          refine ⟨not_not.mp hret, not_not.mp hty, up, hu, ?_⟩
          rw [if_pos rfl] at h
          split at h <;> rename_i hv <;>
            simp only [List.cons.injEq, event.callback_get.injEq, and_true, true_and] at h <;>
            rw [hv] <;> exact h.2
        · rw [if_neg hr] at h
          repeat' split at h
          all_goals
            simp only [List.cons.injEq, event.callback_get.injEq, and_true, true_and] at h
            exact absurd h.2.symm hne

/-- C4: for every read-pending and every way its continuation is invoked, the
value list it is passed is empty whenever the status it is passed is not
SUCCESS.  `result(ret)` makes exactly one call, with `ret` and an empty list;
`result(ret, msg_type, msg)` makes exactly one call, for every entry status,
reply type and body, and the list of that call is empty unless its status is
SUCCESS: also for a body that is cut short in the value list, whose extraction
leaves the vector handed over by the handler as it was, empty. -/
theorem C4_values_empty_unless_success (N : network_constants) (P : packing) (cb : Nat) :
    (∀ ret : returncode, pending_get.result cb ret = [event.callback_get cb ret []]) ∧
    (∀ (ret : returncode) (msg_type : network_msgtype) (msg : buffer),
      ∃ (st : returncode) (vs : List buffer),
        pending_get.result_msg N P cb ret msg_type msg = [event.callback_get cb st vs] ∧
        (st = SUCCESS ∨ vs = [])) := by
  refine ⟨fun ret => rfl, fun ret msg_type msg => ?_⟩
  unfold pending_get.result_msg
  simp only []
  split
  · exact ⟨_, _, rfl, Or.inr rfl⟩
  · split
    · exact ⟨_, _, rfl, Or.inr rfl⟩
    · split
      · exact ⟨_, _, rfl, Or.inr rfl⟩
      · rename_i response up hu
        unfold pending_get.result_switch
        split
        · split
          · exact ⟨_, _, rfl, Or.inl rfl⟩
          · rename_i value hv
            exact ⟨_, _, rfl, Or.inr (unpack_vector_none P up [] value hv)⟩
        · repeat' split
          all_goals exact ⟨_, _, rfl, Or.inr rfl⟩

theorem truncated_list_sample :
    pending_get.result_msg sample_constants sample_packing 7 SUCCESS sample_constants.RESP_GET
        [32, 128, 0, 0, 0, 2, 0, 0, 0, 2, 1, 2, 0, 0, 0, 1]
      = [event.callback_get 7 SERVERERROR []] := by
  decide

/-- C5, counterexample: a read-pending that is delivered the expected type and a
body consisting of the code NET_SUCCESS alone reports SERVERERROR, not SUCCESS. -/
theorem C5_get_success_code_alone :
    unpack_uint 2 (pack_uint 2 sample_constants.NET_SUCCESS)
        = some (sample_constants.NET_SUCCESS, []) ∧
      pending_get.result_msg sample_constants sample_packing 7 SUCCESS
          sample_constants.RESP_GET (pack_uint 2 sample_constants.NET_SUCCESS)
        = [event.callback_get 7 SERVERERROR []] := by
  decide

/-- C5, amended: with entry status SUCCESS, the expected reply type and a body
that starts with the 16-bit `code`, both variants invoke the continuation
exactly once, with NOTFOUND for NET_NOTFOUND, WRONGARITY for NET_WRONGARITY,
SERVERERROR for NET_SERVERERROR and for a code that is not a network return
code; a body shorter than two octets gives SERVERERROR.  For NET_SUCCESS a
mutate-pending reports SUCCESS; a read-pending reports SUCCESS with the decoded
values when the rest of the body decodes as a value list, and SERVERERROR when
it does not. -/
theorem C5_net_code_mapping (N : network_constants) (P : packing) (hN : N.codes_ok)
    (cb : Nat) (expected : network_msgtype) (code : Nat) (rest : buffer)
    (hcode : code < 65536) :
    (code = N.NET_SUCCESS →
      pending_mutate.result_msg N expected cb SUCCESS expected (pack_uint 2 code ++ rest)
          = [event.callback_mutate cb SUCCESS] ∧
      (∀ vs up, unpack_vector P rest [] = (vs, some up) →
        pending_get.result_msg N P cb SUCCESS N.RESP_GET (pack_uint 2 code ++ rest)
          = [event.callback_get cb SUCCESS vs]) ∧
      (∀ vs, unpack_vector P rest [] = (vs, none) →
        ∃ value, pending_get.result_msg N P cb SUCCESS N.RESP_GET (pack_uint 2 code ++ rest)
          = [event.callback_get cb SERVERERROR value])) ∧
    (code = N.NET_NOTFOUND →
      pending_mutate.result_msg N expected cb SUCCESS expected (pack_uint 2 code ++ rest)
          = [event.callback_mutate cb NOTFOUND] ∧
      pending_get.result_msg N P cb SUCCESS N.RESP_GET (pack_uint 2 code ++ rest)
          = [event.callback_get cb NOTFOUND []]) ∧
    (code = N.NET_WRONGARITY →
      pending_mutate.result_msg N expected cb SUCCESS expected (pack_uint 2 code ++ rest)
          = [event.callback_mutate cb WRONGARITY] ∧
      pending_get.result_msg N P cb SUCCESS N.RESP_GET (pack_uint 2 code ++ rest)
          = [event.callback_get cb WRONGARITY []]) ∧
    (code = N.NET_SERVERERROR →
      pending_mutate.result_msg N expected cb SUCCESS expected (pack_uint 2 code ++ rest)
          = [event.callback_mutate cb SERVERERROR] ∧
      pending_get.result_msg N P cb SUCCESS N.RESP_GET (pack_uint 2 code ++ rest)
          = [event.callback_get cb SERVERERROR []]) ∧
    (code ∉ [N.NET_SUCCESS, N.NET_NOTFOUND, N.NET_WRONGARITY, N.NET_NOTUS,
          N.NET_SERVERERROR] →
      pending_mutate.result_msg N expected cb SUCCESS expected (pack_uint 2 code ++ rest)
          = [event.callback_mutate cb SERVERERROR] ∧
      pending_get.result_msg N P cb SUCCESS N.RESP_GET (pack_uint 2 code ++ rest)
          = [event.callback_get cb SERVERERROR []]) ∧
    (∀ msg : buffer, msg.length < 2 →
      pending_mutate.result_msg N expected cb SUCCESS expected msg
          = [event.callback_mutate cb SERVERERROR] ∧
      pending_get.result_msg N P cb SUCCESS N.RESP_GET msg
          = [event.callback_get cb SERVERERROR []]) := by
  obtain ⟨hnd, -⟩ := hN
  simp only [List.nodup_cons, List.mem_cons, List.mem_singleton, not_or, List.not_mem_nil,
    not_false_eq_true, List.nodup_nil, and_true] at hnd
  obtain ⟨⟨h12, h13, h14, h15⟩, ⟨h23, h24, h25⟩, ⟨h34, h35⟩, h45⟩ := hnd
  have hu := unpack_uint16_pack code rest hcode
  refine ⟨?_, ?_, ?_, ?_, ?_, ?_⟩
  · intro h
    subst h
    refine ⟨?_, ?_, ?_⟩
    · simp [pending_mutate.result_msg, pending_mutate.result_switch, hu]
    · intro vs up hv
      simp [pending_get.result_msg, pending_get.result_switch, hu, hv]
    · intro vs hv
      exact ⟨vs, by simp [pending_get.result_msg, pending_get.result_switch, hu, hv]⟩
  · intro h
    subst h
    constructor
    · simp [pending_mutate.result_msg, pending_mutate.result_switch, hu, Ne.symm h12]
    · simp [pending_get.result_msg, pending_get.result_switch, hu, Ne.symm h12]
  · intro h
    subst h
    constructor
    · simp [pending_mutate.result_msg, pending_mutate.result_switch, hu, Ne.symm h13,
        Ne.symm h23]
    · simp [pending_get.result_msg, pending_get.result_switch, hu, Ne.symm h13, Ne.symm h23]
  · intro h
    subst h
    constructor
    · simp [pending_mutate.result_msg, pending_mutate.result_switch, hu, Ne.symm h15,
        Ne.symm h25, Ne.symm h35, Ne.symm h45]
    · simp [pending_get.result_msg, pending_get.result_switch, hu, Ne.symm h15, Ne.symm h25,
        Ne.symm h35, Ne.symm h45]
  · intro h
    simp only [List.mem_cons, List.mem_singleton, not_or, List.not_mem_nil, or_false] at h
    obtain ⟨n1, n2, n3, n4, n5⟩ := h
    constructor
    · simp [pending_mutate.result_msg, pending_mutate.result_switch, hu, n1, n2, n3, n4, n5]
    · simp [pending_get.result_msg, pending_get.result_switch, hu, n1, n2, n3, n4, n5]
  · intro msg hmsg
    have hs := unpack_uint_short 2 msg hmsg
    constructor
    · simp [pending_mutate.result_msg, hs]
    · simp [pending_get.result_msg, hs]

theorem C5_net_code_mapping_witness :
    pending_mutate.result_msg sample_constants 11 7 SUCCESS 11 (pack_uint 2 8321 ++ [])
        = [event.callback_mutate 7 NOTFOUND] ∧
      pending_get.result_msg sample_constants sample_packing 7 SUCCESS
          sample_constants.RESP_GET (pack_uint 2 8321 ++ [])
        = [event.callback_get 7 NOTFOUND []] :=
  (C5_net_code_mapping sample_constants sample_packing (by decide) 7 11 8321 []
    (by decide)).2.1 rfl

/-- C6: for both variants and every body, a delivery with an entry status other
than SUCCESS invokes the continuation exactly once with that status, whatever
the reply type and the body; a delivery with entry status SUCCESS and a reply
type other than the expected one (RESP_GET for a read-pending, the recorded
type for a mutate-pending) invokes it exactly once with SERVERERROR, whatever
the body. -/
theorem C6_entry_status_and_reply_type (N : network_constants) (P : packing) (cb : Nat)
    (expected : network_msgtype) :
    (∀ (ret : returncode) (msg_type : network_msgtype) (msg : buffer), ret ≠ SUCCESS →
      pending_get.result_msg N P cb ret msg_type msg = [event.callback_get cb ret []] ∧
      pending_mutate.result_msg N expected cb ret msg_type msg
        = [event.callback_mutate cb ret]) ∧
    (∀ (msg_type : network_msgtype) (msg : buffer), msg_type ≠ N.RESP_GET →
      pending_get.result_msg N P cb SUCCESS msg_type msg
        = [event.callback_get cb SERVERERROR []]) ∧
    (∀ (msg_type : network_msgtype) (msg : buffer), msg_type ≠ expected →
      pending_mutate.result_msg N expected cb SUCCESS msg_type msg
        = [event.callback_mutate cb SERVERERROR]) := by
  refine ⟨?_, ?_, ?_⟩
  · intro ret msg_type msg hret
    constructor
    · simp [pending_get.result_msg, hret]
    · simp [pending_mutate.result_msg, hret]
  · intro msg_type msg hty
    simp [pending_get.result_msg, hty]
  · intro msg_type msg hty
    simp [pending_mutate.result_msg, hty]

theorem C6_entry_status_and_reply_type_witness :
    pending_get.result_msg sample_constants sample_packing 7 DISCONNECT 9 [32, 128]
        = [event.callback_get 7 DISCONNECT []] ∧
      pending_mutate.result_msg sample_constants 11 7 DISCONNECT 9 [32, 128]
        = [event.callback_mutate 7 DISCONNECT] :=
  (C6_entry_status_and_reply_type sample_constants sample_packing 7 11).1
    DISCONNECT 9 [32, 128] (by decide)

/-! ## The frame codec -/

theorem unpack_entityid_pack {S : Nat} (e : entityid S) (rest : buffer) :
    unpack_entityid S (pack_entityid e ++ rest) = some (e, rest) := by
  obtain ⟨bytes, hlen⟩ := e
  subst hlen
  simp [unpack_entityid, pack_entityid]

theorem length_build_frame {S : Nat} (chan_id ent : entityid S) (inst : hyperdex_instance)
    (nonce : Nat) (send_type : network_msgtype) (send_msg : buffer) :
    (async_client_impl.build_frame chan_id ent inst nonce send_type send_msg).length
      = 13 + S * 2 + send_msg.length := by
  simp only [async_client_impl.build_frame, List.length_append, length_pack_uint,
    pack_entityid, chan_id.size_eq, ent.size_eq]
  omega

theorem size_field_build_frame {S : Nat} (chan_id ent : entityid S) (inst : hyperdex_instance)
    (nonce : Nat) (send_type : network_msgtype) (send_msg : buffer) :
    be_value ((async_client_impl.build_frame chan_id ent inst nonce send_type send_msg).take 4)
      = (9 + S * 2 + send_msg.length) % 4294967296 := by
  simp only [async_client_impl.build_frame, List.append_assoc]
  rw [List.take_left' (length_pack_uint 4 _), be_value_pack_uint]
  norm_num

theorem send_hands_build_frame {S : Nat} (net : network) (s : async_client_impl S)
    (chan : Nat) (c : channel S) (op : pending S) (ent : entityid S)
    (inst : hyperdex_instance) (nonce : Nat) (send_type : network_msgtype)
    (send_msg : buffer) (hc : s.channels[chan]? = some c) :
    ∃ ok tail, (async_client_impl.send net s chan op ent inst nonce send_type send_msg).1.trace
      = s.trace ++ event.xsend c.soc
          (async_client_impl.build_frame c.id ent inst nonce send_type send_msg) ok :: tail := by
  unfold async_client_impl.send
  rw [hc]
  simp only []
  split
  · exact ⟨true, [], rfl⟩
  · exact ⟨false, op.result DISCONNECT, by simp⟩

theorem parse_frame_build_frame {S : Nat} (chan_id ent : entityid S)
    (inst : hyperdex_instance) (nonce : Nat) (send_type : network_msgtype)
    (send_msg : buffer) (htype : send_type < 256) (hver : inst.inbound_version < 65536)
    (hnonce : nonce < 4294967296) :
    async_client_impl.parse_frame S
        (async_client_impl.build_frame chan_id ent inst nonce send_type send_msg)
      = some ({ nop := (9 + S * 2 + send_msg.length) % 4294967296, type_num := send_type,
                fromver := 0, tover := inst.inbound_version, from_entity := chan_id,
                to_entity := ent, nonce := nonce }, send_msg) := by
  simp only [async_client_impl.build_frame, async_client_impl.parse_frame, List.append_assoc,
    unpack_uint_pack_uint, unpack_entityid_pack]
  have h1 : send_type % 256 % 256 ^ 1 = send_type := by
    rw [Nat.pow_one, Nat.mod_mod, Nat.mod_eq_of_lt htype]
  have h2 : inst.inbound_version % 65536 % 256 ^ 2 = inst.inbound_version := by
    rw [Nat.mod_eq_of_lt hver]; exact Nat.mod_eq_of_lt (by norm_num; exact hver)
  have h3 : nonce % 256 ^ 4 = nonce := Nat.mod_eq_of_lt (by norm_num; exact hnonce)
  rw [h1, h2, h3]
  norm_num

/-- C7: the frame that `send` hands to the socket of channel `c`, parsed with the
header extraction that `flush` applies to replies (4-octet size, then type,
from_version, to_version, from_entity, to_entity, nonce, remainder as body),
gives back the request type, from_version 0, to_version `inst.inbound_version`,
from_entity the id of the channel, to_entity the routed entity, the nonce, and
a body identical to the message.  The request type, the version and the nonce
are values of the widths `send` stores them in (8, 16 and 32 bits). -/
theorem C7_frame_round_trip {S : Nat} (net : network) (s : async_client_impl S)
    (chan : Nat) (c : channel S) (op : pending S) (ent : entityid S)
    (inst : hyperdex_instance) (nonce : Nat) (send_type : network_msgtype)
    (send_msg : buffer) (hc : s.channels[chan]? = some c) (htype : send_type < 256)
    (hver : inst.inbound_version < 65536) (hnonce : nonce < 4294967296) :
    ∃ packed ok tail nop,
      (async_client_impl.send net s chan op ent inst nonce send_type send_msg).1.trace
        = s.trace ++ event.xsend c.soc packed ok :: tail ∧
      async_client_impl.parse_frame S packed
        = some ({ nop := nop, type_num := send_type, fromver := 0,
                  tover := inst.inbound_version, from_entity := c.id, to_entity := ent,
                  nonce := nonce }, send_msg) := by
  obtain ⟨ok, tail, htrace⟩ :=
    send_hands_build_frame net s chan c op ent inst nonce send_type send_msg hc
  exact ⟨_, ok, tail, _, htrace,
    parse_frame_build_frame c.id ent inst nonce send_type send_msg htype hver hnonce⟩

theorem C7_frame_round_trip_witness :
    ∃ packed ok tail nop,
      (async_client_impl.send sample_network sample_client_open 0
          (pending.create 2 (.pending_get 4)) ⟨[0, 1], rfl⟩ ⟨7, 3⟩ 1
          sample_constants.REQ_GET [9]).1.trace
        = sample_client_open.trace ++ event.xsend 5 packed ok :: tail ∧
      async_client_impl.parse_frame 2 packed
        = some ({ nop := nop, type_num := sample_constants.REQ_GET, fromver := 0, tover := 3,
                  from_entity := sample_externals.CLIENTSPACE, to_entity := ⟨[0, 1], rfl⟩,
                  nonce := 1 }, [9]) :=
  C7_frame_round_trip sample_network sample_client_open 0 ⟨5, 1, sample_externals.CLIENTSPACE⟩
    (pending.create 2 (.pending_get 4)) ⟨[0, 1], rfl⟩ ⟨7, 3⟩ 1 sample_constants.REQ_GET [9]
    rfl (by decide) (by decide) (by decide)

/-- C8, counterexample: a GET frame of 18 octets built by `send` carries 14 in
its size field, not 18. -/
theorem C8_size_field_is_not_frame_length :
    (async_client_impl.build_frame sample_externals.CLIENTSPACE ⟨[0, 1], rfl⟩ ⟨7, 3⟩ 1
        sample_constants.REQ_GET [9]).length = 18 ∧
      be_value ((async_client_impl.build_frame sample_externals.CLIENTSPACE ⟨[0, 1], rfl⟩
        ⟨7, 3⟩ 1 sample_constants.REQ_GET [9]).take 4) = 14 := by
  decide

/-- C8, amended: the value written in the 4-octet size field of a frame built by
`send` is the length of the frame that is sent without the size field itself
(type, both versions, both entities, nonce and body), reduced modulo 2^32: four
less than the total length of the frame. -/
theorem C8_size_field_excludes_itself {S : Nat} (chan_id ent : entityid S)
    (inst : hyperdex_instance) (nonce : Nat) (send_type : network_msgtype)
    (send_msg : buffer) :
    be_value ((async_client_impl.build_frame chan_id ent inst nonce send_type send_msg).take 4)
      = ((async_client_impl.build_frame chan_id ent inst nonce send_type send_msg).length - 4)
          % 4294967296 := by
  rw [size_field_build_frame, length_build_frame]
  congr 1
  omega

/-! ## The preflight of `update` -/

theorem map_find_some {V : Type} (m : List (String × V)) (k : String) (kv : String × V)
    (h : map_find m k = some kv) : kv ∈ m ∧ kv.1 = k := by
  induction m with
  | nil => simp [map_find] at h
  | cons e m ih =>
    obtain ⟨k0, v0⟩ := e
    unfold map_find at h
    by_cases hk : k0 = k
    · rw [if_pos hk] at h
      cases h
      exact ⟨List.mem_cons_self _ _, hk⟩
    · rw [if_neg hk] at h
      exact ⟨List.mem_cons_of_mem _ (ih h).1, (ih h).2⟩

theorem map_find_none {V : Type} (m : List (String × V)) (k : String)
    (h : map_find m k = none) : k ∉ m.map Prod.fst := by
  induction m with
  | nil => simp
  | cons e m ih =>
    obtain ⟨k0, v0⟩ := e
    unfold map_find at h
    by_cases hk : k0 = k
    · rw [if_pos hk] at h
      cases h
    · rw [if_neg hk] at h
      simp only [List.map_cons, List.mem_cons, not_or]
      exact ⟨fun heq => hk heq.symm, ih h⟩

theorem map_find_of_mem {V : Type} (m : List (String × V)) (kv : String × V)
    (hnd : (m.map Prod.fst).Nodup) (h : kv ∈ m) : map_find m kv.1 = some kv := by
  induction m with
  | nil => cases h
  | cons e m ih =>
    obtain ⟨k0, v0⟩ := e
    simp only [List.map_cons, List.nodup_cons] at hnd
    unfold map_find
    rcases List.mem_cons.mp h with heq | hmem
    · subst heq
      simp
    · have hne : k0 ≠ kv.1 := by
        intro heq
        exact hnd.1 (heq ▸ List.mem_map_of_mem Prod.fst hmem)
      rw [if_neg hne]
      exact ih hnd.2 hmem

theorem map_find_isSome {V : Type} (m : List (String × V)) (k : String) :
    (map_find m k).isSome = decide (k ∈ m.map Prod.fst) := by
  cases h : map_find m k with
  | none => simp [map_find_none m k h]
  | some kv =>
    obtain ⟨hmem, hk⟩ := map_find_some m k kv h
    have : k ∈ m.map Prod.fst := hk ▸ List.mem_map_of_mem Prod.fst hmem
    simp [this]

theorem update_scan_bits (value : List (String × buffer)) (names : List String) :
    ∀ (i : Nat) (pre : List Bool) (l : async_client_impl.update_locals),
      i = pre.length + 1 → l.bits = pre ++ List.replicate names.length false →
      (async_client_impl.update_scan value names i l).bits
        = pre ++ names.map (fun name => (map_find value name).isSome) := by
  induction names with
  | nil => intro i pre l _ hl; simpa [async_client_impl.update_scan] using hl
  | cons name names ih =>
    intro i pre l hi hl
    subst hi
    unfold async_client_impl.update_scan
    cases hfind : map_find value name with
    | none =>
      simp only []
      rw [ih (pre.length + 1 + 1) (pre ++ [false]) _ (by simp)]
      · simp [hfind]
      · simp [hl, List.replicate_succ]
    | some valiter =>
      simp only []
      rw [ih (pre.length + 1 + 1) (pre ++ [true]) _ (by simp)]
      · simp [hfind]
      · simp [hl, List.replicate_succ]

theorem update_scan_realvalue (value : List (String × buffer)) (names : List String) :
    ∀ (i : Nat) (pre : List buffer) (l : async_client_impl.update_locals),
      i = pre.length + 1 → l.realvalue = pre ++ List.replicate names.length [] →
      (async_client_impl.update_scan value names i l).realvalue
        = pre ++ names.map (fun name => ((map_find value name).map Prod.snd).getD []) := by
  induction names with
  | nil => intro i pre l _ hl; simpa [async_client_impl.update_scan] using hl
  | cons name names ih =>
    intro i pre l hi hl
    subst hi
    unfold async_client_impl.update_scan
    cases hfind : map_find value name with
    | none =>
      simp only []
      rw [ih (pre.length + 1 + 1) (pre ++ [[]]) _ (by simp)]
      · simp [hfind]
      · simp [hl, List.replicate_succ]
    | some valiter =>
      simp only []
      rw [ih (pre.length + 1 + 1) (pre ++ [valiter.2]) _ (by simp)]
      · simp [hfind]
      · simp [hl, List.replicate_succ]

theorem update_scan_seen (value : List (String × buffer)) (names : List String) :
    ∀ (i : Nat) (l : async_client_impl.update_locals) (x : String),
      x ∈ (async_client_impl.update_scan value names i l).seen
        ↔ x ∈ l.seen ∨ (x ∈ names ∧ x ∈ value.map Prod.fst) := by
  induction names with
  | nil => intro i l x; simp [async_client_impl.update_scan]
  | cons name names ih =>
    intro i l x
    unfold async_client_impl.update_scan
    cases hfind : map_find value name with
    | none =>
      simp only []
      rw [ih]
      have hnot := map_find_none value name hfind
      constructor
      · rintro (h | ⟨h1, h2⟩)
        · exact Or.inl h
        · exact Or.inr ⟨List.mem_cons_of_mem _ h1, h2⟩
      · rintro (h | ⟨h1, h2⟩)
        · exact Or.inl h
        · rcases List.mem_cons.mp h1 with heq | hmem
          · subst heq; exact absurd h2 hnot
          · exact Or.inr ⟨hmem, h2⟩
    | some valiter =>
      simp only []
      rw [ih]
      obtain ⟨hmem, hk⟩ := map_find_some value name valiter hfind
      have hin : name ∈ value.map Prod.fst := hk ▸ List.mem_map_of_mem Prod.fst hmem
      have hseen : x ∈ (if valiter.1 ∈ l.seen then l.seen else l.seen ++ [valiter.1])
          ↔ x ∈ l.seen ∨ x = name := by
        rw [hk]
        split
        · constructor
          · exact Or.inl
          · rintro (h | h)
            · exact h
            · subst h; assumption
        · simp
      rw [hseen]
      constructor
      · rintro ((h | h) | ⟨h1, h2⟩)
        · exact Or.inl h
        · subst h; exact Or.inr ⟨List.mem_cons_self _ _, hin⟩
        · exact Or.inr ⟨List.mem_cons_of_mem _ h1, h2⟩
      · rintro (h | ⟨h1, h2⟩)
        · exact Or.inl (Or.inl h)
        · rcases List.mem_cons.mp h1 with heq | hmem
          · exact Or.inl (Or.inr heq)
          · exact Or.inr ⟨hmem, h2⟩

theorem update_build_bits (d : List String) (value : List (String × buffer)) :
    (async_client_impl.update_build d value).bits
      = (d.drop 1).map (fun name => (map_find value name).isSome) := by
  unfold async_client_impl.update_build
  rw [update_scan_bits value (d.drop 1) 1 [] _ rfl (by simp)]
  simp

theorem update_build_realvalue (d : List String) (value : List (String × buffer)) :
    (async_client_impl.update_build d value).realvalue
      = (d.drop 1).map (fun name => ((map_find value name).map Prod.snd).getD []) := by
  unfold async_client_impl.update_build
  rw [update_scan_realvalue value (d.drop 1) 1 [] _ rfl (by simp)]
  simp

theorem update_build_seen (d : List String) (value : List (String × buffer)) (x : String) :
    x ∈ (async_client_impl.update_build d value).seen
      ↔ x ∈ d.drop 1 ∧ x ∈ value.map Prod.fst := by
  unfold async_client_impl.update_build
  rw [update_scan_seen]
  simp

theorem update_unseen_iff (d : List String) (value : List (String × buffer)) :
    async_client_impl.update_unseen value (async_client_impl.update_build d value).seen = true
      ↔ ∃ kv ∈ value, kv.1 ∉ d.drop 1 := by
  unfold async_client_impl.update_unseen
  rw [List.any_eq_true]
  constructor
  · rintro ⟨kv, hmem, hkv⟩
    refine ⟨kv, hmem, fun hin => ?_⟩
    have hnot : kv.1 ∉ (async_client_impl.update_build d value).seen := by simpa using hkv
    exact hnot ((update_build_seen d value kv.1).mpr ⟨hin, List.mem_map_of_mem Prod.fst hmem⟩)
  · rintro ⟨kv, hmem, hkv⟩
    refine ⟨kv, hmem, ?_⟩
    have hnot : kv.1 ∉ (async_client_impl.update_build d value).seen :=
      fun hin => hkv ((update_build_seen d value kv.1).mp hin).1
    simpa using hnot

theorem zip_maps {A B C : Type} (names : List A) (f : A → B) (g : A → C) :
    names.zip ((names.map f).zip (names.map g)) = names.map (fun n => (n, f n, g n)) := by
  induction names with
  | nil => rfl
  | cons n names ih => simp [ih]

theorem mem_update_decode (d : List String) (m : List (String × buffer))
    (kv : String × buffer) :
    kv ∈ update_decode d (async_client_impl.update_build d m).bits
        (async_client_impl.update_build d m).realvalue
      ↔ ∃ name ∈ d.drop 1, (map_find m name).isSome = true ∧
          kv = (name, ((map_find m name).map Prod.snd).getD []) := by
  unfold update_decode
  rw [update_build_bits, update_build_realvalue, zip_maps, List.mem_filterMap]
  constructor
  · rintro ⟨e, he, hk⟩
    obtain ⟨name, hname, rfl⟩ := List.mem_map.mp he
    by_cases hs : (map_find m name).isSome = true
    · refine ⟨name, hname, hs, ?_⟩
      simp only [hs, if_true, Option.some.injEq] at hk
      exact hk.symm
    · simp [hs] at hk
  · rintro ⟨name, hname, hs, rfl⟩
    exact ⟨_, List.mem_map_of_mem _ hname, by simp [hs]⟩

/-- C9: for every dimension list `d` (`d[0]` the key) and every mapping `m`, given
by its entries with pairwise different names that all occur among `d[1..]`,
the pair `(bits, realvalue)` that `update` builds round-trips: the bitfield has
one bit per non-key dimension, bit `i-1` is set exactly when `d[i]` is a name
of `m`, and the mapping that sends `d[i]` to `realvalue[i-1]` for the set bits
`i-1` has the same entries as `m`. -/
theorem C9_update_round_trip (d : List String) (m : List (String × buffer))
    (hm : (m.map Prod.fst).Nodup) (hnames : ∀ kv ∈ m, kv.1 ∈ d.drop 1) :
    (async_client_impl.update_build d m).bits.length = d.length - 1 ∧
    (∀ (i : Nat) (name : String), 1 ≤ i → d[i]? = some name →
      (async_client_impl.update_build d m).bits[i - 1]?
        = some (decide (name ∈ m.map Prod.fst))) ∧
    (∀ kv : String × buffer,
      kv ∈ update_decode d (async_client_impl.update_build d m).bits
          (async_client_impl.update_build d m).realvalue ↔ kv ∈ m) := by
  refine ⟨?_, ?_, ?_⟩
  · rw [update_build_bits]; simp
  · intro i name hi hd
    rw [update_build_bits, List.getElem?_map, List.getElem?_drop]
    have h1 : 1 + (i - 1) = i := by omega
    rw [h1, hd]
    simp [map_find_isSome]
  · intro kv
    rw [mem_update_decode]
    constructor
    · rintro ⟨name, _, hs, rfl⟩
      cases hfind : map_find m name with
      | none => simp [hfind] at hs
      | some e =>
        obtain ⟨hmem, hk⟩ := map_find_some m name e hfind
        have : (name, (Option.map Prod.snd (some e)).getD []) = e := by
          rw [← hk]; rfl
        rw [this]
        exact hmem
    · intro hkv
      have hfind := map_find_of_mem m kv hm hkv
      exact ⟨kv.1, hnames kv hkv, by simp [hfind], by simp [hfind]⟩

theorem C9_update_round_trip_witness :
    (async_client_impl.update_build ["key", "a", "b"] [("b", [2])]).bits.length = 3 - 1 ∧
    (∀ (i : Nat) (name : String), 1 ≤ i → ["key", "a", "b"][i]? = some name →
      (async_client_impl.update_build ["key", "a", "b"] [("b", [2])]).bits[i - 1]?
        = some (decide (name ∈ [("b", ([2] : buffer))].map Prod.fst))) ∧
    (∀ kv : String × buffer,
      kv ∈ update_decode ["key", "a", "b"]
          (async_client_impl.update_build ["key", "a", "b"] [("b", [2])]).bits
          (async_client_impl.update_build ["key", "a", "b"] [("b", [2])]).realvalue
        ↔ kv ∈ [("b", ([2] : buffer))]) :=
  C9_update_round_trip ["key", "a", "b"] [("b", [2])] (by decide) (by decide)

theorem update_accepted {S : Nat} (E : externals S) (net : network)
    (s : async_client_impl S) (space : String) (key : buffer)
    (value : List (String × buffer)) (callback : Nat)
    (hspace : s.m_config.lookup_spaceid space ≠ E.NULLSPACE)
    (hdims : s.m_config.lookup_space_dimensions (s.m_config.lookup_spaceid space) ≠ [])
    (hacc : ∀ kv ∈ value,
      kv.1 ∈ (s.m_config.lookup_space_dimensions (s.m_config.lookup_spaceid space)).drop 1) :
    async_client_impl.update E net s space key value callback
      = some (async_client_impl.add_reqrep E net s space key E.consts.REQ_UPDATE
          (async_client_impl.update_msg E.pack key
            (async_client_impl.update_build
              (s.m_config.lookup_space_dimensions (s.m_config.lookup_spaceid space)) value))
          (pending.create S (.pending_mutate E.consts.RESP_UPDATE callback))) := by
  have hlen : (s.m_config.lookup_space_dimensions (s.m_config.lookup_spaceid space)).length
      ≠ 0 := fun h => hdims (List.length_eq_zero.mp h)
  have hun : async_client_impl.update_unseen value
      (async_client_impl.update_build
        (s.m_config.lookup_space_dimensions (s.m_config.lookup_spaceid space)) value).seen
      = false := by
    rw [Bool.eq_false_iff]
    intro h
    obtain ⟨kv, hmem, hkv⟩ := (update_unseen_iff _ value).mp h
    exact hkv (hacc kv hmem)
  unfold async_client_impl.update
  simp only [if_neg hspace, if_neg hlen, hun]
  rfl

/-- C10, counterexample: the accepted update of attribute `a` alone in the space
with dimensions `key`, `a`, `b` sets one bit and names one attribute, and the
value list it serializes into the UPDATE body has two elements, the second one
an empty filler for `b`. -/
theorem C10_values_not_dense :
    async_client_impl.update_build ["key", "a", "b"] [("a", [1])]
        = { bits := [true, false], realvalue := [[1], []], seen := ["a"] } ∧
      (async_client_impl.update sample_externals sample_network sample_client "s" [9]
          [("a", [1])] 4).map (fun s => s.trace)
        = some [event.connect ⟨7, 3⟩ true,
            event.xsend 5 (async_client_impl.build_frame sample_externals.CLIENTSPACE
              ⟨[0, 1], rfl⟩ ⟨7, 3⟩ 1 sample_constants.REQ_UPDATE
              (pack_buffer sample_packing [9] ++ sample_packing.pack_bitfield [true, false]
                ++ pack_vector sample_packing [[1], []])) true] := by
  decide

/-- C10, amended: for every accepted update call (known space, every supplied
name one of the non-key dimensions) the body handed to `add_reqrep` is the key,
the bitfield and the value list `realvalue`, and that list is positional: it
has one slot per bit of the bitfield, that is one per non-key dimension, in
dimension order; slot `i-1` holds the caller's value for `d[i]` when bit `i-1`
is set and an empty buffer when it is not. -/
theorem C10_update_values_positional {S : Nat} (E : externals S) (net : network)
    (s : async_client_impl S) (space : String) (key : buffer)
    (value : List (String × buffer)) (callback : Nat)
    (hspace : s.m_config.lookup_spaceid space ≠ E.NULLSPACE)
    (hdims : s.m_config.lookup_space_dimensions (s.m_config.lookup_spaceid space) ≠ [])
    (hacc : ∀ kv ∈ value,
      kv.1 ∈ (s.m_config.lookup_space_dimensions (s.m_config.lookup_spaceid space)).drop 1) :
    ∃ l : async_client_impl.update_locals,
      l = async_client_impl.update_build
            (s.m_config.lookup_space_dimensions (s.m_config.lookup_spaceid space)) value ∧
      async_client_impl.update E net s space key value callback
        = some (async_client_impl.add_reqrep E net s space key E.consts.REQ_UPDATE
            (pack_buffer E.pack key ++ E.pack.pack_bitfield l.bits
              ++ pack_vector E.pack l.realvalue)
            (pending.create S (.pending_mutate E.consts.RESP_UPDATE callback))) ∧
      l.realvalue.length = l.bits.length ∧
      l.bits.length
        = (s.m_config.lookup_space_dimensions (s.m_config.lookup_spaceid space)).length - 1 ∧
      ∀ (i : Nat) (name : String), 1 ≤ i →
        (s.m_config.lookup_space_dimensions (s.m_config.lookup_spaceid space))[i]? = some name →
        (l.bits[i - 1]? = some true ∧
            ∃ v, map_find value name = some (name, v) ∧ l.realvalue[i - 1]? = some v) ∨
        (l.bits[i - 1]? = some false ∧ name ∉ value.map Prod.fst ∧
            l.realvalue[i - 1]? = some []) := by
  refine ⟨_, rfl, update_accepted E net s space key value callback hspace hdims hacc, ?_, ?_, ?_⟩
  · rw [update_build_bits, update_build_realvalue]; simp
  · rw [update_build_bits]; simp
  · intro i name hi hd
    have h1 : 1 + (i - 1) = i := by omega
    rw [update_build_bits, update_build_realvalue, List.getElem?_map, List.getElem?_map,
      List.getElem?_drop, h1, hd]
    cases hfind : map_find value name with
    | none =>
      right
      exact ⟨by simp [hfind], map_find_none value name hfind, by simp [hfind]⟩
    | some e =>
      left
      obtain ⟨_, hk⟩ := map_find_some value name e hfind
      refine ⟨by simp [hfind], e.2, ?_, by simp [hfind]⟩
      rw [← hk]

theorem C10_update_values_positional_witness :
    ∃ l : async_client_impl.update_locals,
      l = async_client_impl.update_build
            (sample_client.m_config.lookup_space_dimensions
              (sample_client.m_config.lookup_spaceid "s")) [("a", [1])] ∧
      async_client_impl.update sample_externals sample_network sample_client "s" [9]
          [("a", [1])] 4
        = some (async_client_impl.add_reqrep sample_externals sample_network sample_client "s"
            [9] sample_externals.consts.REQ_UPDATE
            (pack_buffer sample_externals.pack [9] ++ sample_externals.pack.pack_bitfield l.bits
              ++ pack_vector sample_externals.pack l.realvalue)
            (pending.create 2 (.pending_mutate sample_externals.consts.RESP_UPDATE 4))) ∧
      l.realvalue.length = l.bits.length ∧
      l.bits.length
        = (sample_client.m_config.lookup_space_dimensions
            (sample_client.m_config.lookup_spaceid "s")).length - 1 ∧
      ∀ (i : Nat) (name : String), 1 ≤ i →
        (sample_client.m_config.lookup_space_dimensions
            (sample_client.m_config.lookup_spaceid "s"))[i]? = some name →
        (l.bits[i - 1]? = some true ∧
            ∃ v, map_find [("a", ([1] : buffer))] name = some (name, v) ∧
              l.realvalue[i - 1]? = some v) ∨
        (l.bits[i - 1]? = some false ∧ name ∉ [("a", ([1] : buffer))].map Prod.fst ∧
            l.realvalue[i - 1]? = some []) :=
  C10_update_values_positional sample_externals sample_network sample_client "s" [9]
    [("a", [1])] 4 (by decide) (by decide) (by decide)

/-! ## Requests that are refused before any network activity -/

/-- C1: in a snapshot where the space exists (it resolves to a space other than
NULLSPACE and has a dimension list, whose position 0 is the key), an update
whose mapping contains a name that is not in the dimension list invokes the
continuation exactly once, with BADDIMENSION, and does nothing else: the trace
gains that one call and no `connect` or `xsend`, and the queue of requests, the
channel table and the channels are the ones before the call. -/
theorem C1_update_bad_dimension {S : Nat} (E : externals S) (net : network)
    (s : async_client_impl S) (space : String) (key : buffer)
    (value : List (String × buffer)) (callback : Nat)
    (hspace : s.m_config.lookup_spaceid space ≠ E.NULLSPACE)
    (hdims : s.m_config.lookup_space_dimensions (s.m_config.lookup_spaceid space) ≠ [])
    (hbad : ∃ kv ∈ value,
      kv.1 ∉ s.m_config.lookup_space_dimensions (s.m_config.lookup_spaceid space)) :
    async_client_impl.update E net s space key value callback
      = some { s with trace := s.trace ++ [event.callback_mutate callback BADDIMENSION] } := by
  have hlen : (s.m_config.lookup_space_dimensions (s.m_config.lookup_spaceid space)).length
      ≠ 0 := fun h => hdims (List.length_eq_zero.mp h)
  have hun : async_client_impl.update_unseen value
      (async_client_impl.update_build
        (s.m_config.lookup_space_dimensions (s.m_config.lookup_spaceid space)) value).seen
      = true := by
    rw [update_unseen_iff]
    obtain ⟨kv, hmem, hkv⟩ := hbad
    exact ⟨kv, hmem, fun hin => hkv (List.mem_of_mem_drop hin)⟩
  unfold async_client_impl.update
  simp only [if_neg hspace, if_neg hlen, hun, if_true]

theorem C1_update_bad_dimension_witness :
    async_client_impl.update sample_externals sample_network sample_client "s" [9]
        [("a", [1]), ("c", [3])] 4
      = some { sample_client with
          trace := sample_client.trace ++ [event.callback_mutate 4 BADDIMENSION] } :=
  C1_update_bad_dimension sample_externals sample_network sample_client "s" [9]
    [("a", [1]), ("c", [3])] 4 (by decide) (by decide) (by decide)

/-- C2: when the space name resolves to NULLSPACE under the current snapshot, each
of get, put, del and update invokes the continuation exactly once, with
NOTASPACE (and an empty value list for get), and does nothing else: no channel
is opened, nothing is sent, and the queue of requests, the channel table and
the channels are the ones before the call. -/
theorem C2_unknown_space {S : Nat} (E : externals S) (net : network)
    (s : async_client_impl S) (space : String) (key : buffer) (values : List buffer)
    (value : List (String × buffer)) (callback : Nat)
    (hnull : s.m_config.lookup_spaceid space = E.NULLSPACE) :
    async_client_impl.get E net s space key callback
        = { s with trace := s.trace ++ [event.callback_get callback NOTASPACE []] } ∧
    async_client_impl.put E net s space key values callback
        = { s with trace := s.trace ++ [event.callback_mutate callback NOTASPACE] } ∧
    async_client_impl.del E net s space key callback
        = { s with trace := s.trace ++ [event.callback_mutate callback NOTASPACE] } ∧
    async_client_impl.update E net s space key value callback
        = some { s with trace := s.trace ++ [event.callback_mutate callback NOTASPACE] } := by
  refine ⟨?_, ?_, ?_, ?_⟩
  · simp only [async_client_impl.get, async_client_impl.add_reqrep, if_pos hnull]
    rfl
  · simp only [async_client_impl.put, async_client_impl.add_reqrep, if_pos hnull]
    rfl
  · simp only [async_client_impl.del, async_client_impl.add_reqrep, if_pos hnull]
    rfl
  · simp only [async_client_impl.update, if_pos hnull]

theorem C2_unknown_space_witness :
    async_client_impl.get sample_externals sample_network sample_client_open "t" [9] 4
        = { sample_client_open with
            trace := sample_client_open.trace ++ [event.callback_get 4 NOTASPACE []] } ∧
    async_client_impl.put sample_externals sample_network sample_client_open "t" [9] [[1]] 4
        = { sample_client_open with
            trace := sample_client_open.trace ++ [event.callback_mutate 4 NOTASPACE] } ∧
    async_client_impl.del sample_externals sample_network sample_client_open "t" [9] 4
        = { sample_client_open with
            trace := sample_client_open.trace ++ [event.callback_mutate 4 NOTASPACE] } ∧
    async_client_impl.update sample_externals sample_network sample_client_open "t" [9]
          [("a", [1])] 4
        = some { sample_client_open with
            trace := sample_client_open.trace ++ [event.callback_mutate 4 NOTASPACE] } :=
  C2_unknown_space sample_externals sample_network sample_client_open "t" [9] [[1]]
    [("a", [1])] 4 (by decide)

/-! ## Request submission: channel and eager send -/

theorem pending_result_fields {S : Nat} (op : pending S) (chan : Option Nat)
    (ent : entityid S) (inst : hyperdex_instance) (nonce : Nat) (ret : returncode) :
    pending.result ({ op with chan := chan, ent := ent, inst := inst, nonce := nonce } :
      pending S) ret = op.result ret := rfl

theorem enqueue_send_ok {S : Nat} (net : network) (s : async_client_impl S) (chan : Nat)
    (c : channel S) (dst_ent : entityid S) (dst_inst : hyperdex_instance)
    (send_type : network_msgtype) (send_msg : buffer) (op : pending S)
    (hc : s.channels[chan]? = some c)
    (hsend : net.xsend c.soc (async_client_impl.build_frame c.id dst_ent dst_inst
      (c.nonce % 4294967296) send_type send_msg) = true) :
    async_client_impl.add_reqrep_enqueue net s chan dst_ent dst_inst send_type send_msg op
      = { s with
          channels := s.channels.set chan
            (channel.mk c.soc ((c.nonce + 1) % 18446744073709551616) c.id),
          m_requests := s.m_requests ++ [some (pending.mk (some chan) dst_ent dst_inst
            (c.nonce % 4294967296) op.variant)],
          trace := s.trace ++ [event.xsend c.soc (async_client_impl.build_frame c.id dst_ent
            dst_inst (c.nonce % 4294967296) send_type send_msg) true] } := by
  have hlt : chan < s.channels.length := by
    rcases Nat.lt_or_ge chan s.channels.length with h | h
    · exact h
    · rw [List.getElem?_eq_none h] at hc; cases hc
  unfold async_client_impl.add_reqrep_enqueue
  simp only [hc, async_client_impl.send, List.getElem?_set_self hlt, hsend, if_true]

theorem enqueue_send_fails {S : Nat} (net : network) (s : async_client_impl S) (chan : Nat)
    (c : channel S) (dst_ent : entityid S) (dst_inst : hyperdex_instance)
    (send_type : network_msgtype) (send_msg : buffer) (op : pending S)
    (hc : s.channels[chan]? = some c)
    (hsend : net.xsend c.soc (async_client_impl.build_frame c.id dst_ent dst_inst
      (c.nonce % 4294967296) send_type send_msg) = false) :
    async_client_impl.add_reqrep_enqueue net s chan dst_ent dst_inst send_type send_msg op
      = { s with
          channels := s.channels.set chan
            (channel.mk c.soc ((c.nonce + 1) % 18446744073709551616) c.id),
          m_channels := map_erase s.m_channels dst_inst,
          trace := s.trace ++ [event.xsend c.soc (async_client_impl.build_frame c.id dst_ent
            dst_inst (c.nonce % 4294967296) send_type send_msg) false]
              ++ op.result DISCONNECT } := by
  have hlt : chan < s.channels.length := by
    rcases Nat.lt_or_ge chan s.channels.length with h | h
    · exact h
    · rw [List.getElem?_eq_none h] at hc; cases hc
  unfold async_client_impl.add_reqrep_enqueue
  simp only [hc, async_client_impl.send, List.getElem?_set_self hlt, hsend,
    Bool.false_eq_true, if_false, List.dropLast_concat, pending_result_fields]

theorem map_find_append_none {K V : Type} [DecidableEq K] (m l : List (K × V)) (k : K)
    (h : map_find m k = none) : map_find (m ++ l) k = map_find l k := by
  induction m with
  | nil => rfl
  | cons e m ih =>
    obtain ⟨k0, v0⟩ := e
    simp only [map_find, List.cons_append] at h ⊢
    by_cases hk : k0 = k
    · rw [if_pos hk] at h; cases h
    · rw [if_neg hk] at h ⊢; exact ih h

theorem map_find_erase_self {K V : Type} [DecidableEq K] (m : List (K × V)) (k : K) :
    map_find (map_erase m k) k = none := by
  induction m with
  | nil => rfl
  | cons e m ih =>
    obtain ⟨k0, v0⟩ := e
    unfold map_erase at ih ⊢
    by_cases hk : k0 = k
    · simpa [List.filter_cons, hk] using ih
    · simp only [List.filter_cons, hk, ne_eq, not_false_eq_true, decide_True, if_true, map_find,
        if_false]
      exact ih

theorem channel_of_instance_erase (m : List (hyperdex_instance × Option Nat))
    (inst : hyperdex_instance) : channel_of_instance (map_erase m inst) inst = none := by
  simp [channel_of_instance, map_index, map_find_erase_self]

theorem channel_of_instance_index (m : List (hyperdex_instance × Option Nat))
    (inst : hyperdex_instance) :
    channel_of_instance (map_index m inst none).1 inst = channel_of_instance m inst := by
  unfold channel_of_instance map_index
  cases h : map_find m inst with
  | some kv => simp [h]
  | none =>
    have h2 : map_find (m ++ [(inst, (none : Option Nat))]) inst = some (inst, none) := by
      rw [map_find_append_none m _ inst h]; simp [map_find]
    simp [h2]

/-- C16: a submission routed to an instance for which the channel table yields no
channel, when the constructor of the channel throws, invokes the continuation
exactly once, with CONNECTFAIL, leaves the queue of requests and the channel
objects as they were, and records no channel for that instance: the channel
table still yields the null pointer for it. -/
theorem C16_channel_open_failure {S : Nat} (E : externals S) (net : network)
    (s : async_client_impl S) (space : String) (key : buffer) (send_type : network_msgtype)
    (send_msg : buffer) (op : pending S) (dst_ent : entityid S) (dst_inst : hyperdex_instance)
    (hspace : s.m_config.lookup_spaceid space ≠ E.NULLSPACE)
    (hent : dst_ent = s.m_config.headof
      ⟨(s.m_config.lookup_spaceid space).space, 0, 64, E.CityHash64 key⟩)
    (hinst : dst_inst = s.m_config.instancefor dst_ent)
    (hlive : dst_inst ≠ E.NULLINSTANCE)
    (hnone : channel_of_instance s.m_channels dst_inst = none)
    (hfail : net.connect dst_inst = none) :
    (async_client_impl.add_reqrep E net s space key send_type send_msg op).trace
        = s.trace ++ [event.connect dst_inst false] ++ op.result CONNECTFAIL ∧
    (async_client_impl.add_reqrep E net s space key send_type send_msg op).m_requests
        = s.m_requests ∧
    (async_client_impl.add_reqrep E net s space key send_type send_msg op).channels
        = s.channels ∧
    channel_of_instance
        (async_client_impl.add_reqrep E net s space key send_type send_msg op).m_channels
        dst_inst = none := by
  subst hent
  subst hinst
  have hidx := channel_of_instance_index s.m_channels
    (s.m_config.instancefor (s.m_config.headof
      ⟨(s.m_config.lookup_spaceid space).space, 0, 64, E.CityHash64 key⟩))
  rw [hnone] at hidx
  unfold channel_of_instance at hnone
  unfold async_client_impl.add_reqrep
  simp only [if_neg hspace, if_neg hlive]
  cases hmi : map_index s.m_channels (s.m_config.instancefor (s.m_config.headof
      ⟨(s.m_config.lookup_spaceid space).space, 0, 64, E.CityHash64 key⟩)) none with
  | mk table chan =>
    rw [hmi] at hnone hidx
    simp only [] at hnone hidx
    subst hnone
    simp only [hfail]
    exact ⟨trivial, trivial, trivial, hidx⟩

theorem C16_channel_open_failure_witness :
    (async_client_impl.add_reqrep sample_externals { sample_network with connect := fun _ => none }
        sample_client "s" [9] 8 [9] (pending.create 2 (.pending_get 4))).trace
        = sample_client.trace ++ [event.connect ⟨7, 3⟩ false]
          ++ (pending.create 2 (.pending_get 4)).result CONNECTFAIL ∧
    (async_client_impl.add_reqrep sample_externals { sample_network with connect := fun _ => none }
        sample_client "s" [9] 8 [9] (pending.create 2 (.pending_get 4))).m_requests
        = sample_client.m_requests ∧
    (async_client_impl.add_reqrep sample_externals { sample_network with connect := fun _ => none }
        sample_client "s" [9] 8 [9] (pending.create 2 (.pending_get 4))).channels
        = sample_client.channels ∧
    channel_of_instance
        (async_client_impl.add_reqrep sample_externals
          { sample_network with connect := fun _ => none }
          sample_client "s" [9] 8 [9] (pending.create 2 (.pending_get 4))).m_channels
        ⟨7, 3⟩ = none :=
  C16_channel_open_failure sample_externals { sample_network with connect := fun _ => none }
    sample_client "s" [9] 8 [9] (pending.create 2 (.pending_get 4)) ⟨[0, 1], rfl⟩ ⟨7, 3⟩
    (by decide) rfl rfl (by decide) rfl rfl

theorem map_index_of_channel (m : List (hyperdex_instance × Option Nat))
    (inst : hyperdex_instance) (chan : Nat)
    (h : channel_of_instance m inst = some chan) : map_index m inst none = (m, some chan) := by
  unfold channel_of_instance map_index at h
  unfold map_index
  cases hf : map_find m inst with
  | some kv => rw [hf] at h; simp only [] at h ⊢; rw [h]
  | none => rw [hf] at h; cases h

/-- When the continuation makes no submission of its own: a submission whose
eager write raises a system error, on the channel the table already holds for
the destination or on a channel opened by this very submission, invokes the
continuation exactly once, with DISCONNECT; afterwards the channel table has
no entry for the destination instance, and the queue of requests is the queue
before the call. -/
theorem eager_send_failure {S : Nat} (E : externals S) (net : network)
    (s : async_client_impl S) (space : String) (key : buffer) (send_type : network_msgtype)
    (send_msg : buffer) (op : pending S) (dst_ent : entityid S) (dst_inst : hyperdex_instance)
    (hspace : s.m_config.lookup_spaceid space ≠ E.NULLSPACE)
    (hent : dst_ent = s.m_config.headof
      ⟨(s.m_config.lookup_spaceid space).space, 0, 64, E.CityHash64 key⟩)
    (hinst : dst_inst = s.m_config.instancefor dst_ent)
    (hlive : dst_inst ≠ E.NULLINSTANCE) :
    (∀ (chan : Nat) (c : channel S),
      channel_of_instance s.m_channels dst_inst = some chan →
      s.channels[chan]? = some c →
      net.xsend c.soc (async_client_impl.build_frame c.id dst_ent dst_inst
        (c.nonce % 4294967296) send_type send_msg) = false →
      (async_client_impl.add_reqrep E net s space key send_type send_msg op).trace
          = s.trace ++ [event.xsend c.soc (async_client_impl.build_frame c.id dst_ent dst_inst
              (c.nonce % 4294967296) send_type send_msg) false] ++ op.result DISCONNECT ∧
      (async_client_impl.add_reqrep E net s space key send_type send_msg op).m_requests
          = s.m_requests ∧
      map_find (async_client_impl.add_reqrep E net s space key send_type send_msg op).m_channels
          dst_inst = none) ∧
    (∀ fd : Int,
      channel_of_instance s.m_channels dst_inst = none →
      net.connect dst_inst = some fd →
      net.xsend fd (async_client_impl.build_frame E.CLIENTSPACE dst_ent dst_inst 1
        send_type send_msg) = false →
      (async_client_impl.add_reqrep E net s space key send_type send_msg op).trace
          = s.trace ++ [event.connect dst_inst true] ++ [event.xsend fd
              (async_client_impl.build_frame E.CLIENTSPACE dst_ent dst_inst 1 send_type send_msg)
              false] ++ op.result DISCONNECT ∧
      (async_client_impl.add_reqrep E net s space key send_type send_msg op).m_requests
          = s.m_requests ∧
      map_find (async_client_impl.add_reqrep E net s space key send_type send_msg op).m_channels
          dst_inst = none) := by
  subst hent
  subst hinst
  constructor
  · intro chan c hchan hc hsend
    unfold async_client_impl.add_reqrep
    simp only [if_neg hspace, if_neg hlive, map_index_of_channel _ _ _ hchan]
    rw [enqueue_send_fails net _ chan c _ _ send_type send_msg op hc hsend]
    exact ⟨rfl, rfl, map_find_erase_self _ _⟩
  · intro fd hnone hconn hsend
    unfold channel_of_instance at hnone
    unfold async_client_impl.add_reqrep
    simp only [if_neg hspace, if_neg hlive]
    cases hmi : map_index s.m_channels (s.m_config.instancefor (s.m_config.headof
        ⟨(s.m_config.lookup_spaceid space).space, 0, 64, E.CityHash64 key⟩)) none with
    | mk table chan =>
      rw [hmi] at hnone
      simp only [] at hnone
      subst hnone
      simp only [hconn]
      rw [enqueue_send_fails net _ s.channels.length ⟨fd, 1, E.CLIENTSPACE⟩ _ _ send_type
        send_msg op (by simp) (by simpa using hsend)]
      exact ⟨by simp, rfl, map_find_erase_self _ _⟩

theorem eager_send_failure_sample :
    (async_client_impl.add_reqrep sample_externals { sample_network with xsend := fun _ _ => false }
        sample_client "s" [9] 8 [9] (pending.create 2 (.pending_get 4))).trace
        = sample_client.trace ++ [event.connect ⟨7, 3⟩ true] ++ [event.xsend 5
            (async_client_impl.build_frame sample_externals.CLIENTSPACE ⟨[0, 1], rfl⟩ ⟨7, 3⟩ 1
              8 [9]) false] ++ (pending.create 2 (.pending_get 4)).result DISCONNECT ∧
    (async_client_impl.add_reqrep sample_externals { sample_network with xsend := fun _ _ => false }
        sample_client "s" [9] 8 [9] (pending.create 2 (.pending_get 4))).m_requests
        = sample_client.m_requests ∧
    map_find (async_client_impl.add_reqrep sample_externals
        { sample_network with xsend := fun _ _ => false }
        sample_client "s" [9] 8 [9] (pending.create 2 (.pending_get 4))).m_channels
        ⟨7, 3⟩ = none :=
  (eager_send_failure sample_externals { sample_network with xsend := fun _ _ => false }
    sample_client "s" [9] 8 [9] (pending.create 2 (.pending_get 4)) ⟨[0, 1], rfl⟩ ⟨7, 3⟩
    (by decide) rfl rfl (by decide)).2 5 rfl rfl rfl

/-! ## Continuations that call back during a submission -/

theorem result_quiet {S : Nat} (K : continuations)
    (sub : async_client_impl S → submission → Option (async_client_impl S))
    (es : List event) :
    ∀ s : async_client_impl S, (∀ e ∈ es, K e = []) →
      reentrant.result K sub es s = some { s with trace := s.trace ++ es } := by
  induction es with
  | nil =>
    intro s _
    simp only [reentrant.result, List.append_nil]
  | cons e es ih =>
    intro s hK
    have he : K e = [] := hK e (List.mem_cons_self e es)
    have hes : ∀ x ∈ es, K x = [] := fun x hx => hK x (List.mem_cons_of_mem e hx)
    simp only [reentrant.result, reentrant.invoke, he, reentrant.run_submissions]
    rw [ih _ hes]
    simp only [List.append_assoc, List.singleton_append]

theorem send_quiet {S : Nat} (K : continuations)
    (sub : async_client_impl S → submission → Option (async_client_impl S)) (net : network)
    (s : async_client_impl S) (chan : Nat) (op : pending S) (ent : entityid S)
    (inst : hyperdex_instance) (nonce : Nat) (send_type : network_msgtype) (send_msg : buffer)
    (hK : ∀ e ∈ op.result DISCONNECT, K e = []) :
    reentrant.send K sub net s chan op ent inst nonce send_type send_msg
      = some (async_client_impl.send net s chan op ent inst nonce send_type send_msg) := by
  unfold reentrant.send async_client_impl.send
  cases hc : s.channels[chan]? with
  | none => rfl
  | some c =>
    simp only []
    split
    · rfl
    · rw [result_quiet K sub _ _ hK]

theorem add_reqrep_enqueue_quiet {S : Nat} (K : continuations)
    (sub : async_client_impl S → submission → Option (async_client_impl S)) (net : network)
    (s : async_client_impl S) (chan : Nat) (dst_ent : entityid S)
    (dst_inst : hyperdex_instance) (send_type : network_msgtype) (send_msg : buffer)
    (op : pending S) (hK : ∀ e ∈ op.result DISCONNECT, K e = []) :
    reentrant.add_reqrep_enqueue K sub net s chan dst_ent dst_inst send_type send_msg op
      = some (async_client_impl.add_reqrep_enqueue net s chan dst_ent dst_inst send_type
          send_msg op) := by
  unfold reentrant.add_reqrep_enqueue async_client_impl.add_reqrep_enqueue
  cases hc : s.channels[chan]? with
  | none => rfl
  | some c =>
    simp only []
    rw [send_quiet K sub net _ chan _ dst_ent dst_inst _ send_type send_msg
      (by rw [pending_result_fields]; exact hK)]
    generalize async_client_impl.send net _ chan _ dst_ent dst_inst _ send_type send_msg = r
    obtain ⟨s3, b⟩ := r
    cases b <;> rfl

theorem add_reqrep_quiet {S : Nat} (E : externals S) (K : continuations)
    (sub : async_client_impl S → submission → Option (async_client_impl S)) (net : network)
    (s : async_client_impl S) (space : String) (key : buffer) (send_type : network_msgtype)
    (send_msg : buffer) (op : pending S)
    (hK : ∀ (ret : returncode), ∀ e ∈ op.result ret, K e = []) :
    reentrant.add_reqrep E K sub net s space key send_type send_msg op
      = some (async_client_impl.add_reqrep E net s space key send_type send_msg op) := by
  unfold reentrant.add_reqrep async_client_impl.add_reqrep
  simp only []
  split
  · rw [result_quiet K sub _ _ (hK NOTASPACE)]
  · split
    · rw [result_quiet K sub _ _ (hK CONNECTFAIL)]
    · split
      · exact add_reqrep_enqueue_quiet K sub net _ _ _ _ _ _ op (hK DISCONNECT)
      · split
        · rw [result_quiet K sub _ _ (hK CONNECTFAIL)]
        · exact add_reqrep_enqueue_quiet K sub net _ _ _ _ _ _ op (hK DISCONNECT)

theorem send_returns_with_two_entries :
    ∃ s' : async_client_impl 2,
      reentrant.send resubmitting
          (reentrant.submit sample_externals resubmitting flaky_network 1) flaky_network
          (async_client_impl.mk sample_config [(⟨7, 3⟩, some 0)]
            [some ⟨some 0, ⟨[0, 1], rfl⟩, ⟨7, 3⟩, 1, .pending_get 1⟩]
            [⟨5, 2, sample_externals.CLIENTSPACE⟩] [])
          0 ⟨some 0, ⟨[0, 1], rfl⟩, ⟨7, 3⟩, 1, .pending_get 1⟩ ⟨[0, 1], rfl⟩ ⟨7, 3⟩ 1
          sample_constants.REQ_GET [9] = some (s', false) ∧
      s'.m_requests
        = [some ⟨some 0, ⟨[0, 1], rfl⟩, ⟨7, 3⟩, 1, .pending_get 1⟩,
           some ⟨some 1, ⟨[0, 1], rfl⟩, ⟨7, 3⟩, 1, .pending_get 2⟩] :=
  ⟨_, rfl, by decide⟩

/-- C17, at the failing input: the client holds one open channel (descriptor 5) to
the instance and an empty queue; `get("s", [9])` is submitted with the
continuation 1, its eager write fails, and the continuation 1, called with
DISCONNECT from inside `send`, submits `get("s", [8])` with the continuation
2, for which a channel (descriptor 6) is opened and the write succeeds.  When
the outer `send` has returned, `pop_back` takes off the entry of the second
request (`send` returns with both requests in the queue): the queue after the
call is not the queue before the call, it holds the first request, whose
continuation has already been called, while the request that was sent is in
the queue no more. -/
theorem C17_resubmission_pops_other_entry :
    sample_client_open.m_requests = [] ∧
    ∃ s' : async_client_impl 2,
      reentrant.submit sample_externals resubmitting flaky_network 2 sample_client_open
          (.get "s" [9] 1) = some s' ∧
      s'.trace
        = [event.xsend 5 (async_client_impl.build_frame sample_externals.CLIENTSPACE
              ⟨[0, 1], rfl⟩ ⟨7, 3⟩ 1 sample_constants.REQ_GET [9]) false,
           event.callback_get 1 DISCONNECT [],
           event.connect ⟨7, 3⟩ true,
           event.xsend 6 (async_client_impl.build_frame sample_externals.CLIENTSPACE
              ⟨[0, 1], rfl⟩ ⟨7, 3⟩ 1 sample_constants.REQ_GET [8]) true] ∧
      s'.m_requests = [some ⟨some 0, ⟨[0, 1], rfl⟩, ⟨7, 3⟩, 1, .pending_get 1⟩] ∧
      channel_of_instance s'.m_channels ⟨7, 3⟩ = some 1 :=
  ⟨rfl, _, rfl, by decide, by decide, by decide⟩

/-! ## The coordinator-health step of `flush` -/

theorem flush_health_trace {S : Nat} {W : Type} (env : environment S W) (fuel : Nat) :
    ∀ (i : Nat) (tr : List event) (w : W),
      ∃ attempts : List event,
        (async_client_impl.flush_health env fuel i tr w).2.1 = tr ++ attempts ∧
        attempts.length ≤ fuel ∧ callbacks attempts = [] ∧
        ∀ e ∈ attempts, ∃ ret, e = event.coord_connect ret := by
  induction fuel with
  | zero => intro i tr w; exact ⟨[], by simp [async_client_impl.flush_health], by simp, rfl, by simp⟩
  | succ fuel ih =>
    intro i tr w
    have key : ∀ (ret : coordinatorlink_returncode) (w1 : W),
        ∃ attempts : List event,
          (async_client_impl.flush_health env fuel (i + 1)
            (tr ++ [event.coord_connect ret]) w1).2.1 = tr ++ attempts ∧
          attempts.length ≤ fuel + 1 ∧ callbacks attempts = [] ∧
          ∀ e ∈ attempts, ∃ ret, e = event.coord_connect ret := by
      intro ret w1
      obtain ⟨a, h1, h2, h3, h4⟩ := ih (i + 1) (tr ++ [event.coord_connect ret]) w1
      refine ⟨event.coord_connect ret :: a, by simp [h1], by simp; omega, ?_, ?_⟩
      · simpa [callbacks, event.invoked] using h3
      · intro e he
        rcases List.mem_cons.mp he with rfl | he
        · exact ⟨ret, rfl⟩
        · exact h4 e he
    have one : ∀ ret : coordinatorlink_returncode,
        ∃ attempts : List event,
          tr ++ [event.coord_connect ret] = tr ++ attempts ∧
          attempts.length ≤ fuel + 1 ∧ callbacks attempts = [] ∧
          ∀ e ∈ attempts, ∃ ret, e = event.coord_connect ret :=
      fun ret => ⟨[event.coord_connect ret], rfl, by simp, rfl, by simp⟩
    unfold async_client_impl.flush_health
    split
    · cases hcon : env.connect w with
      | mk ret w1 =>
        cases ret <;> simp only [] <;> first | exact key _ w1 | (split; exact one _; exact key _ w1)
    · exact ⟨[], by simp, by simp, rfl, by simp⟩

theorem flush_health_down {S : Nat} {W : Type} (env : environment S W) (fuel : Nat) :
    ∀ (i : Nat) (tr : List event) (w : W), i + fuel = 7 → 0 < fuel →
      (∀ k, k < fuel → env.connected (link_after env k w) = false) →
      async_client_impl.flush_health env fuel i tr w
        = (seventh_attempt (env.connect (link_after env (fuel - 1) w)).1,
           tr ++ (List.range fuel).map
             (fun k => event.coord_connect (env.connect (link_after env k w)).1),
           link_after env fuel w) := by
  induction fuel with
  | zero => intro i tr w _ h; exact absurd h (by decide)
  | succ fuel ih =>
    intro i tr w hi _ hdown
    have h0 : env.connected w = false := hdown 0 (by omega)
    have hlt : i < 7 := by omega
    by_cases hf : fuel = 0
    · subst hf
      have hi6 : i = 6 := by omega
      subst hi6
      unfold async_client_impl.flush_health
      rw [if_pos ⟨by decide, h0⟩]
      cases hcon : env.connect w with
      | mk ret w1 =>
        cases ret <;>
          simp [async_client_impl.flush_health, seventh_attempt, link_after, hcon,
            List.range_succ]
    · have hne : i ≠ 6 := by omega
      have hrec : ∀ (ret : coordinatorlink_returncode) (w1 : W), env.connect w = (ret, w1) →
          async_client_impl.flush_health env fuel (i + 1) (tr ++ [event.coord_connect ret]) w1
            = (seventh_attempt (env.connect (link_after env (fuel + 1 - 1) w)).1,
               tr ++ (List.range (fuel + 1)).map
                 (fun k => event.coord_connect (env.connect (link_after env k w)).1),
               link_after env (fuel + 1) w) := by
        intro ret w1 hcon
        have hw1 : ∀ k, link_after env (k + 1) w = link_after env k w1 := by
          intro k; simp [link_after, hcon]
        rw [ih (i + 1) _ w1 (by omega) (by omega)
          (fun k hk => by rw [← hw1]; exact hdown (k + 1) (by omega))]
        have hf1 : fuel + 1 - 1 = (fuel - 1) + 1 := by omega
        rw [hf1, hw1, hw1, List.range_succ_eq_map]
        simp [List.map_map, Function.comp, hw1, link_after, hcon]
      unfold async_client_impl.flush_health
      rw [if_pos ⟨hlt, h0⟩]
      cases hcon : env.connect w with
      | mk ret w1 =>
        cases ret <;> simp only [if_neg hne] <;> exact hrec _ w1 hcon

/-- C18: in the coordinator-health step of `flush`, entered with a non-empty
queue, at most 7 reconnect attempts are made.  When the link reports
disconnected before every attempt, the outcome is decided by the seventh
attempt alone, whatever the first six answered: if it fails with CONNECTFAIL
or DISCONNECT `flush` returns COORDFAIL, if it fails with SHUTDOWN or
LOGICERROR `flush` returns LOGICERROR, in both cases with the queue untouched,
and if it succeeds the step does not make `flush` return. -/
theorem C18_coordinator_health {S : Nat} {W : Type} (E : externals S)
    (env : environment S W) (s : async_client_impl S) (w : W) (fuel : Nat)
    (hq : s.m_requests ≠ []) :
    (∃ attempts : List event,
      (async_client_impl.flush_health env 7 0 s.trace w).2.1 = s.trace ++ attempts ∧
      attempts.length ≤ 7 ∧ ∀ e ∈ attempts, ∃ ret, e = event.coord_connect ret) ∧
    ((∀ k, k < 7 → env.connected (link_after env k w) = false) →
      ((env.connect (link_after env 6 w)).1 = .CONNECTFAIL ∨
          (env.connect (link_after env 6 w)).1 = .DISCONNECT →
        ∃ s' w', async_client_impl.flush E env (fuel + 1) s w = some (COORDFAIL, s', w') ∧
          s'.m_requests = s.m_requests ∧
          s'.trace = s.trace ++ (List.range 7).map
            (fun k => event.coord_connect (env.connect (link_after env k w)).1)) ∧
      ((env.connect (link_after env 6 w)).1 = .SHUTDOWN ∨
          (env.connect (link_after env 6 w)).1 = .LOGICERROR →
        ∃ s' w', async_client_impl.flush E env (fuel + 1) s w = some (LOGICERROR, s', w') ∧
          s'.m_requests = s.m_requests ∧
          s'.trace = s.trace ++ (List.range 7).map
            (fun k => event.coord_connect (env.connect (link_after env k w)).1)) ∧
      ((env.connect (link_after env 6 w)).1 = .SUCCESS →
        (async_client_impl.flush_health env 7 0 s.trace w).1 = none)) := by
  constructor
  · obtain ⟨a, h1, h2, _, h4⟩ := flush_health_trace env 7 0 s.trace w
    exact ⟨a, h1, h2, h4⟩
  · intro hdown
    have hh := flush_health_down env 7 0 s.trace w rfl (by decide) hdown
    have hret : ∀ ret, seventh_attempt (env.connect (link_after env 6 w)).1 = some ret →
        ∃ s' w', async_client_impl.flush E env (fuel + 1) s w = some (ret, s', w') ∧
          s'.m_requests = s.m_requests ∧
          s'.trace = s.trace ++ (List.range 7).map
            (fun k => event.coord_connect (env.connect (link_after env k w)).1) := by
      intro ret hv
      refine ⟨async_client_impl.mk s.m_config s.m_channels s.m_requests s.channels
        (s.trace ++ (List.range 7).map
          (fun k => event.coord_connect (env.connect (link_after env k w)).1)),
        link_after env 7 w, ?_, rfl, rfl⟩
      unfold async_client_impl.flush
      rw [if_neg hq]
      unfold async_client_impl.flush_cycle
      rw [hh]
      simp only [Nat.add_one_sub_one] at hv ⊢
      rw [hv]
    refine ⟨?_, ?_, ?_⟩
    · rintro (h | h) <;> exact hret COORDFAIL (by rw [h]; rfl)
    · rintro (h | h) <;> exact hret LOGICERROR (by rw [h]; rfl)
    · intro h
      rw [hh]
      simp only [Nat.add_one_sub_one]
      rw [h]
      rfl

theorem C18_coordinator_health_witness :
    ∃ s' w', async_client_impl.flush sample_externals (script_env 2) 1 sample_client_waiting
        down_script = some (LOGICERROR, s', w') ∧
      s'.m_requests = sample_client_waiting.m_requests ∧
      s'.trace = sample_client_waiting.trace ++ (List.range 7).map
        (fun k => event.coord_connect
          ((script_env 2).connect (link_after (script_env 2) k down_script)).1) :=
  ((C18_coordinator_health sample_externals (script_env 2) sample_client_waiting down_script 0
    (by decide)).2 (by decide)).2.1 (Or.inl rfl)

/-! ## Dispatch of a reply -/

theorem flush_match_queue {S : Nat} (N : network_constants) (P : packing) (chan : Nat)
    (chan_id : entityid S) (hdr : async_client_impl.frame_header S) (msg : buffer)
    (q : List (Option (pending S))) :
    (async_client_impl.flush_match N P chan chan_id hdr msg q).1
      = q.map (fun r => r.bind (fun op =>
          if async_client_impl.reply_matches chan chan_id hdr op then none else some op)) := by
  induction q with
  | nil => rfl
  | cons r q ih =>
    cases r with
    | none => simp [async_client_impl.flush_match, ih]
    | some op =>
      by_cases hm : async_client_impl.reply_matches chan chan_id hdr op
      · simp [async_client_impl.flush_match, ih, hm]
      · simp [async_client_impl.flush_match, ih, hm]

theorem flush_match_calls {S : Nat} (N : network_constants) (P : packing) (chan : Nat)
    (chan_id : entityid S) (hdr : async_client_impl.frame_header S) (msg : buffer)
    (q : List (Option (pending S))) :
    (async_client_impl.flush_match N P chan chan_id hdr msg q).2
      = (((live q).filter
            (fun op => decide (async_client_impl.reply_matches chan chan_id hdr op))).map
          (fun op => op.result_msg N P SUCCESS hdr.type_num msg)).flatten := by
  induction q with
  | nil => rfl
  | cons r q ih =>
    cases r with
    | none => simpa [async_client_impl.flush_match, live] using ih
    | some op =>
      by_cases hm : async_client_impl.reply_matches chan chan_id hdr op
      · simp only [async_client_impl.flush_match, if_pos hm, ih, live, List.filterMap_cons_some,
          id_eq]
        simp [List.filter_cons, hm]
      · simp only [async_client_impl.flush_match, if_neg hm, ih, live, List.filterMap_cons_some,
          id_eq]
        simp [List.filter_cons, hm]

theorem flush_slot_reads_reply {S : Nat} {W : Type} (E : externals S)
    (env : environment S W) (pfds : Nat → revents) (i : Nat) (s : async_client_impl S) (w : W)
    (rd : pending S) (chan : Nat) (ch : channel S) (size : Nat) (w1 w2 : W) (bytes : buffer)
    (hdr : async_client_impl.frame_header S) (msg : buffer)
    (hreq : s.m_requests[i]? = some (some rd))
    (hhup : (pfds i).POLLHUP = false) (herr : (pfds i).POLLERR = false)
    (hin : (pfds i).POLLIN = true)
    (hchan : rd.chan = some chan) (hch : s.channels[chan]? = some ch) (hopen : 0 ≤ ch.soc)
    (hpeek : env.recv_peek w ch.soc = (some size, w1))
    (hread : env.xread w1 ch.soc ((size % 4294967296 + 4) % 4294967296) = (.data bytes, w2))
    (hfull : (size % 4294967296 + 4) % 4294967296 ≤ bytes.length)
    (hparse : async_client_impl.parse_frame S
      (bytes.take ((size % 4294967296 + 4) % 4294967296)) = some (hdr, msg)) :
    async_client_impl.flush_slot E env pfds i s w
      = (async_client_impl.flush_dispatch E s chan hdr msg, w2) := by
  have hlen : ¬ (bytes.take ((size % 4294967296 + 4) % 4294967296)).length
      < (size % 4294967296 + 4) % 4294967296 := by
    rw [List.length_take]; omega
  unfold async_client_impl.flush_slot
  simp only [hreq, hhup, herr, hin, hchan, hch, hpeek, hread, hparse, hlen,
    Bool.false_eq_true, Bool.true_eq_false, or_self, if_false, not_lt.mpr hopen]

/-- C19: when the per-channel loop of `flush` has read a whole reply frame from
the channel of the request in slot `i` and parsed it, then, `chan_id` being
the id of that channel at the time of the comparison (the frame's `to` if the
id was still CLIENTSPACE, the id it had otherwise), a live request is handed
`(SUCCESS, reply type, body)` and tombstoned if and only if it refers to that
channel, its `inst.inbound_version` is the frame's from_version, the frame's
to_version is 0, its entity is the frame's from, `chan_id` is the frame's to
and its nonce is the frame's nonce.  Every other request stays in the queue as
it is and its continuation is not invoked: the trace gains the deliveries to
the matching requests, in queue order, and nothing else, so a reply that
matches no request invokes no continuation. -/
theorem C19_reply_dispatch {S : Nat} {W : Type} (E : externals S)
    (env : environment S W) (pfds : Nat → revents) (i : Nat) (s : async_client_impl S) (w : W)
    (rd : pending S) (chan : Nat) (ch : channel S) (size : Nat) (w1 w2 : W) (bytes : buffer)
    (hdr : async_client_impl.frame_header S) (msg : buffer)
    (hreq : s.m_requests[i]? = some (some rd))
    (hhup : (pfds i).POLLHUP = false) (herr : (pfds i).POLLERR = false)
    (hin : (pfds i).POLLIN = true)
    (hchan : rd.chan = some chan) (hch : s.channels[chan]? = some ch) (hopen : 0 ≤ ch.soc)
    (hpeek : env.recv_peek w ch.soc = (some size, w1))
    (hread : env.xread w1 ch.soc ((size % 4294967296 + 4) % 4294967296) = (.data bytes, w2))
    (hfull : (size % 4294967296 + 4) % 4294967296 ≤ bytes.length)
    (hparse : async_client_impl.parse_frame S
      (bytes.take ((size % 4294967296 + 4) % 4294967296)) = some (hdr, msg)) :
    ∃ (s' : async_client_impl S) (chan_id : entityid S),
      async_client_impl.flush_slot E env pfds i s w = (s', w2) ∧
      chan_id = (if ch.id = E.CLIENTSPACE then hdr.to_entity else ch.id) ∧
      (s'.channels[chan]?).map (fun c => c.id) = some chan_id ∧
      (∀ op : pending S, async_client_impl.reply_matches chan chan_id hdr op ↔
        (op.chan = some chan ∧ op.inst.inbound_version = hdr.fromver ∧ hdr.tover = 0 ∧
          op.ent = hdr.from_entity ∧ chan_id = hdr.to_entity ∧ op.nonce = hdr.nonce)) ∧
      s'.m_requests.length = s.m_requests.length ∧
      (∀ (j : Nat) (op : pending S), s.m_requests[j]? = some (some op) →
        (async_client_impl.reply_matches chan chan_id hdr op → s'.m_requests[j]? = some none) ∧
        (¬ async_client_impl.reply_matches chan chan_id hdr op →
          s'.m_requests[j]? = some (some op))) ∧
      (∀ j : Nat, s.m_requests[j]? = some none → s'.m_requests[j]? = some none) ∧
      s'.trace = s.trace ++
        (((live s.m_requests).filter
            (fun op => decide (async_client_impl.reply_matches chan chan_id hdr op))).map
          (fun op => op.result_msg E.consts E.pack SUCCESS hdr.type_num msg)).flatten ∧
      ((∀ op ∈ live s.m_requests, ¬ async_client_impl.reply_matches chan chan_id hdr op) →
        s'.trace = s.trace ∧ s'.m_requests = s.m_requests) := by
  have hlt : chan < s.channels.length := by
    rcases Nat.lt_or_ge chan s.channels.length with h | h
    · exact h
    · rw [List.getElem?_eq_none h] at hch; cases hch
  refine ⟨async_client_impl.flush_dispatch E s chan hdr msg,
    if ch.id = E.CLIENTSPACE then hdr.to_entity else ch.id,
    flush_slot_reads_reply E env pfds i s w rd chan ch size w1 w2 bytes hdr msg hreq hhup herr
      hin hchan hch hopen hpeek hread hfull hparse, rfl, ?_, ?_, ?_, ?_, ?_, ?_, ?_⟩
  · unfold async_client_impl.flush_dispatch
    simp only [hch, List.getElem?_set_self hlt, Option.map_some']
    split <;> simp_all
  · intro op
    unfold async_client_impl.reply_matches
    constructor
    · rintro ⟨h1, h2, h3, h4, h5, h6⟩
      exact ⟨h1.symm, h2.symm, h3, h4.symm, h5.symm, h6.symm⟩
    · rintro ⟨h1, h2, h3, h4, h5, h6⟩
      exact ⟨h1.symm, h2.symm, h3, h4.symm, h5.symm, h6.symm⟩
  · unfold async_client_impl.flush_dispatch
    simp only [hch, flush_match_queue, List.length_map]
  · intro j op hj
    unfold async_client_impl.flush_dispatch
    simp only [hch, flush_match_queue, List.getElem?_map, hj, Option.map_some',
      Option.some_bind]
    constructor
    · intro hm
      have hm' : async_client_impl.reply_matches chan
          (if ch.id = E.CLIENTSPACE then ({ ch with id := hdr.to_entity } : channel S)
            else ch).id hdr op := by
        split <;> simp_all
      rw [if_pos hm']
    · intro hm
      have hm' : ¬ async_client_impl.reply_matches chan
          (if ch.id = E.CLIENTSPACE then ({ ch with id := hdr.to_entity } : channel S)
            else ch).id hdr op := by
        split <;> simp_all
      rw [if_neg hm']
  · intro j hj
    unfold async_client_impl.flush_dispatch
    simp only [hch, flush_match_queue, List.getElem?_map, hj, Option.map_some',
      Option.none_bind]
  · unfold async_client_impl.flush_dispatch
    simp only [hch, flush_match_calls]
    have hid : (if ch.id = E.CLIENTSPACE then ({ ch with id := hdr.to_entity } : channel S)
        else ch).id = if ch.id = E.CLIENTSPACE then hdr.to_entity else ch.id := by
      split <;> rfl
    rw [hid]
  · intro hnone
    have hid : (if ch.id = E.CLIENTSPACE then ({ ch with id := hdr.to_entity } : channel S)
        else ch).id = if ch.id = E.CLIENTSPACE then hdr.to_entity else ch.id := by
      split <;> rfl
    unfold async_client_impl.flush_dispatch
    simp only [hch, flush_match_calls, flush_match_queue, hid]
    constructor
    · have : (live s.m_requests).filter (fun op => decide (async_client_impl.reply_matches chan
          (if ch.id = E.CLIENTSPACE then hdr.to_entity else ch.id) hdr op)) = [] := by
        rw [List.filter_eq_nil_iff]
        intro op hop
        simpa using hnone op hop
      rw [this]
      simp
    · apply List.ext_getElem?
      intro j
      rw [List.getElem?_map]
      cases hj : s.m_requests[j]? with
      | none => rfl
      | some r =>
        cases r with
        | none => rfl
        | some op =>
          have hmem : op ∈ live s.m_requests := by
            unfold live
            rw [List.mem_filterMap]
            exact ⟨some op, List.getElem?_mem hj, rfl⟩
          simp [hnone op hmem]

theorem C19_reply_dispatch_witness :
    ∃ (s' : async_client_impl 2) (w2 : script 2),
      async_client_impl.flush_slot sample_externals (script_env 2)
          (async_client_impl.slot_revents [5] [readable]) 0 sample_client_waiting
          (reply_script sample_reply) = (s', w2) ∧
      s'.trace = sample_client_waiting.trace ++ [event.callback_get 4 SUCCESS [[86]]] ∧
      s'.m_requests = [none] := by
  obtain ⟨s', chan_id, h1, h2, _, _, _, h6, _, h8, _⟩ :=
    C19_reply_dispatch sample_externals (script_env 2)
      (async_client_impl.slot_revents [5] [readable]) 0 sample_client_waiting
      (reply_script sample_reply)
      ⟨some 0, ⟨[0, 1], rfl⟩, ⟨7, 3⟩, 1, .pending_get 4⟩ 0 ⟨5, 2, sample_externals.CLIENTSPACE⟩
      24 { reply_script sample_reply with peeks := [] }
      { reply_script sample_reply with peeks := [], reads := [] } sample_reply
      ⟨24, 9, 3, 0, ⟨[0, 1], rfl⟩, ⟨[0, 7], rfl⟩, 1⟩
      (pack_uint 2 sample_constants.NET_SUCCESS ++ pack_vector sample_packing [[86]])
      (by decide) rfl rfl rfl rfl (by decide) (by decide) rfl rfl (by decide) (by decide)
  subst h2
  refine ⟨s', _, h1, ?_, ?_⟩
  · rw [h8]; decide
  · have h := (h6 0 ⟨some 0, ⟨[0, 1], rfl⟩, ⟨7, 3⟩, 1, .pending_get 4⟩ (by decide)).1 (by decide)
    have hlen : s'.m_requests.length = 1 := by
      have := congrArg (fun p => p.1.m_requests.length) h1
      simp only [] at this
      rw [← this]
      decide
    match hq : s'.m_requests, hlen with
    | [r], _ =>
      rw [hq] at h
      simpa using h

/-! ## What a readiness cycle leaves alone -/

theorem callbacks_append (a b : List event) : callbacks (a ++ b) = callbacks a ++ callbacks b := by
  simp [callbacks, List.filterMap_append]

theorem pending_get_result_msg_shape (N : network_constants) (P : packing) (cb : Nat)
    (ret : returncode) (msg_type : network_msgtype) (msg : buffer) :
    ∃ status value,
      pending_get.result_msg N P cb ret msg_type msg = [event.callback_get cb status value] := by
  unfold pending_get.result_msg
  simp only []
  split
  · exact ⟨_, _, rfl⟩
  · split
    · exact ⟨_, _, rfl⟩
    · split
      · exact ⟨_, _, rfl⟩
      · unfold pending_get.result_switch
        repeat' split
        all_goals exact ⟨_, _, rfl⟩

theorem pending_mutate_result_msg_shape (N : network_constants) (expected : network_msgtype)
    (cb : Nat) (ret : returncode) (msg_type : network_msgtype) (msg : buffer) :
    ∃ status,
      pending_mutate.result_msg N expected cb ret msg_type msg
        = [event.callback_mutate cb status] := by
  unfold pending_mutate.result_msg
  split
  · exact ⟨_, rfl⟩
  · split
    · exact ⟨_, rfl⟩
    · split
      · exact ⟨_, rfl⟩
      · unfold pending_mutate.result_switch
        repeat' split
        all_goals exact ⟨_, rfl⟩

theorem callbacks_result {S : Nat} (op : pending S) (ret : returncode) :
    callbacks (op.result ret) = [op.callback] := by
  unfold pending.result pending.callback
  cases op.variant <;> rfl

theorem callbacks_result_msg {S : Nat} (N : network_constants) (P : packing) (op : pending S)
    (ret : returncode) (msg_type : network_msgtype) (msg : buffer) :
    callbacks (op.result_msg N P ret msg_type msg) = [op.callback] := by
  unfold pending.result_msg pending.callback
  cases op.variant with
  | pending_get cb =>
    obtain ⟨st, v, h⟩ := pending_get_result_msg_shape N P cb ret msg_type msg
    simp only [h]; rfl
  | pending_mutate expected cb =>
    obtain ⟨st, h⟩ := pending_mutate_result_msg_shape N expected cb ret msg_type msg
    simp only [h]; rfl

theorem live_nil {S : Nat} : live ([] : List (Option (pending S))) = [] := rfl

theorem live_cons_none {S : Nat} (q : List (Option (pending S))) :
    live (none :: q) = live q := rfl

theorem live_cons_some {S : Nat} (p : pending S) (q : List (Option (pending S))) :
    live (some p :: q) = p :: live q := rfl

theorem live_set_none {S : Nat} (q : List (Option (pending S))) :
    ∀ (i : Nat) (op : pending S), q[i]? = some (some op) →
      ∃ pre post, live q = pre ++ op :: post ∧ live (q.set i none) = pre ++ post := by
  induction q with
  | nil => intro i op h; simp at h
  | cons r q ih =>
    intro i op h
    cases i with
    | zero =>
      simp only [List.getElem?_cons_zero, Option.some.injEq] at h
      subst h
      exact ⟨[], live q, by rw [live_cons_some, List.nil_append],
        by rw [List.set_cons_zero, live_cons_none, List.nil_append]⟩
    | succ i =>
      simp only [List.getElem?_cons_succ] at h
      obtain ⟨pre, post, h1, h2⟩ := ih i op h
      cases r with
      | none =>
        refine ⟨pre, post, ?_, ?_⟩
        · rw [live_cons_none, h1]
        · rw [List.set_cons_succ, live_cons_none, h2]
      | some p =>
        refine ⟨p :: pre, post, ?_, ?_⟩
        · rw [live_cons_some, h1, List.cons_append]
        · rw [List.set_cons_succ, live_cons_some, h2, List.cons_append]

theorem cycle_frame_refl {S : Nat} (E : externals S) (s : async_client_impl S) :
    cycle_frame E s s :=
  ⟨rfl, fun _ ch h => ⟨ch, h, rfl, fun _ => rfl⟩, List.Sublist.refl _, List.prefix_refl _,
    List.Perm.refl _⟩

theorem cycle_frame_trans {S : Nat} (E : externals S) {s t u : async_client_impl S}
    (h1 : cycle_frame E s t) (h2 : cycle_frame E t u) : cycle_frame E s u := by
  obtain ⟨a1, b1, c1, d1, e1⟩ := h1
  obtain ⟨a2, b2, c2, d2, e2⟩ := h2
  refine ⟨a2.trans a1, ?_, c2.trans c1, d1.trans d2, e2.trans e1⟩
  intro c ch hc
  obtain ⟨ch1, hc1, hn1, hi1⟩ := b1 c ch hc
  obtain ⟨ch2, hc2, hn2, hi2⟩ := b2 c ch1 hc1
  refine ⟨ch2, hc2, hn2.trans hn1, ?_⟩
  intro hne
  have := hi1 hne
  rw [hi2 (by rw [this]; exact hne), this]

theorem cycle_frame_tombstone {S : Nat} (E : externals S) (s : async_client_impl S) (i : Nat)
    (op : pending S) (ret : returncode) (h : s.m_requests[i]? = some (some op)) :
    cycle_frame E s (async_client_impl.tombstone s i op ret) := by
  obtain ⟨pre, post, h1, h2⟩ := live_set_none s.m_requests i op h
  refine ⟨rfl, fun _ ch h => ⟨ch, h, rfl, fun _ => rfl⟩, ?_, ?_, ?_⟩
  · simp only [async_client_impl.tombstone, h1, h2]
    exact List.Sublist.append (List.Sublist.refl _) (List.sublist_cons_self _ _)
  · exact List.prefix_append _ _
  · simp only [async_client_impl.tombstone, h1, h2, callbacks_append, callbacks_result,
      List.map_append, List.map_cons, List.append_assoc]
    apply List.Perm.append_left
    rw [← List.append_assoc]
    refine List.Perm.trans (List.perm_append_comm.append_right _) ?_
    simp only [List.append_assoc]
    apply List.Perm.append_left
    simp

theorem cycle_frame_of_eq {S : Nat} (E : externals S) (s s' : async_client_impl S)
    (h1 : s'.channels = s.channels) (h2 : s'.m_requests = s.m_requests)
    (h3 : s'.trace = s.trace) : cycle_frame E s s' := by
  unfold cycle_frame
  rw [h1, h2, h3]
  exact cycle_frame_refl E s

theorem cycle_frame_set_channel {S : Nat} (E : externals S) (s s' : async_client_impl S)
    (c : Nat) (ch ch' : channel S) (hch : s.channels[c]? = some ch)
    (hn : ch'.nonce = ch.nonce) (hid : ch.id ≠ E.CLIENTSPACE → ch'.id = ch.id)
    (h1 : s'.channels = s.channels.set c ch') (h2 : s'.m_requests = s.m_requests)
    (h3 : s'.trace = s.trace) : cycle_frame E s s' := by
  have hlt : c < s.channels.length := by
    rcases Nat.lt_or_ge c s.channels.length with h | h
    · exact h
    · rw [List.getElem?_eq_none h] at hch; cases hch
  unfold cycle_frame
  rw [h1, h2, h3]
  refine ⟨by simp, ?_, List.Sublist.refl _, List.prefix_refl _, List.Perm.refl _⟩
  intro c0 ch0 hc0
  by_cases hc : c = c0
  · subst hc
    rw [hch] at hc0
    cases hc0
    exact ⟨ch', List.getElem?_set_self hlt, hn, hid⟩
  · exact ⟨ch0, by rw [List.getElem?_set_ne hc]; exact hc0, rfl, fun _ => rfl⟩

theorem close_channel_requests {S : Nat} (s : async_client_impl S) (op : pending S) :
    (async_client_impl.close_channel s op).m_requests = s.m_requests ∧
    (async_client_impl.close_channel s op).trace = s.trace ∧
    (async_client_impl.close_channel s op).m_config = s.m_config := by
  unfold async_client_impl.close_channel
  split
  · exact ⟨rfl, rfl, rfl⟩
  · split <;> exact ⟨rfl, rfl, rfl⟩

theorem cycle_frame_close_channel {S : Nat} (E : externals S) (s : async_client_impl S)
    (op : pending S) : cycle_frame E s (async_client_impl.close_channel s op) := by
  unfold async_client_impl.close_channel
  split
  · exact cycle_frame_refl E s
  · split
    · exact cycle_frame_refl E s
    · rename_i c _ _ ch hch
      exact cycle_frame_set_channel E s _ c ch { ch with soc := -1 } hch rfl (fun _ => rfl)
        rfl rfl rfl

theorem cycle_frame_flush_disconnect {S : Nat} (E : externals S) (s : async_client_impl S)
    (i : Nat) (op : pending S) (h : s.m_requests[i]? = some (some op)) :
    cycle_frame E s (async_client_impl.flush_disconnect s i op) := by
  unfold async_client_impl.flush_disconnect
  refine cycle_frame_trans E (cycle_frame_close_channel E s op) ?_
  refine cycle_frame_trans E
    (cycle_frame_of_eq E _
      { async_client_impl.close_channel s op with
        m_channels := map_erase (async_client_impl.close_channel s op).m_channels op.inst }
      rfl rfl rfl) ?_
  exact cycle_frame_tombstone E _ i op DISCONNECT
    (by rw [← h]; exact congrArg (fun q => q[i]?) (close_channel_requests s op).1)

theorem flush_match_live {S : Nat} (N : network_constants) (P : packing) (chan : Nat)
    (chan_id : entityid S) (hdr : async_client_impl.frame_header S) (msg : buffer)
    (q : List (Option (pending S))) :
    (live (async_client_impl.flush_match N P chan chan_id hdr msg q).1).Sublist (live q) ∧
    (callbacks (async_client_impl.flush_match N P chan chan_id hdr msg q).2
        ++ (live (async_client_impl.flush_match N P chan chan_id hdr msg q).1).map
            pending.callback).Perm
      ((live q).map pending.callback) := by
  induction q with
  | nil => exact ⟨List.Sublist.refl _, List.Perm.refl _⟩
  | cons r q ih =>
    obtain ⟨ih1, ih2⟩ := ih
    cases r with
    | none =>
      simp only [async_client_impl.flush_match, live_cons_none]
      exact ⟨ih1, ih2⟩
    | some op =>
      by_cases hm : async_client_impl.reply_matches chan chan_id hdr op
      · simp only [async_client_impl.flush_match, if_pos hm, live_cons_none, live_cons_some,
          callbacks_append, callbacks_result_msg, List.map_cons]
        exact ⟨ih1.trans (List.sublist_cons_self _ _), by simpa using ih2⟩
      · simp only [async_client_impl.flush_match, if_neg hm, live_cons_some, List.map_cons]
        refine ⟨ih1.cons₂ _, ?_⟩
        exact List.Perm.trans List.perm_middle (ih2.cons _)

theorem flush_reconfigure_live {S : Nat} (m_config : configuration S)
    (q : List (Option (pending S))) :
    (live (async_client_impl.flush_reconfigure m_config q).1).Sublist (live q) ∧
    (callbacks (async_client_impl.flush_reconfigure m_config q).2
        ++ (live (async_client_impl.flush_reconfigure m_config q).1).map pending.callback).Perm
      ((live q).map pending.callback) := by
  induction q with
  | nil => exact ⟨List.Sublist.refl _, List.Perm.refl _⟩
  | cons r q ih =>
    obtain ⟨ih1, ih2⟩ := ih
    cases r with
    | none =>
      simp only [async_client_impl.flush_reconfigure, live_cons_none]
      exact ⟨ih1, ih2⟩
    | some op =>
      by_cases hm : m_config.instancefor op.ent ≠ op.inst
      · simp only [async_client_impl.flush_reconfigure, if_pos hm, live_cons_none,
          live_cons_some, callbacks_append, callbacks_result, List.map_cons]
        exact ⟨ih1.trans (List.sublist_cons_self _ _), by simpa using ih2⟩
      · simp only [async_client_impl.flush_reconfigure, if_neg hm, live_cons_some,
          List.map_cons]
        refine ⟨ih1.cons₂ _, ?_⟩
        exact List.Perm.trans List.perm_middle (ih2.cons _)

theorem live_flush_compact {S : Nat} (q : List (Option (pending S))) :
    live (async_client_impl.flush_compact q) = live q := by
  induction q with
  | nil => rfl
  | cons r q ih =>
    cases r with
    | none => simpa [async_client_impl.flush_compact, live_cons_none] using ih
    | some op => rfl

theorem cycle_frame_requests {S : Nat} (E : externals S) (s s' : async_client_impl S)
    (ev : List event) (h1 : s'.channels = s.channels)
    (h2 : (live s'.m_requests).Sublist (live s.m_requests))
    (h3 : s'.trace = s.trace ++ ev)
    (h4 : (callbacks ev ++ (live s'.m_requests).map pending.callback).Perm
      ((live s.m_requests).map pending.callback)) : cycle_frame E s s' := by
  refine ⟨by rw [h1], fun c ch h => ⟨ch, by rw [h1]; exact h, rfl, fun _ => rfl⟩, h2, ?_, ?_⟩
  · rw [h3]; exact List.prefix_append _ _
  · rw [h3, callbacks_append, List.append_assoc]
    exact h4.append_left _

theorem cycle_frame_flush_dispatch {S : Nat} (E : externals S) (s : async_client_impl S)
    (chan : Nat) (hdr : async_client_impl.frame_header S) (msg : buffer) :
    cycle_frame E s (async_client_impl.flush_dispatch E s chan hdr msg) := by
  unfold async_client_impl.flush_dispatch
  split
  · exact cycle_frame_refl E s
  · rename_i ch hch
    refine cycle_frame_trans E
      (cycle_frame_set_channel E s
        { s with channels := s.channels.set chan
                  (if ch.id = E.CLIENTSPACE then { ch with id := hdr.to_entity } else ch) }
        chan ch (if ch.id = E.CLIENTSPACE then { ch with id := hdr.to_entity } else ch) hch
        (by split <;> rfl) (fun hne => by rw [if_neg hne]) rfl rfl rfl) ?_
    exact cycle_frame_requests E _ _ _ rfl (flush_match_live _ _ _ _ _ _ _).1 rfl
      (flush_match_live _ _ _ _ _ _ _).2

theorem cycle_frame_flush_slot {S : Nat} {W : Type} (E : externals S)
    (env : environment S W) (pfds : Nat → revents) (i : Nat) (s : async_client_impl S) (w : W) :
    cycle_frame E s (async_client_impl.flush_slot E env pfds i s w).1 := by
  unfold async_client_impl.flush_slot
  repeat' split
  all_goals first
    | exact cycle_frame_refl E s
    | exact cycle_frame_flush_disconnect E s i _ (by assumption)
    | exact cycle_frame_tombstone E s i _ _ (by assumption)
    | exact cycle_frame_flush_dispatch E s _ _ _

theorem cycle_frame_flush_slots {S : Nat} {W : Type} (E : externals S)
    (env : environment S W) (pfds : Nat → revents) (idx : List Nat) :
    ∀ (s : async_client_impl S) (w : W),
      cycle_frame E s (async_client_impl.flush_slots E env pfds idx s w).1 := by
  induction idx with
  | nil => intro s w; exact cycle_frame_refl E s
  | cons i idx ih =>
    intro s w
    unfold async_client_impl.flush_slots
    exact cycle_frame_trans E (cycle_frame_flush_slot E env pfds i s w) (ih _ _)

theorem cycle_frame_compacted {S : Nat} {W : Type} (E : externals S)
    (env : environment S W) (pfds : Nat → revents) (idx : List Nat) (s : async_client_impl S)
    (w : W) :
    cycle_frame E s
      { (async_client_impl.flush_slots E env pfds idx s w).1 with
        m_requests := async_client_impl.flush_compact
          (async_client_impl.flush_slots E env pfds idx s w).1.m_requests } := by
  refine cycle_frame_trans E (cycle_frame_flush_slots E env pfds idx s w) ?_
  exact cycle_frame_requests E _ _ [] rfl
    (by simp only [live_flush_compact]; exact List.Sublist.refl _)
    (by simp)
    (by simp only [live_flush_compact, callbacks, List.filterMap_nil, List.nil_append]
        exact List.Perm.refl _)

theorem cycle_frame_flush_cycle {S : Nat} {W : Type} (E : externals S)
    (env : environment S W) (s : async_client_impl S) (w : W) :
    cycle_frame E s (async_client_impl.flush_cycle E env s w).state := by
  obtain ⟨attempts, hat, -, hcb, -⟩ := flush_health_trace env 7 0 s.trace w
  have hhealth : cycle_frame E s
      { s with trace := (async_client_impl.flush_health env 7 0 s.trace w).2.1 } :=
    cycle_frame_requests E s _ attempts rfl (List.Sublist.refl _) hat
      (by rw [hcb]; exact List.Perm.refl _)
  unfold async_client_impl.flush_cycle
  split
  · rename_i ret tr w1 hh
    rw [hh] at hhealth
    exact hhealth
  · rename_i tr w1 hh
    rw [hh] at hhealth
    simp only [] at hhealth ⊢
    split
    · exact hhealth
    · split
      · exact hhealth
      · split
        · refine cycle_frame_trans E hhealth ?_
          exact cycle_frame_requests E _ _ _ rfl (flush_reconfigure_live _ _).1 rfl
            (flush_reconfigure_live _ _).2
        · exact cycle_frame_trans E hhealth (cycle_frame_compacted E env _ _ _ _)

/-! ## `flush` as a whole -/

theorem flush_health_return {S : Nat} {W : Type} (env : environment S W) (fuel : Nat) :
    ∀ (i : Nat) (tr : List event) (w : W) (ret : returncode),
      (async_client_impl.flush_health env fuel i tr w).1 = some ret →
      ret = COORDFAIL ∨ ret = LOGICERROR := by
  induction fuel with
  | zero => intro i tr w ret h; simp [async_client_impl.flush_health] at h
  | succ fuel ih =>
    intro i tr w ret h
    unfold async_client_impl.flush_health at h
    split at h
    · split at h
      · exact ih _ _ _ _ h
      · split at h
        · simp only [Option.some.injEq] at h; exact Or.inl h.symm
        · exact ih _ _ _ _ h
      · split at h
        · simp only [Option.some.injEq] at h; exact Or.inl h.symm
        · exact ih _ _ _ _ h
      · split at h
        · simp only [Option.some.injEq] at h; exact Or.inr h.symm
        · exact ih _ _ _ _ h
      · split at h
        · simp only [Option.some.injEq] at h; exact Or.inr h.symm
        · exact ih _ _ _ _ h
    · simp at h

theorem flush_coord_event_return {S : Nat} {W : Type} (env : environment S W) (coord : Bool)
    (w : W) (ret : returncode)
    (h : (async_client_impl.flush_coord_event env coord w).1 = some ret) :
    ret = COORDFAIL ∨ ret = LOGICERROR := by
  unfold async_client_impl.flush_coord_event at h
  split at h
  · split at h
    · simp at h
    · simp only [Option.some.injEq] at h; exact Or.inl h.symm
    · simp only [Option.some.injEq] at h; exact Or.inl h.symm
    · simp only [Option.some.injEq] at h; exact Or.inr h.symm
    · simp only [Option.some.injEq] at h; exact Or.inr h.symm
  · simp at h

theorem flush_cycle_return {S : Nat} {W : Type} (E : externals S) (env : environment S W)
    (s s1 : async_client_impl S) (w w1 : W) (ret : returncode)
    (h : async_client_impl.flush_cycle E env s w = .returned ret s1 w1) :
    (ret = COORDFAIL ∨ ret = LOGICERROR) ∧ s1.m_requests = s.m_requests := by
  unfold async_client_impl.flush_cycle at h
  split at h
  · rename_i r tr w0 hh
    cases h
    exact ⟨flush_health_return env 7 0 s.trace w ret (by rw [hh]), rfl⟩
  · simp only [] at h
    split at h
    · cases h; exact ⟨Or.inr rfl, rfl⟩
    · split at h
      · rename_i r w3 hc
        cases h
        exact ⟨flush_coord_event_return env _ _ ret (by rw [hc]), rfl⟩
      · split at h <;> cases h

theorem flush_returns {S : Nat} {W : Type} (E : externals S) (env : environment S W)
    (fuel : Nat) :
    ∀ (s s' : async_client_impl S) (w w' : W) (ret : returncode),
      async_client_impl.flush E env fuel s w = some (ret, s', w') →
      cycle_frame E s s' ∧ (ret = SUCCESS → s'.m_requests = []) := by
  induction fuel with
  | zero => intro s s' w w' ret h; simp [async_client_impl.flush] at h
  | succ fuel ih =>
    intro s s' w w' ret h
    unfold async_client_impl.flush at h
    split at h
    · rename_i hq
      cases h
      exact ⟨cycle_frame_refl E s, fun _ => hq⟩
    · have hframe := cycle_frame_flush_cycle E env s w
      split at h
      · rename_i r s1 w1 hc
        cases h
        rw [hc] at hframe
        refine ⟨hframe, fun hret => ?_⟩
        rcases (flush_cycle_return E env s s' w w' ret hc).1 with h1 | h1 <;>
          rw [h1] at hret <;> cases hret
      · rename_i s1 w1 hc
        rw [hc] at hframe
        obtain ⟨h1, h2⟩ := ih s1 s' w1 w' ret h
        exact ⟨cycle_frame_trans E hframe h1, h2⟩

/-- Whenever `flush` returns SUCCESS the queue of requests is empty, and the
continuation calls made during the call are, up to their order, exactly the
continuations of the requests that were live in the queue when `flush` was
called, each one as often as it is held by such a request, whether a reply,
DISCONNECT or RECONFIGURE retired it. -/
theorem flush_success_exactly_once {S : Nat} {W : Type} (E : externals S) (env : environment S W)
    (fuel : Nat) (s s' : async_client_impl S) (w w' : W)
    (h : async_client_impl.flush E env fuel s w = some (SUCCESS, s', w')) :
    s'.m_requests = [] ∧
    ∃ calls : List event, s'.trace = s.trace ++ calls ∧
      (callbacks calls).Perm ((live s.m_requests).map pending.callback) := by
  obtain ⟨⟨_, _, _, ⟨calls, hcalls⟩, hperm⟩, hq⟩ := flush_returns E env fuel s s' w w' SUCCESS h
  refine ⟨hq rfl, calls, hcalls.symm, ?_⟩
  rw [← hcalls, hq rfl, callbacks_append] at hperm
  simp only [live_nil, List.map_nil, List.append_nil] at hperm
  exact (List.perm_append_left_iff _).mp hperm

theorem flush_success_sample :
    ∃ (s' : async_client_impl 2) (w' : script 2),
      async_client_impl.flush sample_externals (script_env 2) 2 sample_client_waiting
        (reply_script sample_reply) = some (SUCCESS, s', w') ∧
      s'.m_requests = [] ∧
      ∃ calls : List event, s'.trace = sample_client_waiting.trace ++ calls ∧
        (callbacks calls).Perm ((live sample_client_waiting.m_requests).map pending.callback) :=
  ⟨_, _, rfl, flush_success_exactly_once sample_externals (script_env 2) 2 sample_client_waiting _
    (reply_script sample_reply) _ rfl⟩

/-- C11, at the failing input: the submission of `get("s", [9])` with the
continuation 1 whose eager write fails and whose continuation, called with
DISCONNECT, submits `get("s", [8])` with the continuation 2, followed by a call
of `flush` during which the coordinator announces a snapshot that moves the
instance of the entity.  Both requests were appended to the queue and the
frame of the second was sent; `pop_back` took the second request off instead
of the first.  `flush` retires the first request with RECONFIGURE and returns
SUCCESS with an empty queue: the continuation 1 has been called twice and the
continuation 2 not at all.  The continuation called by `flush` makes no
submission. -/
theorem C11_lost_and_repeated_continuation :
    ∃ (s1 s2 : async_client_impl 2) (w' : script 2),
      reentrant.submit sample_externals resubmitting flaky_network 2 sample_client_open
          (.get "s" [9] 1) = some s1 ∧
      async_client_impl.flush sample_externals (script_env 2) 3 s1 retire_script
        = some (SUCCESS, s2, w') ∧
      s2.m_requests = [] ∧
      s2.trace
        = [event.xsend 5 (async_client_impl.build_frame sample_externals.CLIENTSPACE
              ⟨[0, 1], rfl⟩ ⟨7, 3⟩ 1 sample_constants.REQ_GET [9]) false,
           event.callback_get 1 DISCONNECT [],
           event.connect ⟨7, 3⟩ true,
           event.xsend 6 (async_client_impl.build_frame sample_externals.CLIENTSPACE
              ⟨[0, 1], rfl⟩ ⟨7, 3⟩ 1 sample_constants.REQ_GET [8]) true,
           event.callback_get 1 RECONFIGURE []] ∧
      callbacks s2.trace = [1, 1] ∧
      resubmitting (event.callback_get 1 RECONFIGURE []) = [] :=
  ⟨_, _, _, rfl, rfl, by decide, by decide, by decide, by decide⟩

/-! ## Submissions and runs -/

theorem enqueue_effect {S : Nat} (net : network) (s : async_client_impl S)
    (chan : Nat) (dst_ent : entityid S) (dst_inst : hyperdex_instance)
    (send_type : network_msgtype) (send_msg : buffer) (op : pending S) :
    (s.channels[chan]? = none ∧
      async_client_impl.add_reqrep_enqueue net s chan dst_ent dst_inst send_type send_msg op
        = s) ∨
    (∃ c : channel S, s.channels[chan]? = some c ∧
      (async_client_impl.add_reqrep_enqueue net s chan dst_ent dst_inst send_type send_msg
          op).channels
        = s.channels.set chan ⟨c.soc, (c.nonce + 1) % 18446744073709551616, c.id⟩ ∧
      ((async_client_impl.add_reqrep_enqueue net s chan dst_ent dst_inst send_type send_msg
          op).m_requests = s.m_requests ∨
       (async_client_impl.add_reqrep_enqueue net s chan dst_ent dst_inst send_type send_msg
          op).m_requests
        = s.m_requests ++ [some ⟨some chan, dst_ent, dst_inst, c.nonce % 4294967296,
            op.variant⟩])) := by
  cases hc : s.channels[chan]? with
  | none =>
    left
    exact ⟨rfl, by unfold async_client_impl.add_reqrep_enqueue; rw [hc]⟩
  | some c =>
    right
    refine ⟨c, rfl, ?_⟩
    cases hsend : net.xsend c.soc (async_client_impl.build_frame c.id dst_ent dst_inst
        (c.nonce % 4294967296) send_type send_msg) with
    | true =>
      rw [enqueue_send_ok net s chan c dst_ent dst_inst send_type send_msg op hc hsend]
      exact ⟨rfl, Or.inr rfl⟩
    | false =>
      rw [enqueue_send_fails net s chan c dst_ent dst_inst send_type send_msg op hc hsend]
      exact ⟨rfl, Or.inl rfl⟩

theorem add_reqrep_effect {S : Nat} (E : externals S) (net : network)
    (s : async_client_impl S) (space : String) (key : buffer) (send_type : network_msgtype)
    (send_msg : buffer) (op : pending S) :
    submission_effect E s
      (async_client_impl.add_reqrep E net s space key send_type send_msg op) := by
  unfold async_client_impl.add_reqrep
  simp only []
  generalize s.m_config.headof
    ⟨(s.m_config.lookup_spaceid space).space, 0, 64, E.CityHash64 key⟩ = dst_ent
  generalize s.m_config.instancefor dst_ent = dst_inst
  split
  · exact Or.inl ⟨rfl, rfl⟩
  · split
    · exact Or.inl ⟨rfl, rfl⟩
    · split
      · rename_i table chan hmi
        rcases enqueue_effect net { s with m_channels := table } chan dst_ent dst_inst
          send_type send_msg op with ⟨_, h⟩ | ⟨c, hc, h1, h2⟩
        · rw [h]; exact Or.inl ⟨rfl, rfl⟩
        · exact Or.inr (Or.inl ⟨chan, c, _, _, _, hc, h1, h2⟩)
      · rename_i table hmi
        split
        · exact Or.inl ⟨rfl, rfl⟩
        · rename_i fd hfd
          rcases enqueue_effect net
            (async_client_impl.mk s.m_config (map_assign table dst_inst (some s.channels.length))
              s.m_requests (s.channels ++ [⟨fd, 1, E.CLIENTSPACE⟩])
              (s.trace ++ [event.connect dst_inst true]))
            s.channels.length dst_ent dst_inst send_type send_msg op with
            ⟨hn, _⟩ | ⟨c, hc, h1, h2⟩
          · simp at hn
          · simp only [List.getElem?_concat_length, Option.some.injEq] at hc
            subst hc
            refine Or.inr (Or.inr ⟨fd, dst_ent, dst_inst, op.variant, ?_, ?_⟩)
            · rw [h1]; simp
            · simpa using h2

theorem step_submission {S : Nat} (E : externals S) (s t : async_client_impl S)
    (h : step E 1 s t) : submission_effect E s t := by
  cases h with
  | get net _ space key callback => exact add_reqrep_effect E net s space key _ _ _
  | put net _ space key value callback => exact add_reqrep_effect E net s space key _ _ _
  | del net _ space key callback => exact add_reqrep_effect E net s space key _ _ _
  | update net _ _ space key value callback h =>
    unfold async_client_impl.update at h
    simp only [] at h
    split at h
    · cases h; exact Or.inl ⟨rfl, rfl⟩
    · split at h
      · cases h
      · split at h
        · cases h; exact Or.inl ⟨rfl, rfl⟩
        · cases h; exact add_reqrep_effect E net s space key _ _ _

theorem connect_loop_keeps {S : Nat} {W : Type} (env : environment S W) (fuel : Nat) :
    ∀ (s s' : async_client_impl S) (w w' : W) (ret : returncode),
      async_client_impl.connect_loop env fuel s w = some (ret, s', w') →
      s'.channels = s.channels ∧ s'.m_requests = s.m_requests ∧ s'.trace = s.trace := by
  induction fuel with
  | zero => intro s s' w w' ret h; simp [async_client_impl.connect_loop] at h
  | succ fuel ih =>
    intro s s' w w' ret h
    unfold async_client_impl.connect_loop at h
    split at h
    · split at h
      · cases h; exact ⟨rfl, rfl, rfl⟩
      · exact ih _ _ _ _ _ h
    all_goals cases h; exact ⟨rfl, rfl, rfl⟩

theorem connect_keeps {S : Nat} {W : Type} (env : environment S W) (fuel : Nat)
    (s s' : async_client_impl S) (w w' : W) (ret : returncode)
    (h : async_client_impl.connect env fuel s w = some (ret, s', w')) :
    s'.channels = s.channels ∧ s'.m_requests = s.m_requests := by
  unfold async_client_impl.connect at h
  split at h
  · obtain ⟨h1, h2, _⟩ := connect_loop_keeps env fuel _ _ _ _ _ h
    exact ⟨h1, h2⟩
  all_goals cases h; exact ⟨rfl, rfl⟩

theorem step_zero_frame {S : Nat} (E : externals S) (s t : async_client_impl S)
    (h : step E 0 s t) :
    t.channels.length = s.channels.length ∧
    (∀ (c : Nat) (ch : channel S), s.channels[c]? = some ch →
      ∃ ch', t.channels[c]? = some ch' ∧ ch'.nonce = ch.nonce ∧
        (ch.id ≠ E.CLIENTSPACE → ch'.id = ch.id)) ∧
    (live t.m_requests).Sublist (live s.m_requests) := by
  cases h with
  | cycle env _ w hq =>
    obtain ⟨h1, h2, h3, _, _⟩ := cycle_frame_flush_cycle E env s w
    exact ⟨h1, h2, h3⟩
  | connect env fuel _ _ w w' ret h =>
    obtain ⟨h1, h2⟩ := connect_keeps env fuel s t w w' ret h
    rw [h1, h2]
    exact ⟨rfl, fun c ch hc => ⟨ch, hc, rfl, fun _ => rfl⟩, List.Sublist.refl _⟩

theorem step_ids {S : Nat} (E : externals S) (k : Nat) (s t : async_client_impl S)
    (h : step E k s t) :
    (∀ (c : Nat) (ch : channel S), s.channels[c]? = some ch →
      ∃ ch', t.channels[c]? = some ch' ∧ (ch.id ≠ E.CLIENTSPACE → ch'.id = ch.id)) ∧
    (∀ (c : Nat) (ch' : channel S), s.channels.length ≤ c → t.channels[c]? = some ch' →
      ch'.id = E.CLIENTSPACE) := by
  have hzero : step E 0 s t →
      (∀ (c : Nat) (ch : channel S), s.channels[c]? = some ch →
        ∃ ch', t.channels[c]? = some ch' ∧ (ch.id ≠ E.CLIENTSPACE → ch'.id = ch.id)) ∧
      (∀ (c : Nat) (ch' : channel S), s.channels.length ≤ c → t.channels[c]? = some ch' →
        ch'.id = E.CLIENTSPACE) := by
    intro h0
    obtain ⟨h1, h2, _⟩ := step_zero_frame E s t h0
    refine ⟨fun c ch hc => ?_, fun c ch' hc ht => ?_⟩
    · obtain ⟨ch', a, _, b⟩ := h2 c ch hc
      exact ⟨ch', a, b⟩
    · rw [List.getElem?_eq_none (by omega)] at ht; cases ht
  have hone : step E 1 s t →
      (∀ (c : Nat) (ch : channel S), s.channels[c]? = some ch →
        ∃ ch', t.channels[c]? = some ch' ∧ (ch.id ≠ E.CLIENTSPACE → ch'.id = ch.id)) ∧
      (∀ (c : Nat) (ch' : channel S), s.channels.length ≤ c → t.channels[c]? = some ch' →
        ch'.id = E.CLIENTSPACE) := by
    intro h1
    rcases step_submission E s t h1 with ⟨hc, _⟩ | ⟨chan, c0, _, _, _, hc0, hc, _⟩ |
      ⟨fd, _, _, _, hc, _⟩
    · rw [hc]
      refine ⟨fun c ch h => ⟨ch, h, fun _ => rfl⟩, fun c ch' hle ht => ?_⟩
      rw [List.getElem?_eq_none hle] at ht; cases ht
    · have hlt : chan < s.channels.length := by
        rcases Nat.lt_or_ge chan s.channels.length with h | h
        · exact h
        · rw [List.getElem?_eq_none h] at hc0; cases hc0
      rw [hc]
      refine ⟨fun c ch h => ?_, fun c ch' hle ht => ?_⟩
      · by_cases hcc : chan = c
        · subst hcc
          rw [hc0] at h
          cases h
          exact ⟨_, List.getElem?_set_self hlt, fun _ => rfl⟩
        · exact ⟨ch, by rw [List.getElem?_set_ne hcc]; exact h, fun _ => rfl⟩
      · rw [List.getElem?_eq_none (by simpa using hle)] at ht; cases ht
    · rw [hc]
      refine ⟨fun c ch h => ?_, fun c ch' hle ht => ?_⟩
      · have hlt : c < s.channels.length := by
          rcases Nat.lt_or_ge c s.channels.length with h' | h'
          · exact h'
          · rw [List.getElem?_eq_none h'] at h; cases h
        exact ⟨ch, by rw [List.getElem?_append_left hlt]; exact h, fun _ => rfl⟩
      · rw [List.getElem?_append_right hle] at ht
        rcases Nat.eq_zero_or_pos (c - s.channels.length) with h0 | h0
        · rw [h0] at ht
          simp only [List.getElem?_cons_zero, Option.some.injEq] at ht
          rw [← ht]
        · rw [List.getElem?_eq_none (by simp only [List.length_singleton]; omega)] at ht
          cases ht
  cases h with
  | get net _ space key callback => exact hone (step.get net s space key callback)
  | put net _ space key value callback => exact hone (step.put net s space key value callback)
  | del net _ space key callback => exact hone (step.del net s space key callback)
  | update net _ _ space key value callback h =>
    exact hone (step.update net s t space key value callback h)
  | cycle env _ w hq => exact hzero (step.cycle env s w hq)
  | connect env fuel _ _ w w' ret h => exact hzero (step.connect env fuel s t w w' ret h)

/-- C13: a channel object is created with the id CLIENTSPACE, and once the id of a
channel differs from CLIENTSPACE no sequence of submissions, passes of `flush`
(with the frames they receive) and calls of `connect` changes it or removes the
channel object: the id of a channel changes at most once. -/
theorem C13_channel_id_changes_once {S : Nat} (E : externals S) :
    (∀ (k : Nat) (s t : async_client_impl S), step E k s t →
      ∀ (c : Nat) (ch' : channel S), s.channels.length ≤ c → t.channels[c]? = some ch' →
        ch'.id = E.CLIENTSPACE) ∧
    (∀ (n : Nat) (s t : async_client_impl S), runs E n s t →
      ∀ (c : Nat) (ch : channel S), s.channels[c]? = some ch → ch.id ≠ E.CLIENTSPACE →
        ∃ ch', t.channels[c]? = some ch' ∧ ch'.id = ch.id) := by
  refine ⟨fun k s t h => (step_ids E k s t h).2, ?_⟩
  intro n s t hruns
  induction hruns with
  | refl s => intro c ch hc _; exact ⟨ch, hc, rfl⟩
  | tail _ hstep ih =>
    intro c ch hc hne
    obtain ⟨ch1, hc1, hid1⟩ := ih c ch hc hne
    obtain ⟨ch2, hc2, hid2⟩ := (step_ids E _ _ _ hstep).1 c ch1 hc1
    exact ⟨ch2, hc2, by rw [hid2 (by rw [hid1]; exact hne), hid1]⟩

theorem C13_channel_id_changes_once_witness :
    ∃ ch' : channel 2,
      (async_client_impl.get sample_externals sample_network sample_client_known "s" [9]
        5).channels[0]? = some ch' ∧ ch'.id = ⟨[0, 7], rfl⟩ :=
  (C13_channel_id_changes_once sample_externals).2 (0 + 1) sample_client_known _
    (runs.tail (runs.refl _) (step.get sample_network sample_client_known "s" [9] 5))
    0 ⟨5, 2, ⟨[0, 7], rfl⟩⟩ (by decide) (by decide)

theorem getElem?_lt_of_some {A : Type} (l : List A) (i : Nat) (a : A) (h : l[i]? = some a) :
    i < l.length := by
  rcases Nat.lt_or_ge i l.length with h' | h'
  · exact h'
  · rw [List.getElem?_eq_none h'] at h; cases h

theorem nonces_ok_mono {S : Nat} (n m : Nat) (s : async_client_impl S) (h : nonces_ok n s)
    (hnm : n ≤ m) : nonces_ok m s :=
  ⟨fun ch hch => Nat.le_trans (h.1 ch hch) (by omega), h.2.1, h.2.2⟩

theorem nonces_ok_zero_step {S : Nat} (E : externals S) (n : Nat) (s t : async_client_impl S)
    (h : nonces_ok n s) (hstep : step E 0 s t) : nonces_ok n t := by
  obtain ⟨hlen, hch, hsub⟩ := step_zero_frame E s t hstep
  obtain ⟨h1, h2, h3⟩ := h
  refine ⟨?_, ?_, h3.sublist hsub⟩
  · intro ch' hmem
    obtain ⟨c, hc⟩ := List.mem_iff_getElem?.mp hmem
    have hlt : c < s.channels.length := by
      rw [← hlen]; exact getElem?_lt_of_some _ _ _ hc
    obtain ⟨ch'', hc'', hn, _⟩ := hch c (s.channels[c]) (List.getElem?_eq_getElem hlt)
    rw [hc] at hc''
    cases hc''
    rw [hn]
    exact h1 _ (List.getElem_mem hlt)
  · intro op hop
    obtain ⟨c, ch, hoc, hsc, hlt⟩ := h2 op (hsub.subset hop)
    obtain ⟨ch', hc', hn, _⟩ := hch c ch hsc
    exact ⟨c, ch', hoc, hc', by rw [hn]; exact hlt⟩

theorem live_append_some {S : Nat} (q : List (Option (pending S))) (op : pending S) :
    live (q ++ [some op]) = live q ++ [op] := by
  simp [live, List.filterMap_append]

theorem nonces_ok_submission {S : Nat} (E : externals S) (n : Nat)
    (s t : async_client_impl S) (h : nonces_ok n s) (heff : submission_effect E s t)
    (hn : n + 1 < 4294967296) : nonces_ok (n + 1) t := by
  obtain ⟨h1, h2, h3⟩ := h
  rcases heff with ⟨hc, hq⟩ | ⟨chan, c0, ent, inst, variant, hc0, hc, hq⟩ |
    ⟨fd, ent, inst, variant, hc, hq⟩
  · unfold nonces_ok
    rw [hc, hq]
    exact ⟨fun ch hch => Nat.le_trans (h1 ch hch) (by omega), h2, h3⟩
  · have hlt0 := getElem?_lt_of_some _ _ _ hc0
    have hb : c0.nonce ≤ n + 1 := h1 c0 (List.getElem?_mem hc0)
    have hmod1 : (c0.nonce + 1) % 18446744073709551616 = c0.nonce + 1 :=
      Nat.mod_eq_of_lt (by omega)
    have hmod2 : c0.nonce % 4294967296 = c0.nonce := Nat.mod_eq_of_lt (by omega)
    rw [hmod1] at hc
    rw [hmod2] at hq
    have hchan : ∀ op ∈ live s.m_requests, ∃ (c : Nat) (ch : channel S),
        op.chan = some c ∧ t.channels[c]? = some ch ∧ op.nonce < ch.nonce := by
      intro op hop
      obtain ⟨c, ch, hoc, hsc, hlt⟩ := h2 op hop
      by_cases hcc : chan = c
      · subst hcc
        rw [hc0] at hsc
        cases hsc
        exact ⟨chan, _, hoc, by rw [hc]; exact List.getElem?_set_self hlt0,
          Nat.lt_succ_of_lt hlt⟩
      · exact ⟨c, ch, hoc, by rw [hc, List.getElem?_set_ne hcc]; exact hsc, hlt⟩
    have hcount : ∀ ch ∈ t.channels, ch.nonce ≤ n + 1 + 1 := by
      intro ch hch
      rw [hc] at hch
      rcases List.mem_or_eq_of_mem_set hch with hm | he
      · exact Nat.le_trans (h1 ch hm) (by omega)
      · rw [he]; simp only []; omega
    rcases hq with hq | hq
    · refine ⟨hcount, ?_, ?_⟩ <;> rw [hq]
      · exact hchan
      · exact h3
    · refine ⟨hcount, ?_, ?_⟩ <;> rw [hq, live_append_some]
      · intro op hop
        rcases List.mem_append.mp hop with hop | hop
        · exact hchan op hop
        · rw [List.mem_singleton] at hop
          subst hop
          exact ⟨chan, _, rfl, by rw [hc]; exact List.getElem?_set_self hlt0,
            Nat.lt_succ_self _⟩
      · rw [List.pairwise_append]
        refine ⟨h3, List.pairwise_singleton _ _, ?_⟩
        intro p hp x hx hpx
        rw [List.mem_singleton] at hx
        subst hx
        obtain ⟨c, ch, hoc, hsc, hlt⟩ := h2 p hp
        simp only [] at hpx ⊢
        rw [hoc] at hpx
        cases hpx
        rw [hc0] at hsc
        cases hsc
        exact Nat.ne_of_lt hlt
  · have hchan : ∀ op ∈ live s.m_requests, ∃ (c : Nat) (ch : channel S),
        op.chan = some c ∧ t.channels[c]? = some ch ∧ op.nonce < ch.nonce := by
      intro op hop
      obtain ⟨c, ch, hoc, hsc, hlt⟩ := h2 op hop
      exact ⟨c, ch, hoc,
        by rw [hc, List.getElem?_append_left (getElem?_lt_of_some _ _ _ hsc)]; exact hsc, hlt⟩
    have hcount : ∀ ch ∈ t.channels, ch.nonce ≤ n + 1 + 1 := by
      intro ch hch
      rw [hc] at hch
      rcases List.mem_append.mp hch with hm | he
      · exact Nat.le_trans (h1 ch hm) (by omega)
      · rw [List.mem_singleton] at he
        rw [he]; simp only []; omega
    rcases hq with hq | hq
    · refine ⟨hcount, ?_, ?_⟩ <;> rw [hq]
      · exact hchan
      · exact h3
    · refine ⟨hcount, ?_, ?_⟩ <;> rw [hq, live_append_some]
      · intro op hop
        rcases List.mem_append.mp hop with hop | hop
        · exact hchan op hop
        · rw [List.mem_singleton] at hop
          subst hop
          exact ⟨s.channels.length, ⟨fd, 2, E.CLIENTSPACE⟩, rfl,
            by rw [hc]; simp, Nat.lt_succ_self 1⟩
      · rw [List.pairwise_append]
        refine ⟨h3, List.pairwise_singleton _ _, ?_⟩
        intro p hp x hx hpx
        rw [List.mem_singleton] at hx
        subst hx
        obtain ⟨c, ch, hoc, hsc, hlt⟩ := h2 p hp
        simp only [] at hpx
        rw [hoc] at hpx
        cases hpx
        exact absurd (getElem?_lt_of_some _ _ _ hsc) (Nat.lt_irrefl _)

theorem nonces_ok_step {S : Nat} (E : externals S) (n k : Nat) (s t : async_client_impl S)
    (h : nonces_ok n s) (hstep : step E k s t) (hn : n + k < 4294967296) :
    nonces_ok (n + k) t := by
  cases hstep with
  | get net _ space key callback =>
    exact nonces_ok_submission E n s _ h
      (step_submission E s _ (step.get net s space key callback)) hn
  | put net _ space key value callback =>
    exact nonces_ok_submission E n s _ h
      (step_submission E s _ (step.put net s space key value callback)) hn
  | del net _ space key callback =>
    exact nonces_ok_submission E n s _ h
      (step_submission E s _ (step.del net s space key callback)) hn
  | update net _ _ space key value callback hu =>
    exact nonces_ok_submission E n s t h
      (step_submission E s t (step.update net s t space key value callback hu)) hn
  | cycle env _ w hq => exact nonces_ok_zero_step E n s _ h (step.cycle env s w hq)
  | connect env fuel _ _ w w' ret hc =>
    exact nonces_ok_zero_step E n s t h (step.connect env fuel s t w w' ret hc)

theorem nonces_ok_runs {S : Nat} (E : externals S) (n : Nat) (s t : async_client_impl S)
    (hruns : runs E n s t) :
    ∀ m : Nat, nonces_ok m s → m + n < 4294967296 → nonces_ok (m + n) t := by
  induction hruns with
  | refl s => intro m h _; exact h
  | tail _ hstep ih =>
    intro m h hlt
    rw [← Nat.add_assoc]
    exact nonces_ok_step E _ _ _ _ (ih m h (by omega)) hstep (by omega)

theorem live_pairwise_lt {S : Nat} (R : pending S → pending S → Prop)
    (q : List (Option (pending S))) (h : (live q).Pairwise R) :
    ∀ (i j : Nat) (p r : pending S), i < j → q[i]? = some (some p) → q[j]? = some (some r) →
      R p r := by
  induction q with
  | nil => intro i j p r _ hi; simp at hi
  | cons x q ih =>
    intro i j p r hij hi hj
    cases j with
    | zero => exact absurd hij (Nat.not_lt_zero _)
    | succ j =>
      rw [List.getElem?_cons_succ] at hj
      cases i with
      | zero =>
        rw [List.getElem?_cons_zero] at hi
        cases hi
        rw [live_cons_some, List.pairwise_cons] at h
        refine h.1 r ?_
        unfold live
        rw [List.mem_filterMap]
        exact ⟨some r, List.getElem?_mem hj, rfl⟩
      | succ i =>
        rw [List.getElem?_cons_succ] at hi
        have hq : (live q).Pairwise R := by
          cases x with
          | none => exact h
          | some y => rw [live_cons_some, List.pairwise_cons] at h; exact h.2
        exact ih hq i j p r (Nat.lt_of_succ_lt_succ hij) hi hj

/-- C12, amended: in every client state reached from a freshly constructed client by
a sequence of submissions, passes of `flush` and calls of `connect` that holds
fewer than 2^32 submissions, two live requests at different places of the queue
that refer to the same channel carry different nonces.  The nonce of a request
is the counter of its channel, reduced to 32 bits; the counter of a channel
starts at 1 and every submission that reaches the channel adds one to it. -/
theorem C12_nonces_distinct {S : Nat} (E : externals S) (m_config : configuration S)
    (n : Nat) (t : async_client_impl S)
    (hruns : runs E n ⟨m_config, [], [], [], []⟩ t) (hn : n < 4294967296) :
    (∀ (i j : Nat) (p q : pending S), i ≠ j → t.m_requests[i]? = some (some p) →
      t.m_requests[j]? = some (some q) → p.chan = q.chan → p.nonce ≠ q.nonce) ∧
    (∀ s u : async_client_impl S, step E 1 s u → submission_effect E s u) := by
  refine ⟨?_, fun s u h => step_submission E s u h⟩
  have h0 : nonces_ok 0 (⟨m_config, [], [], [], []⟩ : async_client_impl S) := by
    refine ⟨?_, ?_, ?_⟩
    · intro ch h; cases h
    · intro op h; cases h
    · exact List.Pairwise.nil
  have hok := nonces_ok_runs E n _ t hruns 0 h0 (by omega)
  intro i j p q hij hi hj hpq
  rcases Nat.lt_or_gt_of_ne hij with hlt | hgt
  · exact live_pairwise_lt _ t.m_requests hok.2.2 i j p q hlt hi hj hpq
  · exact fun heq => live_pairwise_lt _ t.m_requests hok.2.2 j i q p hgt hj hi hpq.symm heq.symm

theorem C12_nonces_distinct_witness :
    (sample_submissions 2).m_requests[0]?
        = some (some ⟨some 0, ⟨[0, 1], rfl⟩, ⟨7, 3⟩, 1, .pending_get 4⟩) ∧
    (sample_submissions 2).m_requests[1]?
        = some (some ⟨some 0, ⟨[0, 1], rfl⟩, ⟨7, 3⟩, 2, .pending_get 4⟩) ∧
    (⟨some 0, ⟨[0, 1], rfl⟩, ⟨7, 3⟩, 1, .pending_get 4⟩ : pending 2).nonce
        ≠ (⟨some 0, ⟨[0, 1], rfl⟩, ⟨7, 3⟩, 2, .pending_get 4⟩ : pending 2).nonce :=
  ⟨by decide, by decide,
    (C12_nonces_distinct sample_externals sample_config (0 + 1 + 1) (sample_submissions 2)
      (runs.tail (runs.tail (runs.refl _) (step.get sample_network sample_client "s" [9] 4))
        (step.get sample_network (sample_submissions 1) "s" [9] 4)) (by decide)).1 0 1
      ⟨some 0, ⟨[0, 1], rfl⟩, ⟨7, 3⟩, 1, .pending_get 4⟩
      ⟨some 0, ⟨[0, 1], rfl⟩, ⟨7, 3⟩, 2, .pending_get 4⟩ (by decide) (by decide) (by decide)
      rfl⟩

theorem sample_get_on_open (s : async_client_impl 2) (k : Nat)
    (hcfg : s.m_config = sample_config) (htab : s.m_channels = [(⟨7, 3⟩, some 0)])
    (hch : s.channels = [⟨5, k, sample_externals.CLIENTSPACE⟩])
    (hk : k + 1 < 18446744073709551616) :
    (async_client_impl.get sample_externals sample_network s "s" [9] 4).m_config
        = sample_config ∧
    (async_client_impl.get sample_externals sample_network s "s" [9] 4).m_channels
        = [(⟨7, 3⟩, some 0)] ∧
    (async_client_impl.get sample_externals sample_network s "s" [9] 4).channels
        = [⟨5, k + 1, sample_externals.CLIENTSPACE⟩] ∧
    (async_client_impl.get sample_externals sample_network s "s" [9] 4).m_requests
        = s.m_requests ++ [some ⟨some 0, ⟨[0, 1], rfl⟩, ⟨7, 3⟩, k % 4294967296,
            .pending_get 4⟩] := by
  have h1 : s.m_config.lookup_spaceid "s" ≠ sample_externals.NULLSPACE := by
    rw [hcfg]; decide
  have h2 : ∀ r, s.m_config.headof r = ⟨[0, 1], rfl⟩ := by intro r; rw [hcfg]; rfl
  have h3 : ∀ e, s.m_config.instancefor e = ⟨7, 3⟩ := by intro e; rw [hcfg]; rfl
  have h4 : (⟨7, 3⟩ : hyperdex_instance) ≠ sample_externals.NULLINSTANCE := by decide
  have h5 : map_index s.m_channels (⟨7, 3⟩ : hyperdex_instance) none
      = (s.m_channels, some 0) := by rw [htab]; rfl
  have h6 : (⟨s.m_config, s.m_channels, s.m_requests, s.channels, s.trace⟩ :
      async_client_impl 2).channels[0]? = some ⟨5, k, sample_externals.CLIENTSPACE⟩ := by
    simp only [hch]; rfl
  unfold async_client_impl.get async_client_impl.add_reqrep
  simp only [if_neg h1, h2, h3, if_neg h4, h5]
  rw [enqueue_send_ok sample_network _ 0 ⟨5, k, sample_externals.CLIENTSPACE⟩ _ _ _ _ _ h6 rfl]
  simp only [hcfg, htab, hch, List.set_cons_zero, Nat.mod_eq_of_lt hk]
  exact ⟨trivial, trivial, trivial, rfl⟩

theorem sample_submissions_state (n : Nat) (hn : n ≤ 4294967297) :
    (sample_submissions (n + 1)).m_config = sample_config ∧
    (sample_submissions (n + 1)).m_channels = [(⟨7, 3⟩, some 0)] ∧
    (sample_submissions (n + 1)).channels = [⟨5, n + 2, sample_externals.CLIENTSPACE⟩] ∧
    (sample_submissions (n + 1)).m_requests
      = (List.range (n + 1)).map (fun i =>
          some ⟨some 0, ⟨[0, 1], rfl⟩, ⟨7, 3⟩, (i + 1) % 4294967296, .pending_get 4⟩) := by
  induction n with
  | zero => exact ⟨rfl, by decide, by decide, by decide⟩
  | succ n ih =>
    obtain ⟨a, b, c, d⟩ := ih (by omega)
    obtain ⟨a', b', c', d'⟩ := sample_get_on_open (sample_submissions (n + 1)) (n + 2) a b c
      (by omega)
    refine ⟨a', b', c', ?_⟩
    show (async_client_impl.get sample_externals sample_network (sample_submissions (n + 1))
      "s" [9] 4).m_requests = _
    rw [d', d, List.range_succ (n := n + 1), List.map_append]
    rfl

theorem sample_submissions_runs (n : Nat) :
    runs sample_externals n sample_client (sample_submissions n) := by
  induction n with
  | zero => exact runs.refl _
  | succ n ih => exact runs.tail ih (step.get sample_network (sample_submissions n) "s" [9] 4)

/-- C12, counterexample: after 2^32 + 1 submissions of a `get` to one instance, all
of them sent and none retired, the first and the last request of the queue are
live, refer to the same channel and both carry the nonce 1. -/
theorem C12_nonce_wraps :
    ∃ (t : async_client_impl 2) (p q : pending 2),
      runs sample_externals 4294967297 sample_client t ∧
      t.m_requests[0]? = some (some p) ∧ t.m_requests[4294967296]? = some (some q) ∧
      p.chan = q.chan ∧ p.nonce = q.nonce := by
  obtain ⟨_, _, _, hq⟩ := sample_submissions_state 4294967296 (by omega)
  refine ⟨sample_submissions 4294967297,
    ⟨some 0, ⟨[0, 1], rfl⟩, ⟨7, 3⟩, 1, .pending_get 4⟩,
    ⟨some 0, ⟨[0, 1], rfl⟩, ⟨7, 3⟩, 1, .pending_get 4⟩,
    sample_submissions_runs 4294967297, ?_, ?_, rfl, rfl⟩
  · show (sample_submissions (4294967296 + 1)).m_requests[0]? = _
    rw [hq, List.getElem?_map, List.getElem?_range (by omega)]
    rfl
  · show (sample_submissions (4294967296 + 1)).m_requests[4294967296]? = _
    rw [hq, List.getElem?_map, List.getElem?_range (by omega)]
    rfl

/-! ## Channel failure -/

theorem flush_reconfigure_sweep {S : Nat} (m_config : configuration S)
    (q : List (Option (pending S))) :
    (async_client_impl.flush_reconfigure m_config q).1
      = q.map (fun r => r.bind (fun op =>
          if m_config.instancefor op.ent ≠ op.inst then none else some op)) ∧
    (async_client_impl.flush_reconfigure m_config q).2
      = (((live q).filter (fun op => decide (m_config.instancefor op.ent ≠ op.inst))).map
          (fun op => op.result RECONFIGURE)).flatten ∧
    ∀ op ∈ live (async_client_impl.flush_reconfigure m_config q).1,
      m_config.instancefor op.ent = op.inst := by
  induction q with
  | nil => exact ⟨rfl, rfl, fun op h => by cases h⟩
  | cons r q ih =>
    obtain ⟨ih1, ih2, ih3⟩ := ih
    cases r with
    | none =>
      simp only [async_client_impl.flush_reconfigure, live_cons_none]
      exact ⟨by rw [ih1]; rfl, ih2, ih3⟩
    | some op =>
      by_cases hm : m_config.instancefor op.ent ≠ op.inst
      · simp only [async_client_impl.flush_reconfigure, if_pos hm, live_cons_none,
          live_cons_some]
        refine ⟨by rw [ih1]; simp [hm], ?_, ih3⟩
        rw [ih2]; simp [List.filter_cons, hm]
      · have hm' : m_config.instancefor op.ent = op.inst := not_not.mp hm
        simp only [async_client_impl.flush_reconfigure, if_neg hm, live_cons_some]
        refine ⟨by rw [ih1]; simp [hm'], ?_, ?_⟩
        · rw [ih2]; simp [List.filter_cons, hm']
        · intro p hp
          rcases List.mem_cons.mp hp with rfl | hp
          · exact not_not.mp hm
          · exact ih3 p hp

/-- C14, at the failing input: `connect` is called while a request is live in the
queue and the link announces a snapshot in which the instance of its entity
has moved.  `connect` adopts and acknowledges the snapshot and returns SUCCESS;
the request is still live, its recorded instance differs from the instance of
its entity under the new snapshot, and no continuation has been invoked. -/
theorem C14_connect_keeps_stale_pending :
    ∃ (s' : async_client_impl 2) (w' : script 2) (p : pending 2),
      async_client_impl.connect (script_env 2) 1 sample_client_waiting reconnect_script
        = some (SUCCESS, s', w') ∧
      (script_env 2).unacknowledged w' = false ∧
      s'.m_requests[0]? = some (some p) ∧
      s'.m_config.instancefor p.ent ≠ p.inst ∧
      callbacks s'.trace = callbacks sample_client_waiting.trace :=
  ⟨_, _, ⟨some 0, ⟨[0, 1], rfl⟩, ⟨7, 3⟩, 1, .pending_get 4⟩, rfl, rfl, by decide, by decide,
    by decide⟩

theorem flush_compact_head {S : Nat} (q : List (Option (pending S))) :
    async_client_impl.flush_compact q = [] ∨
    ∃ op rest, async_client_impl.flush_compact q = some op :: rest := by
  induction q with
  | nil => exact Or.inl rfl
  | cons r q ih =>
    cases r with
    | none => exact ih
    | some op => exact Or.inr ⟨op, q, rfl⟩

/-- C20, at the failing input: a pass of the loop of `flush` that adopts a new
snapshot under which the only request of the queue has to be retired.  The
pass ends at the `continue`, without the compaction of the head: the queue is
not empty and its head is a tombstone. -/
theorem C20_topology_cycle_skips_compaction :
    (∃ (s' : async_client_impl 2) (w' : script 2),
      async_client_impl.flush_cycle sample_externals (script_env 2) sample_client_waiting
        topology_script = .continued s' w') ∧
    (async_client_impl.flush_cycle sample_externals (script_env 2) sample_client_waiting
        topology_script).state.m_requests = [none] ∧
    (async_client_impl.flush_cycle sample_externals (script_env 2) sample_client_waiting
        topology_script).state.trace
      = sample_client_waiting.trace ++ [event.callback_get 4 RECONFIGURE []] :=
  ⟨⟨_, _, rfl⟩, by decide, by decide⟩

/-! ## Statuses a submission can report -/

theorem mem_pending_result {S : Nat} (op : pending S) (ret : returncode) (e : event)
    (h : e ∈ op.result ret) :
    e = event.callback_get op.callback ret [] ∨ e = event.callback_mutate op.callback ret := by
  unfold pending.result at h
  unfold pending.callback
  cases hv : op.variant with
  | pending_get cb =>
    rw [hv] at h
    exact Or.inl (List.mem_singleton.mp h)
  | pending_mutate expected cb =>
    rw [hv] at h
    exact Or.inr (List.mem_singleton.mp h)

theorem enqueue_trace {S : Nat} (net : network) (s : async_client_impl S)
    (chan : Nat) (dst_ent : entityid S) (dst_inst : hyperdex_instance)
    (send_type : network_msgtype) (send_msg : buffer) (op : pending S) :
    ∃ added : List event,
      (async_client_impl.add_reqrep_enqueue net s chan dst_ent dst_inst send_type send_msg
          op).trace = s.trace ++ added ∧
      ∀ e ∈ added, (∃ soc packed ok, e = event.xsend soc packed ok) ∨
        e ∈ op.result DISCONNECT := by
  cases hc : s.channels[chan]? with
  | none =>
    refine ⟨[], ?_, fun e he => absurd he (List.not_mem_nil e)⟩
    unfold async_client_impl.add_reqrep_enqueue
    rw [hc, List.append_nil]
  | some c =>
    cases hsend : net.xsend c.soc (async_client_impl.build_frame c.id dst_ent dst_inst
        (c.nonce % 4294967296) send_type send_msg) with
    | true =>
      rw [enqueue_send_ok net s chan c dst_ent dst_inst send_type send_msg op hc hsend]
      refine ⟨_, rfl, fun e he => Or.inl ?_⟩
      rw [List.mem_singleton] at he
      exact ⟨_, _, _, he⟩
    | false =>
      rw [enqueue_send_fails net s chan c dst_ent dst_inst send_type send_msg op hc hsend]
      refine ⟨_, List.append_assoc _ _ _, fun e he => ?_⟩
      rcases List.mem_append.mp he with h1 | h2
      · rw [List.mem_singleton] at h1
        exact Or.inl ⟨_, _, _, h1⟩
      · exact Or.inr h2

theorem add_reqrep_trace {S : Nat} (E : externals S) (net : network)
    (s : async_client_impl S) (space : String) (key : buffer) (send_type : network_msgtype)
    (send_msg : buffer) (op : pending S) :
    ∃ added : List event,
      (async_client_impl.add_reqrep E net s space key send_type send_msg op).trace
        = s.trace ++ added ∧
      ∀ e ∈ added, (∃ soc packed ok, e = event.xsend soc packed ok) ∨
        (∃ inst ok, e = event.connect inst ok) ∨
        e ∈ op.result NOTASPACE ∨ e ∈ op.result CONNECTFAIL ∨ e ∈ op.result DISCONNECT := by
  unfold async_client_impl.add_reqrep
  simp only []
  generalize s.m_config.headof
    ⟨(s.m_config.lookup_spaceid space).space, 0, 64, E.CityHash64 key⟩ = dst_ent
  generalize s.m_config.instancefor dst_ent = dst_inst
  split
  · exact ⟨_, rfl, fun e he => Or.inr (Or.inr (Or.inl he))⟩
  · split
    · exact ⟨_, rfl, fun e he => Or.inr (Or.inr (Or.inr (Or.inl he)))⟩
    · split
      · rename_i table chan hmi
        obtain ⟨added, h1, h2⟩ := enqueue_trace net { s with m_channels := table } chan
          dst_ent dst_inst send_type send_msg op
        refine ⟨added, h1, fun e he => ?_⟩
        rcases h2 e he with h | h
        · exact Or.inl h
        · exact Or.inr (Or.inr (Or.inr (Or.inr h)))
      · rename_i table hmi
        split
        · refine ⟨_, List.append_assoc _ _ _, fun e he => ?_⟩
          rcases List.mem_append.mp he with h1 | h2
          · rw [List.mem_singleton] at h1
            exact Or.inr (Or.inl ⟨_, _, h1⟩)
          · exact Or.inr (Or.inr (Or.inr (Or.inl h2)))
        · rename_i fd hfd
          obtain ⟨added, h1, h2⟩ := enqueue_trace net
            (async_client_impl.mk s.m_config (map_assign table dst_inst (some s.channels.length))
              s.m_requests (s.channels ++ [⟨fd, 1, E.CLIENTSPACE⟩])
              (s.trace ++ [event.connect dst_inst true]))
            s.channels.length dst_ent dst_inst send_type send_msg op
          refine ⟨[event.connect dst_inst true] ++ added, ?_, fun e he => ?_⟩
          · rw [← List.append_assoc]; exact h1
          · rcases List.mem_append.mp he with h3 | h3
            · rw [List.mem_singleton] at h3
              exact Or.inr (Or.inl ⟨_, _, h3⟩)
            · rcases h2 e h3 with h | h
              · exact Or.inl h
              · exact Or.inr (Or.inr (Or.inr (Or.inr h)))

theorem add_reqrep_not_bad_dimension {S : Nat} (E : externals S) (net : network)
    (s : async_client_impl S) (space : String) (key : buffer) (send_type : network_msgtype)
    (send_msg : buffer) (op : pending S) (cb : Nat) :
    async_client_impl.add_reqrep E net s space key send_type send_msg op
      ≠ { s with trace := s.trace ++ [event.callback_mutate cb BADDIMENSION] } := by
  intro h
  obtain ⟨added, h1, h2⟩ := add_reqrep_trace E net s space key send_type send_msg op
  rw [h] at h1
  have hadd : added = [event.callback_mutate cb BADDIMENSION] :=
    (List.append_cancel_left h1).symm
  have hmem := h2 (event.callback_mutate cb BADDIMENSION)
    (by rw [hadd]; exact List.mem_singleton.mpr rfl)
  rcases hmem with ⟨_, _, _, h3⟩ | ⟨_, _, h3⟩ | h3 | h3 | h3
  · cases h3
  · cases h3
  all_goals
    rcases mem_pending_result op _ _ h3 with h4 | h4 <;> cases h4

/-- C21: in a known space whose dimension list is `k :: rest` (`k` the key name
`d[0]`, `rest` the non-key dimensions `d[1..]`): when `k` does not occur again
in `rest`, an update whose mapping has the name `k` invokes the continuation
exactly once, with BADDIMENSION, and leaves the queue of requests, the channel
table and the channels as they were, although `k` is in the dimension list.
In general an update with a supplied name outside `rest` ends in that way, and
an update is handed to `add_reqrep`, which never reports BADDIMENSION, when
every supplied name is in `rest`. -/
theorem C21_update_key_name_refused {S : Nat} (E : externals S) (net : network)
    (s : async_client_impl S) (space : String) (key : buffer)
    (value : List (String × buffer)) (callback : Nat) (k : String) (rest : List String)
    (hspace : s.m_config.lookup_spaceid space ≠ E.NULLSPACE)
    (hdims : s.m_config.lookup_space_dimensions (s.m_config.lookup_spaceid space)
      = k :: rest) :
    (k ∉ rest → k ∈ value.map Prod.fst →
      k ∈ s.m_config.lookup_space_dimensions (s.m_config.lookup_spaceid space) ∧
      async_client_impl.update E net s space key value callback
        = some { s with trace := s.trace ++ [event.callback_mutate callback BADDIMENSION] }) ∧
    ((∃ kv ∈ value, kv.1 ∉ rest) →
      async_client_impl.update E net s space key value callback
        = some { s with trace := s.trace ++ [event.callback_mutate callback BADDIMENSION] }) ∧
    ((∀ kv ∈ value, kv.1 ∈ rest) →
      async_client_impl.update E net s space key value callback
        = some (async_client_impl.add_reqrep E net s space key E.consts.REQ_UPDATE
            (async_client_impl.update_msg E.pack key
              (async_client_impl.update_build (k :: rest) value))
            (pending.create S (.pending_mutate E.consts.RESP_UPDATE callback))) ∧
      async_client_impl.update E net s space key value callback
        ≠ some { s with trace := s.trace ++ [event.callback_mutate callback BADDIMENSION] }) := by
  have hlen : (s.m_config.lookup_space_dimensions (s.m_config.lookup_spaceid space)).length
      ≠ 0 := by rw [hdims]; exact Nat.succ_ne_zero _
  have hne : s.m_config.lookup_space_dimensions (s.m_config.lookup_spaceid space) ≠ [] := by
    rw [hdims]; exact List.cons_ne_nil k rest
  have hrefuse : (∃ kv ∈ value, kv.1 ∉ rest) →
      async_client_impl.update E net s space key value callback
        = some { s with
            trace := s.trace ++ [event.callback_mutate callback BADDIMENSION] } := by
    intro hbad
    have hun : async_client_impl.update_unseen value
        (async_client_impl.update_build
          (s.m_config.lookup_space_dimensions (s.m_config.lookup_spaceid space)) value).seen
        = true := by
      rw [update_unseen_iff, hdims]
      exact hbad
    unfold async_client_impl.update
    simp only [if_neg hspace, if_neg hlen, hun, if_true]
  refine ⟨fun hk hin => ⟨by rw [hdims]; exact List.mem_cons_self k rest, ?_⟩, hrefuse, ?_⟩
  · obtain ⟨kv, hkv, hfst⟩ := List.mem_map.mp hin
    exact hrefuse ⟨kv, hkv, by rw [hfst]; exact hk⟩
  · intro hacc
    have h := update_accepted E net s space key value callback hspace hne
      (by rw [hdims]; exact hacc)
    rw [hdims] at h
    refine ⟨h, ?_⟩
    rw [h]
    intro heq
    exact add_reqrep_not_bad_dimension E net s space key _ _ _ callback (Option.some.inj heq)

theorem C21_update_key_name_refused_witness :
    "key" ∈ sample_client_open.m_config.lookup_space_dimensions
        (sample_client_open.m_config.lookup_spaceid "s") ∧
      async_client_impl.update sample_externals sample_network sample_client_open "s" [9]
          [("a", [1]), ("key", [9])] 4
        = some { sample_client_open with
            trace := sample_client_open.trace ++ [event.callback_mutate 4 BADDIMENSION] } :=
  (C21_update_key_name_refused sample_externals sample_network sample_client_open "s" [9]
    [("a", [1]), ("key", [9])] 4 "key" ["a", "b"] (by decide) (by decide)).1
    (by decide) (by decide)

/-- C22: a submission to a known space whose routed entity has no responsible
instance (`instancefor` answers NULLINSTANCE) invokes the continuation exactly
once, with CONNECTFAIL (and an empty value list for get), and does nothing
else: the channel table is not indexed, so it gains no entry, no channel is
opened, nothing is sent, and the queue of requests, the channel table and the
channels are the ones before the call.  This holds for `add_reqrep` with any
pending and so for get, put, del and every update that reaches `add_reqrep`. -/
theorem C22_no_responsible_instance {S : Nat} (E : externals S) (net : network)
    (s : async_client_impl S) (space : String) (key : buffer)
    (hspace : s.m_config.lookup_spaceid space ≠ E.NULLSPACE)
    (hnull : s.m_config.instancefor (s.m_config.headof
      ⟨(s.m_config.lookup_spaceid space).space, 0, 64, E.CityHash64 key⟩) = E.NULLINSTANCE) :
    (∀ (send_type : network_msgtype) (send_msg : buffer) (op : pending S),
      async_client_impl.add_reqrep E net s space key send_type send_msg op
        = { s with trace := s.trace ++ op.result CONNECTFAIL }) ∧
    (∀ callback : Nat, async_client_impl.get E net s space key callback
        = { s with trace := s.trace ++ [event.callback_get callback CONNECTFAIL []] }) ∧
    (∀ (values : List buffer) (callback : Nat),
      async_client_impl.put E net s space key values callback
        = { s with trace := s.trace ++ [event.callback_mutate callback CONNECTFAIL] }) ∧
    (∀ callback : Nat, async_client_impl.del E net s space key callback
        = { s with trace := s.trace ++ [event.callback_mutate callback CONNECTFAIL] }) ∧
    (∀ (value : List (String × buffer)) (callback : Nat),
      s.m_config.lookup_space_dimensions (s.m_config.lookup_spaceid space) ≠ [] →
      (∀ kv ∈ value,
        kv.1 ∈ (s.m_config.lookup_space_dimensions (s.m_config.lookup_spaceid space)).drop 1) →
      async_client_impl.update E net s space key value callback
        = some { s with trace := s.trace ++ [event.callback_mutate callback CONNECTFAIL] }) := by
  have hadd : ∀ (send_type : network_msgtype) (send_msg : buffer) (op : pending S),
      async_client_impl.add_reqrep E net s space key send_type send_msg op
        = { s with trace := s.trace ++ op.result CONNECTFAIL } := by
    intro send_type send_msg op
    unfold async_client_impl.add_reqrep
    simp only [if_neg hspace, if_pos hnull]
  refine ⟨hadd, fun callback => ?_, fun values callback => ?_, fun callback => ?_,
    fun value callback hdims hacc => ?_⟩
  · unfold async_client_impl.get
    simp only [hadd]
    rfl
  · unfold async_client_impl.put
    simp only [hadd]
    rfl
  · unfold async_client_impl.del
    simp only [hadd]
    rfl
  · rw [update_accepted E net s space key value callback hspace hdims hacc, hadd]
    rfl

theorem C22_no_responsible_instance_witness :
    async_client_impl.get sample_externals sample_network sample_client_vacant "s" [9] 6
      = { sample_client_vacant with
          trace := sample_client_vacant.trace ++ [event.callback_get 6 CONNECTFAIL []] } :=
  (C22_no_responsible_instance sample_externals sample_network sample_client_vacant "s" [9]
    (by decide) (by decide)).2.1 6

/-- C23: for both variants, a delivery with entry status SUCCESS, the expected
reply type (RESP_GET for a read-pending, the recorded type for a
mutate-pending) and a body that starts with the 16-bit code NET_NOTUS invokes
the continuation exactly once, with LOGICERROR, which is neither SERVERERROR
nor RECONFIGURE, and with an empty value list for a read-pending, whatever
follows the code in the body. -/
theorem C23_not_us_is_logic_error (N : network_constants) (P : packing) (hN : N.codes_ok)
    (cb : Nat) (expected : network_msgtype) (rest : buffer) :
    pending_get.result_msg N P cb SUCCESS N.RESP_GET (pack_uint 2 N.NET_NOTUS ++ rest)
        = [event.callback_get cb LOGICERROR []] ∧
    pending_mutate.result_msg N expected cb SUCCESS expected (pack_uint 2 N.NET_NOTUS ++ rest)
        = [event.callback_mutate cb LOGICERROR] ∧
    LOGICERROR ≠ SERVERERROR ∧ LOGICERROR ≠ RECONFIGURE := by
  obtain ⟨hnd, hlt⟩ := hN
  have hcode : N.NET_NOTUS < 65536 := hlt N.NET_NOTUS (by simp)
  simp only [List.nodup_cons, List.mem_cons, List.mem_singleton, not_or, List.not_mem_nil,
    not_false_eq_true, List.nodup_nil, and_true] at hnd
  obtain ⟨⟨h12, h13, h14, h15⟩, ⟨h23, h24, h25⟩, ⟨h34, h35⟩, h45⟩ := hnd
  have hu := unpack_uint16_pack N.NET_NOTUS rest hcode
  refine ⟨?_, ?_, by decide, by decide⟩
  · simp [pending_get.result_msg, pending_get.result_switch, hu, Ne.symm h14, Ne.symm h24,
      Ne.symm h34]
  · simp [pending_mutate.result_msg, pending_mutate.result_switch, hu, Ne.symm h14,
      Ne.symm h24, Ne.symm h34]

theorem C23_not_us_is_logic_error_witness :
    pending_get.result_msg sample_constants sample_packing 7 SUCCESS sample_constants.RESP_GET
        (pack_uint 2 sample_constants.NET_NOTUS ++ [0, 0, 0, 1, 0, 0, 0, 1, 86])
        = [event.callback_get 7 LOGICERROR []] ∧
    pending_mutate.result_msg sample_constants 11 7 SUCCESS 11
        (pack_uint 2 sample_constants.NET_NOTUS ++ [0, 0, 0, 1, 0, 0, 0, 1, 86])
        = [event.callback_mutate 7 LOGICERROR] ∧
    LOGICERROR ≠ SERVERERROR ∧ LOGICERROR ≠ RECONFIGURE :=
  C23_not_us_is_logic_error sample_constants sample_packing (by decide) 7 11
    [0, 0, 0, 1, 0, 0, 0, 1, 86]

end hyperclient
